import Mathlib

/-!
# dagger eBPF tracers: a shallow embedding

Source files embedded here:

* `engine/ebpf/bpf/common.h` (`read_dentry_path`)
* `engine/ebpf/filetracer/bpf/fileops.bpf.c` (the file-ops tracer)
* `engine/ebpf/ovltracer/bpf/ovl_inuse.bpf.c` (the overlay-inuse tracer)
* `cmd/container-mount/main.c` (the mount-injection helper)

Conventions.

* A C array `char a[n]` is a function `Fin n → Nat`; a raw `char *` into memory
  is a function `Nat → Nat` (the byte at each offset from the pointer).
* Unsigned machine integers are `Nat` with an explicit `% 2 ^ w` wherever the C
  type wraps; signed ones are `Int`.
* Everything a BPF helper returns (current task, clock, user and kernel memory,
  the ring-buffer reservation, whether a hash map is full) is an explicit input
  of the handler, collected in `Env`.
-/

namespace Dagger

/-! ## Bytes and C strings -/

/-- A C array of `n` bytes, `char a[n]`. -/
abbrev Bytes (n : Nat) := Fin n → Nat

/-- The all-zero array, as produced by a C initialiser that omits the member. -/
def zeroBytes (n : Nat) : Bytes n := fun _ => 0

/-- Scan for a NUL from index `i`, looking at no more than `fuel` bytes: the index
of the first NUL found, or `i + fuel`. -/
def strnlen_from (s : Nat → Nat) : Nat → Nat → Nat
  | 0, i => i
  | fuel + 1, i => if s i = 0 then i else strnlen_from s fuel (i + 1)

/-- Index of the first NUL among `s 0, ..., s (m - 1)`, or `m` when there is none. -/
def strnlen (s : Nat → Nat) (m : Nat) : Nat := strnlen_from s m 0

/-- The C string found at a pointer, cut after `m` bytes: the bytes before the
first NUL, `m` bytes when no NUL occurs among them. -/
def mem_str (s : Nat → Nat) (m : Nat) : List Nat :=
  (List.range (strnlen s m)).map s

/-- Read `a[j]`; an index outside the array reads as 0. -/
def rd {n : Nat} (a : Bytes n) (j : Nat) : Nat := if h : j < n then a ⟨j, h⟩ else 0

/-- The NUL-terminated string held in a byte array: the bytes before the first
NUL (all `n` bytes when the array holds no NUL). -/
def cstr {n : Nat} (a : Bytes n) : List Nat := mem_str (rd a) n

/-- Kernel helpers `bpf_probe_read_user_str` / `bpf_probe_read_kernel_str`
called as `helper(dst, sizeof(dst), src)` with `dst` an array of `n` bytes.
`src = none` is a faulting read: the helper zero-fills the destination.
Otherwise at most `n - 1` bytes are copied up to the first NUL, a NUL is
written after them, and the rest of `dst` keeps its old contents (the user
variant may clear a few bytes after the NUL, up to the next word boundary; no
statement below depends on the bytes after the NUL). -/
def bpf_probe_read_str {n : Nat} (dst : Bytes n) (src : Option (Nat → Nat)) : Bytes n :=
  match src with
  | none => fun _ => 0
  | some s =>
    fun i =>
      if i.val < strnlen s (n - 1) then s i.val
      else if i.val = strnlen s (n - 1) then 0
      else dst i

/-! ## fileops.bpf.c: the comm filter -/

/-- The unrolled loop of `should_trace`, from index `i` with `fuel` iterations
left:
```
for (int i = 0; i < 16; i++) {
    if (target[i] != comm[i]) return 0;
    if (target[i] == 0) break;
}
return 1;
``` -/
def should_trace_loop (target comm : Bytes 16) : Nat → Nat → Nat
  | _, 0 => 1
  | i, fuel + 1 =>
    if h : i < 16 then
      if target ⟨i, h⟩ ≠ comm ⟨i, h⟩ then 0
      else if target ⟨i, h⟩ = 0 then 1
      else should_trace_loop target comm (i + 1) fuel
    else 1

/-- Function `should_trace`. `target` is the result of
`bpf_map_lookup_elem(&target_comm, &zero)` (`none` for a NULL result) and
`comm` is what `bpf_get_current_comm` stores. -/
def should_trace (target : Option (Bytes 16)) (comm : Bytes 16) : Nat :=
  match target with
  | none => 0
  | some t => if t 0 = 0 then 0 else should_trace_loop t comm 0 16

/-- Build a 16-byte array from a list of bytes, NUL padded. -/
def bytes16 (l : List Nat) : Bytes 16 := fun i => l.getD i.val 0

/-! ## Machine arithmetic -/

/-- The C cast `(__s32)x` of a signed value: keep the low 32 bits, read as two's
complement. -/
def to_s32 (x : Int) : Int := (x + 2 ^ 31) % 2 ^ 32 - 2 ^ 31

/-- Subtraction of two `__u64` values, `a - b` wrapping at `2 ^ 64`. -/
def u64_sub (a b : Nat) : Nat := (a % 2 ^ 64 + (2 ^ 64 - b % 2 ^ 64)) % 2 ^ 64

/-- The expression `pid_tgid >> 32` stored in a `__u32` field. -/
def tgid_of (pid_tgid : Nat) : Nat := (pid_tgid >>> 32) % 2 ^ 32

/-! ## BPF hash maps -/

/-- A `BPF_MAP_TYPE_HASH` with `__u64` keys: the value stored under each key. -/
abbrev BpfHash (V : Type) := Nat → Option V

/-- Kernel helper `bpf_map_lookup_elem`. -/
def bpf_map_lookup_elem {V : Type} (m : BpfHash V) (k : Nat) : Option V := m k

/-- Whether an insertion under key `k` is refused: the map is full and `k` is not
in it. -/
def refused {V : Type} (full : Bool) (m : BpfHash V) (k : Nat) : Bool :=
  full && (m k).isNone

/-- Kernel helper `bpf_map_update_elem(map, &k, &v, BPF_ANY)`; every caller in
the source ignores its return value. An existing key is overwritten in place; a
new key is refused when the map already holds `max_entries` entries (`full`). -/
def bpf_map_update_elem {V : Type} (full : Bool) (m : BpfHash V) (k : Nat) (v : V) :
    BpfHash V :=
  if refused full m k then m else fun j => if j = k then some v else m j

/-- Kernel helper `bpf_map_delete_elem`: the key is removed; nothing changes when
it is absent. -/
def bpf_map_delete_elem {V : Type} (m : BpfHash V) (k : Nat) : BpfHash V :=
  fun j => if j = k then none else m j

/-! ## fileops.bpf.c: data model -/

def MAX_PATH_LEN : Nat := 128
def MAX_STACK_DEPTH : Nat := 16

def OP_MOUNT : Nat := 1
def OP_UMOUNT : Nat := 2
def OP_UNLINKAT : Nat := 3
def OP_MKDIRAT : Nat := 4
def OP_STAT : Nat := 5
def OP_OVL_WORKDIR_CREATE : Nat := 6
def OP_OVL_WORKDIR_CLEANUP : Nat := 7
def OP_VFS_MKDIR : Nat := 8
def OP_VFS_RMDIR : Nat := 9

/-- The record `struct file_event`. -/
structure file_event where
  timestamp_ns : Nat
  duration_ns : Nat
  stack : Fin 16 → Nat
  error : Int
  tgid : Nat
  op : Nat
  flags : Nat
  stack_size : Nat
  comm : Bytes 16
  path : Bytes 128
  path2 : Bytes 128

/-- The record `struct syscall_ctx`. -/
structure syscall_ctx where
  start_ns : Nat
  op : Nat
  flags : Nat
  path : Bytes 128
  path2 : Bytes 128

/-- The record `struct kprobe_ctx`. -/
structure kprobe_ctx where
  start_ns : Nat
  op : Nat

/-- Kernel memory as the probe-read helpers see it. `none` is a faulting read. -/
structure KMem where
  /-- the pointer `d_name.name` of the dentry at an address -/
  d_name : Nat → Option Nat
  /-- the pointer `d_parent` of the dentry at an address -/
  d_parent : Nat → Option Nat
  /-- the bytes found at an address -/
  str : Nat → Option (Nat → Nat)

/-- What the BPF helpers hand to one handler invocation. -/
structure Env where
  /-- result of `bpf_map_lookup_elem(&target_comm, &zero)` -/
  target_comm : Option (Bytes 16)
  /-- what `bpf_get_current_comm` stores -/
  comm : Bytes 16
  /-- result of `bpf_get_current_pid_tgid` -/
  pid_tgid : Nat
  /-- result of `bpf_ktime_get_ns` -/
  ktime : Nat
  /-- user memory: the bytes found at a user pointer, `none` when the read faults -/
  user_mem : Nat → Option (Nat → Nat)
  /-- kernel memory -/
  kmem : KMem
  /-- whether the hash map the handler inserts into is full -/
  map_full : Bool
  /-- result of `bpf_ringbuf_reserve`: `none` for NULL, else the prior contents
  of the reserved memory (the ring buffer does not clear it) -/
  reserve : Option file_event
  /-- return value of `bpf_get_stack` -/
  stack_ret : Int
  /-- the frames `bpf_get_stack` found -/
  stack_frames : Fin 16 → Nat
  /-- prior contents of the stack slot of the local `name[48]` -/
  name0 : Bytes 48
  /-- prior contents of the stack slot of the local `parent_name[48]` -/
  parent_name0 : Bytes 48

/-- State of the file-ops tracer: its two hash maps and the records submitted to
the ring buffer `events`, oldest first. -/
structure FState where
  syscall_ctx_map : BpfHash syscall_ctx
  kprobe_ctx_map : BpfHash kprobe_ctx
  events : List file_event

/-- Both maps empty, nothing submitted. -/
def FState.init : FState :=
  { syscall_ctx_map := fun _ => none, kprobe_ctx_map := fun _ => none, events := [] }

/-! ## common.h: read_dentry_path -/

/-- The assignment `buf[pos] = c` through a raw pointer. -/
def poke (buf : Nat → Nat) (pos : Nat) (c : Nat) : Nat → Nat :=
  fun j => if j = pos then c else buf j

/-- Kernel helper `bpf_probe_read_kernel` of one pointer-sized field; a faulting
read zero-fills the destination. -/
def bpf_probe_read_kernel (r : Option Nat) : Nat := r.getD 0

/-- The two copy loops of `read_dentry_path`,
`for (int i = 0; i < 47 && src[i] && pos < lim; i++) buf[pos++] = src[i];`,
from index `i` with `fuel` iterations left. Returns the buffer and `pos`. -/
def copy_loop (src : Bytes 48) (lim : Int) : Nat → Nat → (Nat → Nat) → Nat → (Nat → Nat) × Nat
  | 0, _, buf, pos => (buf, pos)
  | fuel + 1, i, buf, pos =>
    if h : i < 47 then
      if src ⟨i, by omega⟩ ≠ 0 ∧ (pos : Int) < lim then
        copy_loop src lim fuel (i + 1) (poke buf pos (src ⟨i, by omega⟩)) (pos + 1)
      else (buf, pos)
    else (buf, pos)

/-- The local `name` of `read_dentry_path` after the block "Read current dentry
name". -/
def dentry_name (k : KMem) (name0 : Bytes 48) (dentry : Nat) : Bytes 48 :=
  let d_name := bpf_probe_read_kernel (k.d_name dentry)
  if d_name ≠ 0 then bpf_probe_read_str name0 (k.str d_name)
  else fun i => if i.val = 0 then 0 else name0 i

/-- The locals `parent_name` and `have_parent` of `read_dentry_path` after the
block "Read parent dentry name". -/
def dentry_parent (k : KMem) (parent_name0 : Bytes 48) (dentry : Nat) : Bytes 48 × Nat :=
  let parent := bpf_probe_read_kernel (k.d_parent dentry)
  if parent ≠ 0 ∧ parent ≠ dentry then
    let pd_name := bpf_probe_read_kernel (k.d_name parent)
    if pd_name ≠ 0 then
      let parent_name := bpf_probe_read_str parent_name0 (k.str pd_name)
      if parent_name 0 ≠ 47 ∧ parent_name 0 ≠ 0 then (parent_name, 1) else (parent_name, 0)
    else (parent_name0, 0)
  else (parent_name0, 0)

/-- The block "Build path string" of `read_dentry_path`. -/
def build_path (name parent_name : Bytes 48) (have_parent : Nat) (buf : Nat → Nat)
    (buflen : Int) : Nat → Nat :=
  let r1 : (Nat → Nat) × Nat :=
    if have_parent ≠ 0 then
      let r := copy_loop parent_name (buflen - 2) 47 0 buf 0
      (poke r.1 r.2 47, r.2 + 1)
    else (buf, 0)
  let r2 := copy_loop name (buflen - 1) 47 0 r1.1 r1.2
  poke r2.1 r2.2 0

/-- Function `read_dentry_path(dentry, buf, buflen)`: the memory at `buf` after
the call. `dentry = 0` is the NULL pointer. -/
def read_dentry_path (k : KMem) (name0 parent_name0 : Bytes 48) (dentry : Nat)
    (buf : Nat → Nat) (buflen : Int) : Nat → Nat :=
  if dentry = 0 ∨ buflen < 2 then poke buf 0 0
  else
    build_path (dentry_name k name0 dentry) (dentry_parent k parent_name0 dentry).1
      (dentry_parent k parent_name0 dentry).2 buf buflen

/-! ## The claimed result of read_dentry_path -/

/-- The string read from `src` into a 48-byte local: cut after 47 bytes, and empty
when the read faults. -/
def read48_spec (src : Option (Nat → Nat)) : List Nat :=
  match src with
  | none => []
  | some s => mem_str s 47

/-- The name of the dentry at address `d` as the specification reads it: at most
47 bytes before the NUL, and the empty string when the name pointer is NULL or
a read faults. -/
def name_read (k : KMem) (d : Nat) : List Nat :=
  if (k.d_name d).getD 0 = 0 then []
  else
    match k.str ((k.d_name d).getD 0) with
    | none => []
    | some s => mem_str s 47

/-- The string the specification says `read_dentry_path` produces for a non-null
dentry `d`: `parent ++ "/" ++ name` when the parent exists, differs from `d`
and its name starts with neither `/` nor NUL, and `name` alone otherwise. -/
def dentry_path_spec (k : KMem) (d : Nat) : List Nat :=
  let parent := (k.d_parent d).getD 0
  let p := name_read k parent
  if parent ≠ 0 ∧ parent ≠ d ∧ p.head? ≠ some 47 ∧ p.head? ≠ none then
    p ++ [47] ++ name_read k d
  else name_read k d

/-! ## fileops.bpf.c: syscall tracepoints -/

/-- Append a submitted record to the ring buffer (`bpf_ringbuf_submit`). -/
def submit (s : FState) (e : file_event) : FState :=
  { s with events := s.events ++ [e] }

/-- The record `emit_exit_event` fills in the reserved memory `e` (source lines
104 to 113): every member is assigned except `stack`, which keeps the prior
contents of the reserved memory. -/
def exit_record (env : Env) (ret : Int) (ctx : syscall_ctx) (e : file_event) : file_event :=
  { e with
    timestamp_ns := env.ktime
    duration_ns := u64_sub env.ktime ctx.start_ns
    tgid := tgid_of env.pid_tgid
    op := ctx.op
    flags := ctx.flags
    stack_size := 0
    error := if ret < 0 then to_s32 ret else 0
    comm := env.comm
    path := ctx.path
    path2 := ctx.path2 }

/-- Function `emit_exit_event(ret)`. -/
def emit_exit_event (env : Env) (ret : Int) (s : FState) : FState :=
  let pid_tgid := env.pid_tgid
  match bpf_map_lookup_elem s.syscall_ctx_map pid_tgid with
  | none => s
  | some ctx =>
    match env.reserve with
    | none =>
      { s with syscall_ctx_map := bpf_map_delete_elem s.syscall_ctx_map pid_tgid }
    | some e =>
      { submit s (exit_record env ret ctx e) with
        syscall_ctx_map := bpf_map_delete_elem s.syscall_ctx_map pid_tgid }

/-- The tail shared by the five `tp_sys_enter_*` programs once `sctx` is filled:
`bpf_map_update_elem(&syscall_ctx_map, &pid_tgid, &sctx, BPF_ANY)`. -/
def save_syscall_ctx (env : Env) (sctx : syscall_ctx) (s : FState) : FState :=
  { s with
    syscall_ctx_map := bpf_map_update_elem env.map_full s.syscall_ctx_map env.pid_tgid sctx }

/-- The statement `if (p) bpf_probe_read_user_str(dst, sizeof(dst), p);`. -/
def read_user_path (env : Env) (dst : Bytes 128) (p : Nat) : Bytes 128 :=
  if p ≠ 0 then bpf_probe_read_str dst (env.user_mem p) else dst

/-- The local `sctx` of `tp_sys_enter_mount` just before it is stored; `args` is
`ctx->args`. -/
def mount_sctx (env : Env) (args : Fin 6 → Nat) : syscall_ctx :=
  let sctx : syscall_ctx :=
    { start_ns := env.ktime, op := OP_MOUNT, flags := args 3 % 2 ^ 32,
      path := zeroBytes 128, path2 := zeroBytes 128 }
  let sctx := { sctx with path := read_user_path env sctx.path (args 1) }
  { sctx with path2 := read_user_path env sctx.path2 (args 4) }

/-- Program `tp_sys_enter_mount`. -/
def tp_sys_enter_mount (env : Env) (args : Fin 6 → Nat) (s : FState) : FState :=
  if should_trace env.target_comm env.comm = 0 then s
  else save_syscall_ctx env (mount_sctx env args) s

/-- Program `tp_sys_exit_mount`; `ret` is `ctx->ret`. -/
def tp_sys_exit_mount (env : Env) (ret : Int) (s : FState) : FState :=
  emit_exit_event env ret s

/-- The local `sctx` of `tp_sys_enter_umount` just before it is stored. -/
def umount_sctx (env : Env) (args : Fin 6 → Nat) : syscall_ctx :=
  let sctx : syscall_ctx :=
    { start_ns := env.ktime, op := OP_UMOUNT, flags := args 1 % 2 ^ 32,
      path := zeroBytes 128, path2 := zeroBytes 128 }
  { sctx with path := read_user_path env sctx.path (args 0) }

/-- Program `tp_sys_enter_umount`. -/
def tp_sys_enter_umount (env : Env) (args : Fin 6 → Nat) (s : FState) : FState :=
  if should_trace env.target_comm env.comm = 0 then s
  else save_syscall_ctx env (umount_sctx env args) s

/-- Program `tp_sys_exit_umount`. -/
def tp_sys_exit_umount (env : Env) (ret : Int) (s : FState) : FState :=
  emit_exit_event env ret s

/-- The local `sctx` of `tp_sys_enter_unlinkat` just before it is stored. -/
def unlinkat_sctx (env : Env) (args : Fin 6 → Nat) : syscall_ctx :=
  let sctx : syscall_ctx :=
    { start_ns := env.ktime, op := OP_UNLINKAT, flags := args 2 % 2 ^ 32,
      path := zeroBytes 128, path2 := zeroBytes 128 }
  { sctx with path := read_user_path env sctx.path (args 1) }

/-- Program `tp_sys_enter_unlinkat`. -/
def tp_sys_enter_unlinkat (env : Env) (args : Fin 6 → Nat) (s : FState) : FState :=
  if should_trace env.target_comm env.comm = 0 then s
  else save_syscall_ctx env (unlinkat_sctx env args) s

/-- Program `tp_sys_exit_unlinkat`. -/
def tp_sys_exit_unlinkat (env : Env) (ret : Int) (s : FState) : FState :=
  emit_exit_event env ret s

/-- The local `sctx` of `tp_sys_enter_mkdirat` just before it is stored. -/
def mkdirat_sctx (env : Env) (args : Fin 6 → Nat) : syscall_ctx :=
  let sctx : syscall_ctx :=
    { start_ns := env.ktime, op := OP_MKDIRAT, flags := args 2 % 2 ^ 32,
      path := zeroBytes 128, path2 := zeroBytes 128 }
  { sctx with path := read_user_path env sctx.path (args 1) }

/-- Program `tp_sys_enter_mkdirat`. -/
def tp_sys_enter_mkdirat (env : Env) (args : Fin 6 → Nat) (s : FState) : FState :=
  if should_trace env.target_comm env.comm = 0 then s
  else save_syscall_ctx env (mkdirat_sctx env args) s

/-- Program `tp_sys_exit_mkdirat`. -/
def tp_sys_exit_mkdirat (env : Env) (ret : Int) (s : FState) : FState :=
  emit_exit_event env ret s

/-- The local `sctx` of `tp_sys_enter_newfstatat` just before it is stored. -/
def newfstatat_sctx (env : Env) (args : Fin 6 → Nat) : syscall_ctx :=
  let sctx : syscall_ctx :=
    { start_ns := env.ktime, op := OP_STAT, flags := args 3 % 2 ^ 32,
      path := zeroBytes 128, path2 := zeroBytes 128 }
  { sctx with path := read_user_path env sctx.path (args 1) }

/-- Program `tp_sys_enter_newfstatat`. -/
def tp_sys_enter_newfstatat (env : Env) (args : Fin 6 → Nat) (s : FState) : FState :=
  if should_trace env.target_comm env.comm = 0 then s
  else save_syscall_ctx env (newfstatat_sctx env args) s

/-- Program `tp_sys_exit_newfstatat`. -/
def tp_sys_exit_newfstatat (env : Env) (ret : Int) (s : FState) : FState :=
  emit_exit_event env ret s

/-! ## fileops.bpf.c: kprobes -/

/-- The key `(pid_tgid << 8) | op` of `kprobe_ctx_map`, in `__u64` arithmetic. -/
def kprobe_key (pid_tgid op : Nat) : Nat := ((pid_tgid <<< 8) % 2 ^ 64) ||| op

/-- Function `save_kprobe_ctx(op)`. -/
def save_kprobe_ctx (env : Env) (op : Nat) (s : FState) : FState :=
  let key := kprobe_key env.pid_tgid op
  let ctx : kprobe_ctx := { start_ns := env.ktime, op := op }
  { s with kprobe_ctx_map := bpf_map_update_elem env.map_full s.kprobe_ctx_map key ctx }

/-- The record `emit_kprobe_exit_event` fills in the reserved memory `e` (source
lines 331 to 339). The members `stack` and `stack_size` are not assigned, and
of `path` and `path2` only byte 0 is: the rest keeps the prior contents of the
reserved memory. -/
def kprobe_exit_record (env : Env) (op : Nat) (ret : Int) (ctx : kprobe_ctx)
    (e : file_event) : file_event :=
  { e with
    timestamp_ns := env.ktime
    duration_ns := u64_sub env.ktime ctx.start_ns
    tgid := tgid_of env.pid_tgid
    op := op
    flags := 0
    error := if ret < 0 then to_s32 ret else 0
    comm := env.comm
    path := fun i => if i.val = 0 then 0 else e.path i
    path2 := fun i => if i.val = 0 then 0 else e.path2 i }

/-- Function `emit_kprobe_exit_event(op, ret)`. -/
def emit_kprobe_exit_event (env : Env) (op : Nat) (ret : Int) (s : FState) : FState :=
  let key := kprobe_key env.pid_tgid op
  match bpf_map_lookup_elem s.kprobe_ctx_map key with
  | none => s
  | some ctx =>
    match env.reserve with
    | none => { s with kprobe_ctx_map := bpf_map_delete_elem s.kprobe_ctx_map key }
    | some e =>
      { submit s (kprobe_exit_record env op ret ctx e) with
        kprobe_ctx_map := bpf_map_delete_elem s.kprobe_ctx_map key }

/-- The parameter `int ret` of a `BPF_KRETPROBE` program: the return register
`PT_REGS_RC(ctx)` cast to `int`. -/
def kretprobe_ret (rc : Nat) : Int := to_s32 (rc : Int)

/-- Program `kp_ovl_workdir_create`. -/
def kp_ovl_workdir_create (env : Env) (s : FState) : FState :=
  if should_trace env.target_comm env.comm = 0 then s
  else save_kprobe_ctx env OP_OVL_WORKDIR_CREATE s

/-- Program `kretp_ovl_workdir_create`; `rc` is the return register. -/
def kretp_ovl_workdir_create (env : Env) (rc : Nat) (s : FState) : FState :=
  emit_kprobe_exit_event env OP_OVL_WORKDIR_CREATE (kretprobe_ret rc) s

/-- Program `kp_ovl_workdir_cleanup`. -/
def kp_ovl_workdir_cleanup (env : Env) (s : FState) : FState :=
  if should_trace env.target_comm env.comm = 0 then s
  else save_kprobe_ctx env OP_OVL_WORKDIR_CLEANUP s

/-- Program `kretp_ovl_workdir_cleanup`. -/
def kretp_ovl_workdir_cleanup (env : Env) (rc : Nat) (s : FState) : FState :=
  emit_kprobe_exit_event env OP_OVL_WORKDIR_CLEANUP (kretprobe_ret rc) s

/-- The record members `path` and `path2` are adjacent in memory: the bytes seen
through the pointer `e->path`. Offsets past the end of the record read as 0. -/
def path_view (e : file_event) : Nat → Nat :=
  fun i =>
    if h : i < 128 then e.path ⟨i, h⟩
    else if h2 : i - 128 < 128 then e.path2 ⟨i - 128, h2⟩
    else 0

/-- Write back memory seen through `e->path` into the members `path`, `path2`. -/
def path_store (e : file_event) (mem : Nat → Nat) : file_event :=
  { e with path := fun i => mem i.val, path2 := fun i => mem (128 + i.val) }

/-- Kernel helper `bpf_get_stack(ctx, e->stack, sizeof(e->stack), 0)`: the frame
array after the call. The helper copies `ret` bytes of frames and zero-fills
the rest of the buffer; on an error (`ret < 0`) it zero-fills all of it. -/
def bpf_get_stack (ret : Int) (frames : Fin 16 → Nat) : Fin 16 → Nat :=
  fun i => if 8 * (i.val : Int) < ret then frames i else 0

/-- The record `kp_vfs_mkdir` / `kp_vfs_rmdir` fill in the reserved memory `e`
(source lines 409 to 428, 465 to 484); `parm3` is `PT_REGS_PARM3(ctx)`, the
dentry pointer. -/
def vfs_entry_record (op : Nat) (env : Env) (parm3 : Nat) (e : file_event) : file_event :=
  let e : file_event :=
    { e with
      timestamp_ns := env.ktime
      duration_ns := 0
      tgid := tgid_of env.pid_tgid
      op := op
      flags := 1
      error := 0
      comm := env.comm }
  let dentry := parm3
  let e : file_event :=
    if dentry ≠ 0 then
      path_store e
        (read_dentry_path env.kmem env.name0 env.parent_name0 dentry (path_view e) 128)
    else { e with path := fun i => if i.val = 0 then 0 else e.path i }
  let e : file_event := { e with path2 := fun i => if i.val = 0 then 0 else e.path2 i }
  let stack_size := env.stack_ret
  { e with
    stack := bpf_get_stack stack_size env.stack_frames
    stack_size := if stack_size > 0 then (stack_size / 8).toNat % 2 ^ 32 else 0 }

/-- The body shared verbatim by `kp_vfs_mkdir` and `kp_vfs_rmdir`, which differ
only in the constant `op`. -/
def kp_vfs_entry (op : Nat) (env : Env) (parm3 : Nat) (s : FState) : FState :=
  if should_trace env.target_comm env.comm = 0 then s
  else
    let key := kprobe_key env.pid_tgid op
    let kctx : kprobe_ctx := { start_ns := env.ktime, op := op }
    let s : FState :=
      { s with kprobe_ctx_map := bpf_map_update_elem env.map_full s.kprobe_ctx_map key kctx }
    match env.reserve with
    | none => s
    | some e => submit s (vfs_entry_record op env parm3 e)

/-- Program `kp_vfs_mkdir`. -/
def kp_vfs_mkdir (env : Env) (parm3 : Nat) (s : FState) : FState :=
  kp_vfs_entry OP_VFS_MKDIR env parm3 s

/-- Program `kretp_vfs_mkdir`. -/
def kretp_vfs_mkdir (env : Env) (rc : Nat) (s : FState) : FState :=
  emit_kprobe_exit_event env OP_VFS_MKDIR (kretprobe_ret rc) s

/-- Program `kp_vfs_rmdir`. -/
def kp_vfs_rmdir (env : Env) (parm3 : Nat) (s : FState) : FState :=
  kp_vfs_entry OP_VFS_RMDIR env parm3 s

/-- Program `kretp_vfs_rmdir`. -/
def kretp_vfs_rmdir (env : Env) (rc : Nat) (s : FState) : FState :=
  emit_kprobe_exit_event env OP_VFS_RMDIR (kretprobe_ret rc) s

/-! ## fileops.bpf.c: runs of the tracer -/

/-- One attached program of the file-ops tracer together with the arguments the
kernel passes to it. -/
inductive Handler
  | sys_enter_mount (args : Fin 6 → Nat)
  | sys_exit_mount (ret : Int)
  | sys_enter_umount (args : Fin 6 → Nat)
  | sys_exit_umount (ret : Int)
  | sys_enter_unlinkat (args : Fin 6 → Nat)
  | sys_exit_unlinkat (ret : Int)
  | sys_enter_mkdirat (args : Fin 6 → Nat)
  | sys_exit_mkdirat (ret : Int)
  | sys_enter_newfstatat (args : Fin 6 → Nat)
  | sys_exit_newfstatat (ret : Int)
  | ovl_workdir_create
  | ovl_workdir_create_ret (rc : Nat)
  | ovl_workdir_cleanup
  | ovl_workdir_cleanup_ret (rc : Nat)
  | vfs_mkdir (parm3 : Nat)
  | vfs_mkdir_ret (rc : Nat)
  | vfs_rmdir (parm3 : Nat)
  | vfs_rmdir_ret (rc : Nat)

/-- Run one program in environment `env`. -/
def step (env : Env) (h : Handler) (s : FState) : FState :=
  match h with
  | .sys_enter_mount args => tp_sys_enter_mount env args s
  | .sys_exit_mount ret => tp_sys_exit_mount env ret s
  | .sys_enter_umount args => tp_sys_enter_umount env args s
  | .sys_exit_umount ret => tp_sys_exit_umount env ret s
  | .sys_enter_unlinkat args => tp_sys_enter_unlinkat env args s
  | .sys_exit_unlinkat ret => tp_sys_exit_unlinkat env ret s
  | .sys_enter_mkdirat args => tp_sys_enter_mkdirat env args s
  | .sys_exit_mkdirat ret => tp_sys_exit_mkdirat env ret s
  | .sys_enter_newfstatat args => tp_sys_enter_newfstatat env args s
  | .sys_exit_newfstatat ret => tp_sys_exit_newfstatat env ret s
  | .ovl_workdir_create => kp_ovl_workdir_create env s
  | .ovl_workdir_create_ret rc => kretp_ovl_workdir_create env rc s
  | .ovl_workdir_cleanup => kp_ovl_workdir_cleanup env s
  | .ovl_workdir_cleanup_ret rc => kretp_ovl_workdir_cleanup env rc s
  | .vfs_mkdir parm3 => kp_vfs_mkdir env parm3 s
  | .vfs_mkdir_ret rc => kretp_vfs_mkdir env rc s
  | .vfs_rmdir parm3 => kp_vfs_rmdir env parm3 s
  | .vfs_rmdir_ret rc => kretp_vfs_rmdir env rc s

/-- Run a sequence of program invocations, each in its own environment. -/
def run (tr : List (Env × Handler)) (s : FState) : FState :=
  tr.foldl (fun st x => step x.1 x.2 st) s

/-! ## The tracked syscalls, uniformly -/

/-- The five tracked syscalls. -/
inductive Syscall
  | mount
  | umount
  | unlinkat
  | mkdirat
  | newfstatat

/-- The enter tracepoint program of a tracked syscall. -/
def sys_enter : Syscall → Env → (Fin 6 → Nat) → FState → FState
  | .mount => tp_sys_enter_mount
  | .umount => tp_sys_enter_umount
  | .unlinkat => tp_sys_enter_unlinkat
  | .mkdirat => tp_sys_enter_mkdirat
  | .newfstatat => tp_sys_enter_newfstatat

/-- The exit tracepoint program of a tracked syscall. -/
def sys_exit : Syscall → Env → Int → FState → FState
  | .mount => tp_sys_exit_mount
  | .umount => tp_sys_exit_umount
  | .unlinkat => tp_sys_exit_unlinkat
  | .mkdirat => tp_sys_exit_mkdirat
  | .newfstatat => tp_sys_exit_newfstatat

/-- The context the enter program of a tracked syscall stores. -/
def sys_sctx : Syscall → Env → (Fin 6 → Nat) → syscall_ctx
  | .mount => mount_sctx
  | .umount => umount_sctx
  | .unlinkat => unlinkat_sctx
  | .mkdirat => mkdirat_sctx
  | .newfstatat => newfstatat_sctx

/-- The `op` constant of a tracked syscall. -/
def sys_op : Syscall → Nat
  | .mount => OP_MOUNT
  | .umount => OP_UMOUNT
  | .unlinkat => OP_UNLINKAT
  | .mkdirat => OP_MKDIRAT
  | .newfstatat => OP_STAT

/-- The user string at pointer `p` as the specification reads it: cut after `m`
bytes; empty for the NULL pointer and for an unreadable one. -/
def user_str (env : Env) (p : Nat) (m : Nat) : List Nat :=
  if p = 0 then []
  else
    match env.user_mem p with
    | none => []
    | some s => mem_str s m

/-- The 128-byte member `a` holds the user string at pointer `p` cut after 127
bytes, followed by a NUL. -/
def holds_user_str (env : Env) (a : Bytes 128) (p : Nat) : Prop :=
  cstr a = user_str env p 127 ∧ rd a (user_str env p 127).length = 0

/-- The pair of records the specification describes for one `vfs_mkdir` or
`vfs_rmdir` call: an entry record `a` with `flags = 1`, zero duration, zero
error and the synthesised dentry path, and an exit record `b` with `flags = 0`,
the measured duration and the error, both with the same `tgid` and `op`. -/
def vfs_pair (op : Nat) (env1 env2 : Env) (parm3 rc : Nat) (a b : file_event) : Prop :=
  a.tgid = b.tgid ∧ a.op = op ∧ b.op = op ∧
  a.flags = 1 ∧ a.duration_ns = 0 ∧ a.error = 0 ∧
  cstr a.path = (if parm3 ≠ 0 then dentry_path_spec env1.kmem parm3 else []) ∧
  b.flags = 0 ∧ b.duration_ns = u64_sub env2.ktime env1.ktime ∧
  b.error = (if kretprobe_ret rc < 0 then kretprobe_ret rc else 0)

/-! ## Entry and exit programs -/

/-- Whether the program is an entry program: an enter tracepoint or a kprobe. -/
def Handler.is_entry : Handler → Bool
  | .sys_enter_mount _ => true
  | .sys_enter_umount _ => true
  | .sys_enter_unlinkat _ => true
  | .sys_enter_mkdirat _ => true
  | .sys_enter_newfstatat _ => true
  | .ovl_workdir_create => true
  | .ovl_workdir_cleanup => true
  | .vfs_mkdir _ => true
  | .vfs_rmdir _ => true
  | _ => false

/-- Whether the correlation map an exit program looks into holds a context under
the key of the current task; `false` for an entry program. -/
def ctx_present (env : Env) (h : Handler) (s : FState) : Bool :=
  match h with
  | .sys_exit_mount _ => (s.syscall_ctx_map env.pid_tgid).isSome
  | .sys_exit_umount _ => (s.syscall_ctx_map env.pid_tgid).isSome
  | .sys_exit_unlinkat _ => (s.syscall_ctx_map env.pid_tgid).isSome
  | .sys_exit_mkdirat _ => (s.syscall_ctx_map env.pid_tgid).isSome
  | .sys_exit_newfstatat _ => (s.syscall_ctx_map env.pid_tgid).isSome
  | .ovl_workdir_create_ret _ =>
    (s.kprobe_ctx_map (kprobe_key env.pid_tgid OP_OVL_WORKDIR_CREATE)).isSome
  | .ovl_workdir_cleanup_ret _ =>
    (s.kprobe_ctx_map (kprobe_key env.pid_tgid OP_OVL_WORKDIR_CLEANUP)).isSome
  | .vfs_mkdir_ret _ => (s.kprobe_ctx_map (kprobe_key env.pid_tgid OP_VFS_MKDIR)).isSome
  | .vfs_rmdir_ret _ => (s.kprobe_ctx_map (kprobe_key env.pid_tgid OP_VFS_RMDIR)).isSome
  | _ => false

/-- The filter is empty: `target_comm[0] == 0`, or its lookup returned NULL. -/
def filter_empty (env : Env) : Prop := ∀ t, env.target_comm = some t → t 0 = 0

/-! ## A fixed filter and fixed task names -/

/-- User memory holding the string "/mnt" at address 500 and "ro" at address 600. -/
def sample_user_mem : Nat → Option (Nat → Nat) :=
  fun a =>
    if a = 500 then some (fun i => [47, 109, 110, 116].getD i 0)
    else if a = 600 then some (fun i => [114, 111].getD i 0)
    else none

/-- Arguments of `mount(NULL, "/mnt", NULL, 1, "ro")` over `sample_user_mem`. -/
def sample_mount_args : Fin 6 → Nat := fun i => [0, 500, 0, 1, 600, 0].getD i.val 0

/-- A reserved ring-buffer slot whose prior contents are all zero. -/
def zero_event : file_event :=
  { timestamp_ns := 0, duration_ns := 0, stack := fun _ => 0, error := 0, tgid := 0, op := 0,
    flags := 0, stack_size := 0, comm := zeroBytes 16, path := zeroBytes 128,
    path2 := zeroBytes 128 }

/-- Kernel memory in which every read faults. -/
def no_kmem : KMem :=
  { d_name := fun _ => none, d_parent := fun _ => none, str := fun _ => none }

/-- An environment for task `pid_tgid` at clock value `now`, with the given
filter and task name; no user memory is mapped, the hash map has room and the
ring-buffer reservation succeeds. -/
def sample_env (target comm : List Nat) (pid_tgid now : Nat) : Env :=
  { target_comm := some (bytes16 target), comm := bytes16 comm, pid_tgid := pid_tgid,
    ktime := now, user_mem := fun _ => none, kmem := no_kmem, map_full := false,
    reserve := some zero_event, stack_ret := 0, stack_frames := fun _ => 0,
    name0 := zeroBytes 48, parent_name0 := zeroBytes 48 }

/-- The environment `sample_env` over the user memory `sample_user_mem`. -/
def sample_env_mem (target comm : List Nat) (pid_tgid now : Nat) : Env :=
  { sample_env target comm pid_tgid now with user_mem := sample_user_mem }

/-- The environment `sample_env` when the hash map the program inserts into is
full. -/
def sample_env_full (target comm : List Nat) (pid_tgid now : Nat) : Env :=
  { sample_env target comm pid_tgid now with map_full := true }

/-- A state whose two hash maps are full: each holds `max_entries = 10240`
contexts, left behind by the tasks with `pid_tgid` in `2 ^ 32, ..., 2 ^ 32 + 10239`
(in `kprobe_ctx_map` under their `vfs_mkdir` keys). -/
def full_state : FState :=
  { syscall_ctx_map := fun k =>
      if 2 ^ 32 ≤ k ∧ k < 2 ^ 32 + 10240 then
        some { start_ns := 0, op := OP_MKDIRAT, flags := 0, path := zeroBytes 128,
               path2 := zeroBytes 128 }
      else none,
    kprobe_ctx_map := fun k =>
      if k % 256 = OP_VFS_MKDIR ∧ 2 ^ 32 ≤ k / 256 ∧ k / 256 < 2 ^ 32 + 10240 then
        some { start_ns := 0, op := OP_VFS_MKDIR }
      else none,
    events := [] }

/-- Syscall arguments that are all zero. -/
def zero_args : Fin 6 → Nat := fun _ => 0

/-- Kernel memory holding a dentry at address 100 named "c" whose parent, at
address 200, is named "b" and is its own parent. -/
def sample_kmem : KMem :=
  { d_name := fun a => if a = 100 then some 1000 else if a = 200 then some 2000 else none,
    d_parent := fun a => if a = 100 then some 200 else if a = 200 then some 200 else none,
    str := fun a =>
      if a = 1000 then some (fun i => [99].getD i 0)
      else if a = 2000 then some (fun i => [98].getD i 0)
      else none }

/-- The environment `sample_env` over the kernel memory `sample_kmem`. -/
def sample_env_kmem (target comm : List Nat) (pid_tgid now : Nat) : Env :=
  { sample_env target comm pid_tgid now with kmem := sample_kmem }

/-- The contract of `bpf_get_stack` for the 128-byte buffer `e->stack`: it
returns a negative error or the number of bytes copied, a whole number of
8-byte frames and never more than the buffer holds. -/
def stack_walker_ok (env : Env) : Prop :=
  env.stack_ret ≤ 128 ∧ (0 < env.stack_ret → env.stack_ret % 8 = 0)

/-- A reserved ring-buffer slot still holding an old record: 99 in `stack_size`,
a frame address in `stack[3]`. -/
def stale_event : file_event :=
  { zero_event with stack_size := 99, stack := fun i => if i.val = 3 then 57005 else 0 }

/-- The environment `sample_env` when the reserved slot holds `stale_event`. -/
def sample_env_stale (target comm : List Nat) (pid_tgid now : Nat) : Env :=
  { sample_env target comm pid_tgid now with reserve := some stale_event }

/-- The environment `sample_env_stale` when the stack walker finds two frames. -/
def sample_env_stack (target comm : List Nat) (pid_tgid now : Nat) : Env :=
  { sample_env_stale target comm pid_tgid now with
    stack_ret := 16, stack_frames := fun i => 4096 + i.val }

/-- The environment `sample_env` when the ring-buffer reservation fails. -/
def sample_env_noslot (target comm : List Nat) (pid_tgid now : Nat) : Env :=
  { sample_env target comm pid_tgid now with reserve := none }

/-! ## ovl_inuse.bpf.c: the overlay-inuse tracer

The programs of this file share names with those of `fileops.bpf.c`
(`events`, `tp_sys_enter_mount`, `tp_sys_exit_mount`); they live in the
namespace `Ovl`. -/

namespace Ovl

def MAX_PATH_LEN : Nat := 256
def MAX_DATA_LEN : Nat := 512
def DENTRY_NAME_LEN : Nat := 64

/-- The record `struct event`. -/
structure event where
  timestamp_ns : Nat
  mntns : Nat
  tgid : Nat
  comm : Bytes 16
  dentry_name0 : Bytes 64
  dentry_name1 : Bytes 64
  dentry_name2 : Bytes 64
  mount_src : Bytes 256
  mount_dst : Bytes 256
  mount_data : Bytes 512

/-- The record `struct mount_args`. -/
structure mount_args where
  src : Bytes 256
  dst : Bytes 256
  data : Bytes 512
  mntns : Nat

/-- The record `struct probe_ctx`. -/
structure probe_ctx where
  dentry_ptr : Nat

/-- What the BPF helpers hand to one program invocation of the overlay-inuse
tracer. -/
structure Env where
  /-- result of `bpf_get_current_pid_tgid` -/
  pid_tgid : Nat
  /-- result of `bpf_ktime_get_ns` -/
  ktime : Nat
  /-- what `bpf_get_current_comm` stores -/
  comm : Bytes 16
  /-- result of `get_mntns(task)` for the current task -/
  mntns : Nat
  /-- user memory: the bytes found at a user pointer, `none` when the read faults -/
  user_mem : Nat → Option (Nat → Nat)
  /-- kernel memory -/
  kmem : KMem
  /-- whether the hash map the program inserts into is full -/
  map_full : Bool
  /-- result of `bpf_ringbuf_reserve`: `none` for NULL, else the prior contents
  of the reserved memory (the ring buffer does not clear it) -/
  reserve : Option event
  /-- result of `bpf_map_lookup_elem(&tmp_mount_args, &zero)`: `none` for NULL,
  else what the per-CPU scratch slot holds from its earlier uses -/
  tmp_mount_args : Option mount_args

/-- State of the overlay-inuse tracer: its three hash maps and the records
submitted to the ring buffer `events`, oldest first. -/
structure State where
  mount_args_map : BpfHash mount_args
  trylock_ctx_map : BpfHash probe_ctx
  is_inuse_ctx_map : BpfHash probe_ctx
  events : List event

/-- All maps empty, nothing submitted. -/
def State.init : State :=
  { mount_args_map := fun _ => none, trylock_ctx_map := fun _ => none,
    is_inuse_ctx_map := fun _ => none, events := [] }

/-- The scratch slot `*args` of `tp_sys_enter_mount` just before it is stored;
`args` is `ctx->args`. The three strings are read over whatever the slot held,
without a NULL check on the user pointers. -/
def read_mount_args (env : Env) (args : Fin 6 → Nat) (a : mount_args) : mount_args :=
  let dev_name := args 0
  let dir_name := args 1
  let data := args 4
  let a : mount_args := { a with src := bpf_probe_read_str a.src (env.user_mem dev_name) }
  let a : mount_args := { a with dst := bpf_probe_read_str a.dst (env.user_mem dir_name) }
  let a : mount_args := { a with data := bpf_probe_read_str a.data (env.user_mem data) }
  { a with mntns := env.mntns }

/-- Program `tp_sys_enter_mount`. -/
def tp_sys_enter_mount (env : Env) (args : Fin 6 → Nat) (s : State) : State :=
  let pid_tgid := env.pid_tgid
  match env.tmp_mount_args with
  | none => s
  | some a =>
    { s with
      mount_args_map :=
        bpf_map_update_elem env.map_full s.mount_args_map pid_tgid
          (read_mount_args env args a) }

/-- Program `tp_sys_exit_mount`. -/
def tp_sys_exit_mount (env : Env) (s : State) : State :=
  { s with mount_args_map := bpf_map_delete_elem s.mount_args_map env.pid_tgid }

/-- The three name slots of the record after the block "Read up to 3 levels of
dentry names" of `emit_inuse_event`; `BPF_CORE_READ` yields 0 when its read
faults. -/
def read_names (k : KMem) (dentry : Nat) (e : event) : event :=
  let cur := dentry
  let name := bpf_probe_read_kernel (k.d_name cur)
  let e : event :=
    if name ≠ 0 then { e with dentry_name0 := bpf_probe_read_str e.dentry_name0 (k.str name) }
    else e
  let cur := bpf_probe_read_kernel (k.d_parent cur)
  if cur ≠ 0 ∧ cur ≠ dentry then
    let name := bpf_probe_read_kernel (k.d_name cur)
    let e : event :=
      if name ≠ 0 then { e with dentry_name1 := bpf_probe_read_str e.dentry_name1 (k.str name) }
      else e
    let parent := cur
    let cur := bpf_probe_read_kernel (k.d_parent cur)
    if cur ≠ 0 ∧ cur ≠ parent then
      let name := bpf_probe_read_kernel (k.d_name cur)
      if name ≠ 0 then { e with dentry_name2 := bpf_probe_read_str e.dentry_name2 (k.str name) }
      else e
    else e
  else e

/-- The record `emit_inuse_event` fills in the reserved memory `e` (source lines
137 to 173). Members it does not assign keep the prior contents of the reserved
memory. -/
def inuse_record (env : Env) (margs : Option mount_args) (pid_tgid dentry : Nat)
    (e : event) : event :=
  let e : event :=
    { e with
      timestamp_ns := env.ktime
      mntns := env.mntns
      tgid := tgid_of pid_tgid
      comm := env.comm }
  let e := read_names env.kmem dentry e
  match margs with
  | some m => { e with mount_src := m.src, mount_dst := m.dst, mount_data := m.data }
  | none => e

/-- Function `emit_inuse_event(pid_tgid, dentry)`. -/
def emit_inuse_event (env : Env) (pid_tgid dentry : Nat) (s : State) : State :=
  if dentry = 0 then s
  else
    match env.reserve with
    | none => s
    | some e =>
      { s with
        events :=
          s.events ++
            [inuse_record env (bpf_map_lookup_elem s.mount_args_map pid_tgid) pid_tgid dentry e] }

/-- Program `kp_ovl_inuse_trylock`; `dentry` is the first argument of the probed
function. -/
def kp_ovl_inuse_trylock (env : Env) (dentry : Nat) (s : State) : State :=
  let pid_tgid := env.pid_tgid
  let pctx : probe_ctx := { dentry_ptr := dentry }
  { s with trylock_ctx_map := bpf_map_update_elem env.map_full s.trylock_ctx_map pid_tgid pctx }

/-- Program `kretp_ovl_inuse_trylock`; `ret` is its parameter `int ret`, the
return value of the probed function. -/
def kretp_ovl_inuse_trylock (env : Env) (ret : Int) (s : State) : State :=
  let pid_tgid := env.pid_tgid
  if ret ≠ 0 then
    { s with trylock_ctx_map := bpf_map_delete_elem s.trylock_ctx_map pid_tgid }
  else
    match bpf_map_lookup_elem s.trylock_ctx_map pid_tgid with
    | none => s
    | some pctx =>
      let s := emit_inuse_event env pid_tgid pctx.dentry_ptr s
      { s with trylock_ctx_map := bpf_map_delete_elem s.trylock_ctx_map pid_tgid }

/-- Program `kp_ovl_is_inuse`. -/
def kp_ovl_is_inuse (env : Env) (dentry : Nat) (s : State) : State :=
  let pid_tgid := env.pid_tgid
  let pctx : probe_ctx := { dentry_ptr := dentry }
  { s with
    is_inuse_ctx_map := bpf_map_update_elem env.map_full s.is_inuse_ctx_map pid_tgid pctx }

/-- Program `kretp_ovl_is_inuse`; `ret` is its parameter `int ret`. -/
def kretp_ovl_is_inuse (env : Env) (ret : Int) (s : State) : State :=
  let pid_tgid := env.pid_tgid
  if ret = 0 then
    { s with is_inuse_ctx_map := bpf_map_delete_elem s.is_inuse_ctx_map pid_tgid }
  else
    match bpf_map_lookup_elem s.is_inuse_ctx_map pid_tgid with
    | none => s
    | some pctx =>
      let s := emit_inuse_event env pid_tgid pctx.dentry_ptr s
      { s with is_inuse_ctx_map := bpf_map_delete_elem s.is_inuse_ctx_map pid_tgid }

/-- The string read from `src` into a slot of `m + 1` bytes: cut after `m`
bytes, and empty when the read faults. -/
def read_spec (m : Nat) (src : Option (Nat → Nat)) : List Nat :=
  match src with
  | none => []
  | some s => mem_str s m

/-- The byte array `a` holds the string `l` followed by a NUL. -/
def holds_str {n : Nat} (a : Bytes n) (l : List Nat) : Prop :=
  cstr a = l ∧ rd a l.length = 0

/-- The pointer `d_name.name` of the dentry at `d` as `BPF_CORE_READ` returns
it. -/
def name_ptr (k : KMem) (d : Nat) : Nat := bpf_probe_read_kernel (k.d_name d)

/-- The pointer `d_parent` of the dentry at `d` as `BPF_CORE_READ` returns it. -/
def parent_ptr (k : KMem) (d : Nat) : Nat := bpf_probe_read_kernel (k.d_parent d)

/-- The walk from `d` goes up one level: the parent pointer is non-null and
differs from `d`. -/
def has_parent (k : KMem) (d : Nat) : Prop := parent_ptr k d ≠ 0 ∧ parent_ptr k d ≠ d

/-- The name the specification reads at the dentry `d`: the string at its name
pointer cut after 63 bytes. -/
def name63 (k : KMem) (d : Nat) : List Nat := read_spec 63 (k.str (name_ptr k d))

/-- The three mount strings of the record `e` hold the `source`, `target` and
`data` strings of the mount syscall with arguments `args`, cut after 255, 255
and 511 bytes and each followed by a NUL. -/
def mount_fields (env : Env) (args : Fin 6 → Nat) (e : event) : Prop :=
  holds_str e.mount_src (read_spec 255 (env.user_mem (args 0))) ∧
  holds_str e.mount_dst (read_spec 255 (env.user_mem (args 1))) ∧
  holds_str e.mount_data (read_spec 511 (env.user_mem (args 4)))

/-! ### Sample inputs -/

/-- A reserved ring-buffer slot whose prior contents are all zero. -/
def zero_event : event :=
  { timestamp_ns := 0, mntns := 0, tgid := 0, comm := zeroBytes 16,
    dentry_name0 := zeroBytes 64, dentry_name1 := zeroBytes 64, dentry_name2 := zeroBytes 64,
    mount_src := zeroBytes 256, mount_dst := zeroBytes 256, mount_data := zeroBytes 512 }

/-- A reserved ring-buffer slot still holding an old record: the strings "p" and
"g" in the two ancestor name slots, "x", "y" and "z" in the three mount
strings. -/
def stale_event : event :=
  { zero_event with
    dentry_name1 := fun i => [112].getD i.val 0
    dentry_name2 := fun i => [103].getD i.val 0
    mount_src := fun i => [120].getD i.val 0
    mount_dst := fun i => [121].getD i.val 0
    mount_data := fun i => [122].getD i.val 0 }

/-- A scratch slot whose prior contents are all zero. -/
def zero_mount_args : mount_args :=
  { src := zeroBytes 256, dst := zeroBytes 256, data := zeroBytes 512, mntns := 0 }

/-- User memory holding "ovl" at address 400, "/mnt" at 500 and "ro" at 600. -/
def sample_user_mem : Nat → Option (Nat → Nat) :=
  fun a =>
    if a = 400 then some (fun i => [111, 118, 108].getD i 0)
    else if a = 500 then some (fun i => [47, 109, 110, 116].getD i 0)
    else if a = 600 then some (fun i => [114, 111].getD i 0)
    else none

/-- Arguments of `mount("ovl", "/mnt", NULL, 0, "ro")` over `sample_user_mem`. -/
def sample_mount_args : Fin 6 → Nat := fun i => [400, 500, 0, 0, 600, 0].getD i.val 0

/-- Kernel memory holding the dentry "c" at address 100 with parent "b" at 200,
which is its own parent; a dentry "u" at 300 whose parent, at 350, has a NULL
name pointer; and a dentry "w" at 700 with parent "v" at 710 and grandparent "t"
at 720. -/
def sample_kmem : KMem :=
  { d_name := fun a =>
      if a = 100 then some 1000 else if a = 200 then some 2000
      else if a = 300 then some 3000 else if a = 350 then some 0
      else if a = 700 then some 7000 else if a = 710 then some 7100
      else if a = 720 then some 7200 else none,
    d_parent := fun a =>
      if a = 100 then some 200 else if a = 200 then some 200
      else if a = 300 then some 350 else if a = 350 then some 350
      else if a = 700 then some 710 else if a = 710 then some 720
      else if a = 720 then some 720 else none,
    str := fun a =>
      if a = 1000 then some (fun i => [99].getD i 0)
      else if a = 2000 then some (fun i => [98].getD i 0)
      else if a = 3000 then some (fun i => [117].getD i 0)
      else if a = 7000 then some (fun i => [119].getD i 0)
      else if a = 7100 then some (fun i => [118].getD i 0)
      else if a = 7200 then some (fun i => [116].getD i 0)
      else none }

/-- An environment for task `pid_tgid` at clock value `now`: the memories above,
hash maps with room, a zeroed scratch slot, and a reservation that succeeds on a
slot with the prior contents `slot`. -/
def sample_env (pid_tgid now : Nat) (slot : event) : Env :=
  { pid_tgid := pid_tgid, ktime := now, comm := bytes16 [109], mntns := 4026531840,
    user_mem := sample_user_mem, kmem := sample_kmem, map_full := false,
    reserve := some slot, tmp_mount_args := some zero_mount_args }

/-- The environment `sample_env` when the hash map the program inserts into is
full. -/
def sample_env_full (pid_tgid now : Nat) (slot : event) : Env :=
  { sample_env pid_tgid now slot with map_full := true }

/-- A state whose `mount_args_map` is full: it holds `max_entries = 10240`
entries, left behind by the tasks with `pid_tgid` in
`2 ^ 32, ..., 2 ^ 32 + 10239`. -/
def full_state : State :=
  { State.init with
    mount_args_map := fun k =>
      if 2 ^ 32 ≤ k ∧ k < 2 ^ 32 + 10240 then some zero_mount_args else none }

end Ovl

/-! ## fileops.bpf.c: the key of an invocation -/

/-- A key of one of the two correlation maps of the file-ops tracer: `Sum.inl k`
is key `k` of `syscall_ctx_map`, `Sum.inr k` is key `k` of `kprobe_ctx_map`. -/
abbrev CtxKey := Nat ⊕ Nat

/-- The key an entry program stores its context under; `none` for an exit
program. -/
def entry_key (env : Env) : Handler → Option CtxKey
  | .sys_enter_mount _ => some (.inl env.pid_tgid)
  | .sys_enter_umount _ => some (.inl env.pid_tgid)
  | .sys_enter_unlinkat _ => some (.inl env.pid_tgid)
  | .sys_enter_mkdirat _ => some (.inl env.pid_tgid)
  | .sys_enter_newfstatat _ => some (.inl env.pid_tgid)
  | .ovl_workdir_create => some (.inr (kprobe_key env.pid_tgid OP_OVL_WORKDIR_CREATE))
  | .ovl_workdir_cleanup => some (.inr (kprobe_key env.pid_tgid OP_OVL_WORKDIR_CLEANUP))
  | .vfs_mkdir _ => some (.inr (kprobe_key env.pid_tgid OP_VFS_MKDIR))
  | .vfs_rmdir _ => some (.inr (kprobe_key env.pid_tgid OP_VFS_RMDIR))
  | _ => none

/-- The key an exit program looks its context up under; `none` for an entry
program. -/
def exit_key (env : Env) : Handler → Option CtxKey
  | .sys_exit_mount _ => some (.inl env.pid_tgid)
  | .sys_exit_umount _ => some (.inl env.pid_tgid)
  | .sys_exit_unlinkat _ => some (.inl env.pid_tgid)
  | .sys_exit_mkdirat _ => some (.inl env.pid_tgid)
  | .sys_exit_newfstatat _ => some (.inl env.pid_tgid)
  | .ovl_workdir_create_ret _ => some (.inr (kprobe_key env.pid_tgid OP_OVL_WORKDIR_CREATE))
  | .ovl_workdir_cleanup_ret _ => some (.inr (kprobe_key env.pid_tgid OP_OVL_WORKDIR_CLEANUP))
  | .vfs_mkdir_ret _ => some (.inr (kprobe_key env.pid_tgid OP_VFS_MKDIR))
  | .vfs_rmdir_ret _ => some (.inr (kprobe_key env.pid_tgid OP_VFS_RMDIR))
  | _ => none

/-- The member `start_ns` of the context stored under a key, if there is one. -/
def start_at (s : FState) : CtxKey → Option Nat
  | .inl k => (s.syscall_ctx_map k).map syscall_ctx.start_ns
  | .inr k => (s.kprobe_ctx_map k).map kprobe_ctx.start_ns

/-! ## cmd/container-mount/main.c: the mount-injection helper

The helper is a straight line of system calls. What each call returns, and the
`errno` it leaves when it fails, is an input of the model; the result is the
exit status together with the messages written to `stderr`. -/

/-- Values of `errno` (Linux `errno-base.h`). -/
def EPERM : Int := 1
def ENOENT : Int := 2
def EACCES : Int := 13
def EEXIST : Int := 17
def EINVAL : Int := 22

/-- What the calls made by `main` return. -/
structure Outcomes where
  argc : Int
  /-- value of `atoi(argv[1])` -/
  container_pid : Int
  /-- return value of `open_tree` -/
  open_tree : Int
  /-- return value of `open` on the mount-namespace file of the container -/
  open_ns : Int
  /-- return value of `setns` -/
  setns : Int
  /-- return value of `stat` on the target path, and `errno` after it -/
  stat : Int
  stat_errno : Int
  /-- return value of `mkdir` on the target path, and `errno` after it -/
  mkdir : Int
  mkdir_errno : Int
  /-- return value of `umount2` on the target path, and `errno` after it -/
  umount2 : Int
  umount2_errno : Int
  /-- return value of `move_mount` -/
  move_mount : Int

/-- The messages `main` writes to `stderr`. -/
inductive Diag
  | usage
  | invalid_pid
  | open_tree_failed
  | open_ns_failed
  | setns_failed
  | mkdir_failed
  | umount2_failed
  | move_mount_failed
deriving DecidableEq, Repr

/-- Step 3 of `main`, "Create target directory if it doesn't exist": the messages
it writes. It has no `return`. -/
def step_mkdir (o : Outcomes) : List Diag :=
  if o.stat < 0 then
    if o.stat_errno = ENOENT then
      if o.mkdir < 0 ∧ o.mkdir_errno ≠ EEXIST then [Diag.mkdir_failed] else []
    else []
  else []

/-- Step 4 of `main`, "Unmount any existing mount at the target path": the
messages it writes. It has no `return`. -/
def step_umount (o : Outcomes) : List Diag :=
  if o.umount2 < 0 then
    if o.umount2_errno ≠ EINVAL ∧ o.umount2_errno ≠ ENOENT then [Diag.umount2_failed] else []
  else []

/-- Function `main` (built without `DEBUG`): the exit status and the messages on
`stderr`. `usage` ends the process by `exit(1)`. -/
def main (o : Outcomes) : Int × List Diag :=
  if o.argc ≠ 4 then (1, [Diag.usage])
  else if o.container_pid ≤ 0 then (1, [Diag.invalid_pid])
  else if o.open_tree < 0 then (1, [Diag.open_tree_failed])
  else if o.open_ns < 0 then (1, [Diag.open_ns_failed])
  else if o.setns < 0 then (1, [Diag.setns_failed])
  else
    let msgs := step_mkdir o ++ step_umount o
    if o.move_mount < 0 then (1, msgs ++ [Diag.move_mount_failed])
    else (0, msgs)

/-- Every call succeeds: `stat` finds the target, nothing is mounted on it. -/
def all_ok : Outcomes :=
  { argc := 4, container_pid := 4242, open_tree := 3, open_ns := 4, setns := 0,
    stat := 0, stat_errno := 0, mkdir := 0, mkdir_errno := 0,
    umount2 := -1, umount2_errno := EINVAL, move_mount := 0 }

/-- The target does not exist and `mkdir` fails with `EACCES`; every other call
succeeds. -/
def mkdir_denied : Outcomes :=
  { all_ok with stat := -1, stat_errno := ENOENT, mkdir := -1, mkdir_errno := EACCES }

/-- The target exists, and `umount2` fails with `EPERM`; every other call
succeeds. -/
def umount_denied : Outcomes :=
  { all_ok with umount2 := -1, umount2_errno := EPERM }

/-! ## Lemmas: the comm filter -/

theorem should_trace_loop_zero_or_one (t c : Bytes 16) (fuel i : Nat) :
    should_trace_loop t c i fuel = 1 ∨ should_trace_loop t c i fuel = 0 := by
  induction fuel generalizing i with
  | zero => left; rfl
  | succ k ih =>
    unfold should_trace_loop
    by_cases h : i < 16
    · simp only [h, dite_true]
      by_cases h1 : t ⟨i, h⟩ ≠ c ⟨i, h⟩
      · rw [if_pos h1]; right; rfl
      · by_cases h2 : t ⟨i, h⟩ = 0
        · rw [if_neg h1, if_pos h2]; left; rfl
        · rw [if_neg h1, if_neg h2]
          exact ih (i + 1)
    · simp [h]

theorem should_trace_loop_eq_one (t c : Bytes 16) (fuel i : Nat) (hf : 16 ≤ i + fuel) :
    should_trace_loop t c i fuel = 1 ↔
      ∀ k : Fin 16, i ≤ k.val →
        (∀ j : Fin 16, i ≤ j.val → j < k → t j ≠ 0) → t k = c k := by
  induction fuel generalizing i with
  | zero =>
    constructor
    · intro _ k hk _
      have := k.isLt
      omega
    · intro _; rfl
  | succ n ih =>
    unfold should_trace_loop
    by_cases h : i < 16
    · simp only [h, dite_true]
      by_cases h1 : t ⟨i, h⟩ ≠ c ⟨i, h⟩
      · rw [if_pos h1]
        constructor
        · intro hx; exact absurd hx (by decide)
        · intro hx
          exact absurd (hx ⟨i, h⟩ (le_refl _) (fun j hj hlt => absurd hlt (by
            simp only [Fin.lt_def]; omega))) h1
      · have h1e : t ⟨i, h⟩ = c ⟨i, h⟩ := not_not.mp h1
        by_cases h2 : t ⟨i, h⟩ = 0
        · rw [if_neg h1, if_pos h2]
          simp only [true_iff]
          intro k hk hall
          by_cases hki : k.val = i
          · have : k = ⟨i, h⟩ := Fin.ext hki
            subst this; exact h1e
          · exact absurd h2 (hall ⟨i, h⟩ (le_refl _) (by
              simp only [Fin.lt_def]; omega))
        · rw [if_neg h1, if_neg h2]
          rw [ih (i + 1) (by omega)]
          constructor
          · intro hx k hk hall
            by_cases hki : k.val = i
            · have : k = ⟨i, h⟩ := Fin.ext hki
              subst this; exact h1e
            · exact hx k (by omega) (fun j hj hlt => hall j (by omega) hlt)
          · intro hx k hk hall
            apply hx k (by omega)
            intro j hj hlt
            by_cases hji : j.val = i
            · have : j = ⟨i, h⟩ := Fin.ext hji
              subst this; exact h2
            · exact hall j (by omega) hlt
    · simp only [h, dite_false, true_iff]
      intro k hk
      have := k.isLt
      omega

theorem should_trace_iff (target comm : Bytes 16) :
    should_trace (some target) comm = 1 ↔
      target 0 ≠ 0 ∧
        ∀ i : Fin 16, (∀ j : Fin 16, j < i → target j ≠ 0) → target i = comm i := by
  unfold should_trace
  by_cases h0 : target 0 = 0
  · simp [h0]
  · simp only [h0, if_false, ne_eq, not_false_eq_true, true_and]
    rw [should_trace_loop_eq_one target comm 16 0 (by omega)]
    constructor
    · intro hx i hall
      exact hx i (Nat.zero_le _) (fun j _ hlt => hall j hlt)
    · intro hx k _ hall
      exact hx k (fun j hlt => hall j (Nat.zero_le _) hlt)

theorem should_trace_zero_or_one (target : Option (Bytes 16)) (comm : Bytes 16) :
    should_trace target comm = 1 ∨ should_trace target comm = 0 := by
  unfold should_trace
  cases target with
  | none => right; rfl
  | some t =>
    by_cases h0 : t 0 = 0
    · simp [h0]
    · simp only [h0, if_false]
      exact should_trace_loop_zero_or_one t comm 16 0

/-- An empty filter, or a failed lookup of it, rejects every task. -/
theorem should_trace_empty (target : Option (Bytes 16)) (comm : Bytes 16)
    (h : ∀ t, target = some t → t 0 = 0) : should_trace target comm = 0 := by
  unfold should_trace
  cases target with
  | none => rfl
  | some t => simp [h t rfl]

/-! ## Lemmas: strings -/

theorem strnlen_from_bounds (s : Nat → Nat) (fuel i : Nat) :
    i ≤ strnlen_from s fuel i ∧ strnlen_from s fuel i ≤ i + fuel := by
  induction fuel generalizing i with
  | zero => simp [strnlen_from]
  | succ n ih =>
    unfold strnlen_from
    by_cases h : s i = 0
    · simp [h]
    · simp only [h, if_false]
      have := ih (i + 1)
      omega

theorem strnlen_from_nonzero (s : Nat → Nat) (fuel i j : Nat) (h1 : i ≤ j)
    (h2 : j < strnlen_from s fuel i) : s j ≠ 0 := by
  induction fuel generalizing i with
  | zero => simp [strnlen_from] at h2; omega
  | succ n ih =>
    unfold strnlen_from at h2
    by_cases h : s i = 0
    · simp [h] at h2; omega
    · simp only [h, if_false] at h2
      by_cases hij : j = i
      · subst hij; exact h
      · exact ih (i + 1) (by omega) h2

theorem strnlen_from_nul (s : Nat → Nat) (fuel i : Nat)
    (h : strnlen_from s fuel i < i + fuel) : s (strnlen_from s fuel i) = 0 := by
  induction fuel generalizing i with
  | zero => simp [strnlen_from] at h
  | succ n ih =>
    unfold strnlen_from at h ⊢
    by_cases h0 : s i = 0
    · simp [h0]
    · simp only [h0, if_false] at h ⊢
      exact ih (i + 1) (by omega)

theorem strnlen_le (s : Nat → Nat) (m : Nat) : strnlen s m ≤ m := by
  have := (strnlen_from_bounds s m 0).2
  simpa [strnlen] using this

theorem strnlen_nonzero (s : Nat → Nat) (m j : Nat) (h : j < strnlen s m) : s j ≠ 0 :=
  strnlen_from_nonzero s m 0 j (Nat.zero_le _) h

theorem strnlen_nul (s : Nat → Nat) (m : Nat) (h : strnlen s m < m) : s (strnlen s m) = 0 := by
  apply strnlen_from_nul s m 0
  simpa [strnlen] using h

/-- The first NUL is determined by what it has to satisfy. -/
theorem strnlen_unique (s : Nat → Nat) (m n : Nat) (h1 : n ≤ m)
    (h2 : ∀ j, j < n → s j ≠ 0) (h3 : n < m → s n = 0) : strnlen s m = n := by
  have a := strnlen_le s m
  have b := strnlen_nonzero s m
  have c := strnlen_nul s m
  rcases Nat.lt_trichotomy (strnlen s m) n with h | h | h
  · exact absurd (c (by omega)) (h2 _ h)
  · exact h
  · exact absurd (h3 (by omega)) (b n h)

theorem strnlen_congr (s t : Nat → Nat) (m : Nat) (h : ∀ j, j < m → s j = t j) :
    strnlen s m = strnlen t m := by
  apply strnlen_unique s m (strnlen t m) (strnlen_le t m)
  · intro j hj
    have := strnlen_le t m
    rw [h j (by omega)]
    exact strnlen_nonzero t m j hj
  · intro hlt
    rw [h _ hlt]
    exact strnlen_nul t m hlt

theorem mem_str_length (s : Nat → Nat) (m : Nat) : (mem_str s m).length = strnlen s m := by
  simp [mem_str]

theorem mem_str_getD (s : Nat → Nat) (m j : Nat) (h : j < strnlen s m) :
    (mem_str s m).getD j 0 = s j := by
  rw [List.getD_eq_getElem?_getD]
  simp [mem_str, List.getElem?_map, List.getElem?_range h]

theorem mem_str_no_nul (s : Nat → Nat) (m : Nat) : 0 ∉ mem_str s m := by
  intro h
  simp only [mem_str, List.mem_map, List.mem_range] at h
  obtain ⟨j, hj, hz⟩ := h
  exact strnlen_nonzero s m j hj hz

theorem mem_str_congr (s t : Nat → Nat) (m : Nat) (h : ∀ j, j < m → s j = t j) :
    mem_str s m = mem_str t m := by
  unfold mem_str
  rw [strnlen_congr s t m h]
  apply List.map_congr_left
  intro j hj
  have := strnlen_le t m
  exact h j (by have := List.mem_range.mp hj; omega)

theorem rd_lt {n : Nat} (a : Bytes n) (j : Nat) (h : j < n) : rd a j = a ⟨j, h⟩ := by
  simp [rd, h]

/-- What the string-read helper leaves in the destination, read as a string. -/
theorem rd_probe_read_some {n : Nat} (dst : Bytes n) (s : Nat → Nat) (j : Nat)
    (h : j < n) :
    rd (bpf_probe_read_str dst (some s)) j =
      if j < strnlen s (n - 1) then s j
      else if j = strnlen s (n - 1) then 0 else dst ⟨j, h⟩ := by
  simp [rd, h, bpf_probe_read_str]

theorem strnlen_probe_read_some {n : Nat} (dst : Bytes n) (s : Nat → Nat) (m : Nat)
    (hm : n - 1 ≤ m) (hmn : m ≤ n) :
    strnlen (rd (bpf_probe_read_str dst (some s))) m = strnlen s (n - 1) := by
  have hle := strnlen_le s (n - 1)
  apply strnlen_unique _ m _ (by omega)
  · intro j hj
    rw [rd_probe_read_some dst s j (by omega), if_pos hj]
    exact strnlen_nonzero s (n - 1) j hj
  · intro hlt
    rw [rd_probe_read_some dst s _ (by omega)]
    simp

theorem cstr_probe_read_some {n : Nat} (dst : Bytes n) (s : Nat → Nat) (hn : 0 < n) :
    cstr (bpf_probe_read_str dst (some s)) = mem_str s (n - 1) := by
  unfold cstr mem_str
  rw [strnlen_probe_read_some dst s n (by omega) (le_refl _)]
  apply List.map_congr_left
  intro j hj
  have hj2 := List.mem_range.mp hj
  have hle := strnlen_le s (n - 1)
  rw [rd_probe_read_some dst s j (by omega), if_pos hj2]

theorem cstr_of_head_nul {n : Nat} (a : Bytes n) (h : rd a 0 = 0) : cstr a = [] := by
  unfold cstr mem_str
  have : strnlen (rd a) n = 0 := by
    cases n with
    | zero => rfl
    | succ k => simp [strnlen, strnlen_from, h]
  rw [this]; rfl

/-! ## Lemmas: read_dentry_path -/

theorem copy_loop_pos_le (src : Bytes 48) (lim : Int) (fuel i : Nat) (buf : Nat → Nat)
    (pos : Nat) : (copy_loop src lim fuel i buf pos).2 ≤ pos + fuel := by
  induction fuel generalizing i buf pos with
  | zero => simp [copy_loop]
  | succ n ih =>
    unfold copy_loop
    by_cases h : i < 47
    · simp only [h, dite_true]
      by_cases hc : src ⟨i, by omega⟩ ≠ 0 ∧ (pos : Int) < lim
      · rw [if_pos hc]
        have := ih (i + 1) (poke buf pos (src ⟨i, by omega⟩)) (pos + 1)
        omega
      · rw [if_neg hc]; simp
    · simp [h]

/-- When the limit `lim` cannot cut it short, the copy loop appends the bytes of
`src` from index `i` up to the first NUL among its first 47 bytes. -/
theorem copy_loop_spec (src : Bytes 48) (lim : Int) (fuel i : Nat) (buf : Nat → Nat)
    (pos : Nat) (hf : i + fuel = 47) (hi : i ≤ strnlen (rd src) 47)
    (hl : (pos : Int) + ((strnlen (rd src) 47 - i : Nat) : Int) ≤ lim) :
    (copy_loop src lim fuel i buf pos).2 = pos + (strnlen (rd src) 47 - i) ∧
    ∀ j, (copy_loop src lim fuel i buf pos).1 j =
      if pos ≤ j ∧ j < pos + (strnlen (rd src) 47 - i) then rd src (i + (j - pos))
      else buf j := by
  have hn47 := strnlen_le (rd src) 47
  induction fuel generalizing i buf pos with
  | zero =>
    have : strnlen (rd src) 47 - i = 0 := by omega
    simp only [copy_loop, this, Nat.add_zero, true_and]
    intro j
    rw [if_neg (by omega)]
  | succ n ih =>
    unfold copy_loop
    have h : i < 47 := by omega
    simp only [h, dite_true]
    by_cases hlt : i < strnlen (rd src) 47
    · have hnz : src ⟨i, by omega⟩ ≠ 0 := by
        have := strnlen_nonzero (rd src) 47 i hlt
        rwa [rd_lt src i (by omega)] at this
      have hpos : (pos : Int) < lim := by omega
      rw [if_pos ⟨hnz, hpos⟩]
      obtain ⟨e1, e2⟩ := ih (i + 1) (poke buf pos (src ⟨i, by omega⟩)) (pos + 1)
        (by omega) (by omega) (by omega)
      refine ⟨by rw [e1]; omega, ?_⟩
      intro j
      rw [e2 j]
      by_cases hj : j = pos
      · subst hj
        have c1 : ¬ (j + 1 ≤ j ∧ j < j + 1 + (strnlen (rd src) 47 - (i + 1))) := by omega
        have c2 : j ≤ j ∧ j < j + (strnlen (rd src) 47 - i) := by omega
        rw [if_neg c1, if_pos c2]
        simp [poke, rd_lt src i (by omega : i < 48)]
      · by_cases hin : pos + 1 ≤ j ∧ j < pos + 1 + (strnlen (rd src) 47 - (i + 1))
        · have c2 : pos ≤ j ∧ j < pos + (strnlen (rd src) 47 - i) := by omega
          rw [if_pos hin, if_pos c2]
          congr 1
          omega
        · have c2 : ¬ (pos ≤ j ∧ j < pos + (strnlen (rd src) 47 - i)) := by omega
          rw [if_neg hin, if_neg c2]
          simp [poke, hj]
    · have hieq : i = strnlen (rd src) 47 := by omega
      have hz : src ⟨i, by omega⟩ = 0 := by
        have := strnlen_nul (rd src) 47 (by omega)
        rw [← hieq, rd_lt src i (by omega)] at this
        exact this
      have hc : ¬ (src ⟨i, by omega⟩ ≠ 0 ∧ (pos : Int) < lim) := by
        intro hx; exact hx.1 hz
      rw [if_neg hc]
      have : strnlen (rd src) 47 - i = 0 := by omega
      simp only [this, Nat.add_zero, true_and]
      intro j
      rw [if_neg (by omega)]

theorem build_path_no_parent (name pn : Bytes 48) (buf : Nat → Nat) (j : Nat) :
    build_path name pn 0 buf 128 j =
      if j < strnlen (rd name) 47 then rd name j
      else if j = strnlen (rd name) 47 then 0 else buf j := by
  have hn := strnlen_le (rd name) 47
  obtain ⟨e1, e2⟩ := copy_loop_spec name (128 - 1) 47 0 buf 0 (by omega) (Nat.zero_le _)
    (by omega)
  simp only [build_path, ne_eq, not_true_eq_false, if_false, poke]
  rw [e1, e2 j]
  by_cases h1 : j < strnlen (rd name) 47
  · have c : ¬ (j = 0 + (strnlen (rd name) 47 - 0)) := by omega
    have c2 : 0 ≤ j ∧ j < 0 + (strnlen (rd name) 47 - 0) := by omega
    rw [if_neg c, if_pos c2, if_pos h1]
    congr 1
    omega
  · by_cases h2 : j = strnlen (rd name) 47
    · have c : j = 0 + (strnlen (rd name) 47 - 0) := by omega
      rw [if_pos c, if_neg h1, if_pos h2]
    · have c : ¬ (j = 0 + (strnlen (rd name) 47 - 0)) := by omega
      have c2 : ¬ (0 ≤ j ∧ j < 0 + (strnlen (rd name) 47 - 0)) := by omega
      rw [if_neg c, if_neg c2, if_neg h1, if_neg h2]

theorem build_path_parent (name pn : Bytes 48) (hp : Nat) (hhp : hp ≠ 0) (buf : Nat → Nat)
    (j : Nat) :
    build_path name pn hp buf 128 j =
      if j < strnlen (rd pn) 47 then rd pn j
      else if j = strnlen (rd pn) 47 then 47
      else if j < strnlen (rd pn) 47 + 1 + strnlen (rd name) 47 then
        rd name (j - (strnlen (rd pn) 47 + 1))
      else if j = strnlen (rd pn) 47 + 1 + strnlen (rd name) 47 then 0
      else buf j := by
  have hn := strnlen_le (rd name) 47
  have hpn := strnlen_le (rd pn) 47
  obtain ⟨e1, e2⟩ := copy_loop_spec pn (128 - 2) 47 0 buf 0 (by omega) (Nat.zero_le _)
    (by omega)
  obtain ⟨f1, f2⟩ := copy_loop_spec name (128 - 1) 47 0
    (poke (copy_loop pn (128 - 2) 47 0 buf 0).1 (copy_loop pn (128 - 2) 47 0 buf 0).2 47)
    ((copy_loop pn (128 - 2) 47 0 buf 0).2 + 1) (by omega) (Nat.zero_le _)
    (by rw [e1]; omega)
  simp only [build_path, hhp, ne_eq, not_false_eq_true, if_true]
  unfold poke at f1 f2 ⊢
  rw [f1, f2 j, e1, e2 j]
  simp only [Nat.sub_zero, Nat.zero_add, Nat.zero_le, true_and]
  by_cases h1 : j < strnlen (rd pn) 47
  · rw [if_neg (by omega), if_neg (by omega), if_neg (by omega), if_pos h1, if_pos h1]
  · by_cases h2 : j = strnlen (rd pn) 47
    · rw [if_neg (by omega), if_neg (by omega), if_pos h2, if_neg h1, if_pos h2]
    · by_cases h3 : j < strnlen (rd pn) 47 + 1 + strnlen (rd name) 47
      · rw [if_neg (by omega), if_pos (by omega), if_neg h1, if_neg h2, if_pos h3]
      · by_cases h4 : j = strnlen (rd pn) 47 + 1 + strnlen (rd name) 47
        · rw [if_pos h4, if_neg h1, if_neg h2, if_neg h3, if_pos h4]
        · rw [if_neg h4, if_neg (by omega), if_neg h2, if_neg h1, if_neg h1, if_neg h2,
            if_neg h3, if_neg h4]

theorem probe_read48_spec (dst : Bytes 48) (src : Option (Nat → Nat)) :
    strnlen (rd (bpf_probe_read_str dst src)) 47 = (read48_spec src).length ∧
    (∀ j, j < (read48_spec src).length →
      rd (bpf_probe_read_str dst src) j = (read48_spec src).getD j 0) ∧
    (bpf_probe_read_str dst src 0 ≠ 47 ∧ bpf_probe_read_str dst src 0 ≠ 0 ↔
      (read48_spec src).head? ≠ some 47 ∧ (read48_spec src).head? ≠ none) := by
  cases src with
  | none =>
    refine ⟨?_, ?_, ?_⟩
    · simp [read48_spec, strnlen, strnlen_from, rd, bpf_probe_read_str]
    · intro j hj; simp [read48_spec] at hj
    · simp [read48_spec, bpf_probe_read_str]
  | some s =>
    have hlen : strnlen (rd (bpf_probe_read_str dst (some s))) 47 = strnlen s 47 :=
      strnlen_probe_read_some dst s 47 (by omega) (by omega)
    have hle := strnlen_le s 47
    refine ⟨?_, ?_, ?_⟩
    · rw [hlen]; simp [read48_spec, mem_str_length]
    · intro j hj
      simp only [read48_spec, mem_str_length] at hj
      simp only [read48_spec]
      rw [mem_str_getD s 47 j hj, rd_probe_read_some dst s j (by omega)]
      simp [hj]
    · have h0 : bpf_probe_read_str dst (some s) 0
          = if 0 < strnlen s 47 then s 0 else 0 := by
        have := rd_probe_read_some dst s 0 (by omega)
        rw [rd_lt _ 0 (by omega)] at this
        rw [show (0 : Fin 48) = ⟨0, by omega⟩ from rfl, this]
        by_cases hz : 0 < strnlen s 47
        · simp [hz]
        · have : strnlen s 47 = 0 := by omega
          simp [this]
      rw [h0]
      simp only [read48_spec, mem_str]
      by_cases hz : 0 < strnlen s 47
      · have hs0 : s 0 ≠ 0 := strnlen_nonzero s 47 0 hz
        obtain ⟨m, hm⟩ : ∃ m, strnlen s 47 = m + 1 := ⟨strnlen s 47 - 1, by omega⟩
        simp [hz, hm, List.range_succ_eq_map, hs0]
      · have : strnlen s 47 = 0 := by omega
        simp [this]

theorem dentry_name_spec (k : KMem) (name0 : Bytes 48) (d : Nat) :
    strnlen (rd (dentry_name k name0 d)) 47 = (name_read k d).length ∧
    ∀ j, j < (name_read k d).length →
      rd (dentry_name k name0 d) j = (name_read k d).getD j 0 := by
  unfold dentry_name name_read bpf_probe_read_kernel
  by_cases h : (k.d_name d).getD 0 = 0
  · simp only [h, ne_eq, not_true_eq_false, if_false, if_true, List.length_nil]
    refine ⟨?_, fun j hj => absurd hj (by omega)⟩
    simp [strnlen, strnlen_from, rd]
  · simp only [h, ne_eq, not_false_eq_true, if_true, if_false]
    have := probe_read48_spec name0 (k.str ((k.d_name d).getD 0))
    cases hs : k.str ((k.d_name d).getD 0) with
    | none => rw [hs] at this; exact ⟨this.1, this.2.1⟩
    | some s => rw [hs] at this; exact ⟨this.1, this.2.1⟩

theorem dentry_parent_spec (k : KMem) (parent_name0 : Bytes 48) (d : Nat) :
    ((dentry_parent k parent_name0 d).2 ≠ 0 ↔
      ((k.d_parent d).getD 0 ≠ 0 ∧ (k.d_parent d).getD 0 ≠ d ∧
        (name_read k ((k.d_parent d).getD 0)).head? ≠ some 47 ∧
        (name_read k ((k.d_parent d).getD 0)).head? ≠ none)) ∧
    ((dentry_parent k parent_name0 d).2 ≠ 0 →
      strnlen (rd (dentry_parent k parent_name0 d).1) 47
        = (name_read k ((k.d_parent d).getD 0)).length ∧
      ∀ j, j < (name_read k ((k.d_parent d).getD 0)).length →
        rd (dentry_parent k parent_name0 d).1 j
          = (name_read k ((k.d_parent d).getD 0)).getD j 0) := by
  unfold dentry_parent name_read bpf_probe_read_kernel
  by_cases hp : (k.d_parent d).getD 0 ≠ 0 ∧ (k.d_parent d).getD 0 ≠ d
  · simp only [hp, and_self, if_true, ne_eq, not_false_eq_true, true_and]
    by_cases hn : (k.d_name ((k.d_parent d).getD 0)).getD 0 = 0
    · simp [hn]
    · simp only [hn, not_false_eq_true, if_true, if_false]
      have key := probe_read48_spec parent_name0
        (k.str ((k.d_name ((k.d_parent d).getD 0)).getD 0))
      have hrs : (match k.str ((k.d_name ((k.d_parent d).getD 0)).getD 0) with
          | none => []
          | some s => mem_str s 47)
          = read48_spec (k.str ((k.d_name ((k.d_parent d).getD 0)).getD 0)) := rfl
      rw [hrs]
      by_cases hc : bpf_probe_read_str parent_name0
            (k.str ((k.d_name ((k.d_parent d).getD 0)).getD 0)) 0 ≠ 47 ∧
          bpf_probe_read_str parent_name0
            (k.str ((k.d_name ((k.d_parent d).getD 0)).getD 0)) 0 ≠ 0
      · rw [if_pos hc]
        exact ⟨⟨fun _ => key.2.2.mp hc, fun _ => by simp⟩, fun _ => ⟨key.1, key.2.1⟩⟩
      · rw [if_neg hc]
        refine ⟨⟨fun hx => absurd rfl hx, fun hx => absurd (key.2.2.mpr hx) hc⟩,
          fun hx => absurd rfl hx⟩
  · have hp2 : ¬ ((k.d_parent d).getD 0 ≠ 0 ∧ (k.d_parent d).getD 0 ≠ d) := hp
    rw [if_neg hp2]
    refine ⟨⟨fun hx => absurd rfl hx, fun hx => absurd ⟨hx.1, hx.2.1⟩ hp⟩,
      fun hx => absurd rfl hx⟩

theorem name_read_no_nul (k : KMem) (d : Nat) : 0 ∉ name_read k d := by
  unfold name_read
  by_cases h : (k.d_name d).getD 0 = 0
  · simp [h]
  · simp only [h, if_false]
    cases k.str ((k.d_name d).getD 0) with
    | none => simp
    | some s => exact mem_str_no_nul s 47

theorem name_read_length (k : KMem) (d : Nat) : (name_read k d).length ≤ 47 := by
  unfold name_read
  by_cases h : (k.d_name d).getD 0 = 0
  · simp [h]
  · simp only [h, if_false]
    cases k.str ((k.d_name d).getD 0) with
    | none => simp
    | some s => rw [mem_str_length]; exact strnlen_le s 47

/-- Bytes of the string `p ++ "/" ++ n`, by position. -/
theorem getD_join (p n : List Nat) (j : Nat) :
    (p ++ [47] ++ n).getD j 0 =
      if j < p.length then p.getD j 0
      else if j = p.length then 47
      else n.getD (j - (p.length + 1)) 0 := by
  by_cases h1 : j < p.length
  · rw [if_pos h1, List.getD_append _ _ _ _ (by simp; omega), List.getD_append _ _ _ _ h1]
  · by_cases h2 : j = p.length
    · rw [if_neg h1, if_pos h2, List.getD_append _ _ _ _ (by simp; omega),
        List.getD_append_right _ _ _ _ (by omega)]
      simp [h2]
    · rw [if_neg h1, if_neg h2, List.getD_append_right _ _ _ _ (by simp; omega)]
      simp

/-- For a non-null dentry and `buflen = 128` the output is the specified string,
then a NUL, then the old contents of the buffer. -/
theorem read_dentry_path_bytes (k : KMem) (name0 parent_name0 : Bytes 48) (d : Nat)
    (buf : Nat → Nat) (hd : d ≠ 0) :
    0 ∉ dentry_path_spec k d ∧
    ∀ j, read_dentry_path k name0 parent_name0 d buf 128 j =
      if j ≤ (dentry_path_spec k d).length then (dentry_path_spec k d).getD j 0
      else buf j := by
  obtain ⟨n1, n2⟩ := dentry_name_spec k name0 d
  obtain ⟨p1, p2⟩ := dentry_parent_spec k parent_name0 d
  have hguard : ¬ (d = 0 ∨ (128 : Int) < 2) := by
    intro h
    rcases h with h | h
    · exact hd h
    · omega
  by_cases hh : (dentry_parent k parent_name0 d).2 ≠ 0
  · have cond := p1.mp hh
    obtain ⟨q1, q2⟩ := p2 hh
    have hspec : dentry_path_spec k d
        = name_read k ((k.d_parent d).getD 0) ++ [47] ++ name_read k d := by
      simp only [dentry_path_spec]
      rw [if_pos cond]
    rw [hspec]
    constructor
    · intro hmem
      simp only [List.mem_append, List.mem_singleton] at hmem
      rcases hmem with (h | h) | h
      · exact name_read_no_nul _ _ h
      · omega
      · exact name_read_no_nul _ _ h
    · intro j
      unfold read_dentry_path
      rw [if_neg hguard, build_path_parent _ _ _ hh, getD_join, n1, q1]
      simp only [List.length_append, List.length_singleton]
      by_cases h1 : j < (name_read k ((k.d_parent d).getD 0)).length
      · rw [if_pos h1, if_pos (by omega), if_pos h1, q2 j h1]
      · by_cases h2 : j = (name_read k ((k.d_parent d).getD 0)).length
        · rw [if_neg h1, if_pos h2, if_pos (by omega), if_neg h1, if_pos h2]
        · by_cases h3 : j < (name_read k ((k.d_parent d).getD 0)).length + 1
              + (name_read k d).length
          · rw [if_neg h1, if_neg h2, if_pos h3, if_pos (by omega), if_neg h1, if_neg h2,
              n2 _ (by omega)]
          · by_cases h4 : j = (name_read k ((k.d_parent d).getD 0)).length + 1
                + (name_read k d).length
            · rw [if_neg h1, if_neg h2, if_neg h3, if_pos h4, if_pos (by omega), if_neg h1,
                if_neg h2, List.getD_eq_default _ _ (by omega)]
            · rw [if_neg h1, if_neg h2, if_neg h3, if_neg h4, if_neg (by omega)]
  · have hz : (dentry_parent k parent_name0 d).2 = 0 := not_not.mp hh
    have cond : ¬ ((k.d_parent d).getD 0 ≠ 0 ∧ (k.d_parent d).getD 0 ≠ d ∧
        (name_read k ((k.d_parent d).getD 0)).head? ≠ some 47 ∧
        (name_read k ((k.d_parent d).getD 0)).head? ≠ none) := fun hc => hh (p1.mpr hc)
    have hspec : dentry_path_spec k d = name_read k d := by
      simp only [dentry_path_spec]
      rw [if_neg cond]
    rw [hspec]
    refine ⟨name_read_no_nul _ _, ?_⟩
    intro j
    unfold read_dentry_path
    rw [if_neg hguard, hz, build_path_no_parent, n1]
    by_cases h1 : j < (name_read k d).length
    · rw [if_pos h1, if_pos (by omega), n2 j h1]
    · by_cases h2 : j = (name_read k d).length
      · rw [if_neg h1, if_pos h2, if_pos (by omega), List.getD_eq_default _ _ (by omega)]
      · rw [if_neg h1, if_neg h2, if_neg (by omega)]

theorem dentry_path_spec_length (k : KMem) (d : Nat) : (dentry_path_spec k d).length ≤ 95 := by
  have a := name_read_length k d
  have b := name_read_length k ((k.d_parent d).getD 0)
  simp only [dentry_path_spec]
  split
  · simp only [List.length_append, List.length_singleton]; omega
  · omega

/-! ## Lemmas: strings read from user memory -/

theorem cstr_zeroBytes (n : Nat) : cstr (zeroBytes n) = [] := by
  apply cstr_of_head_nul
  simp [rd, zeroBytes]

theorem cstr_read_user_path (env : Env) (p : Nat) :
    cstr (read_user_path env (zeroBytes 128) p) = user_str env p 127 := by
  unfold read_user_path user_str
  by_cases hp : p = 0
  · simp only [hp, ne_eq, not_true_eq_false, if_false, if_true]
    exact cstr_zeroBytes 128
  · simp only [hp, ne_eq, not_false_eq_true, if_true, if_false]
    cases env.user_mem p with
    | none =>
      apply cstr_of_head_nul
      simp [rd, bpf_probe_read_str]
    | some s => exact cstr_probe_read_some (zeroBytes 128) s (by omega)

theorem read_user_path_has_nul (env : Env) (p : Nat) :
    ∃ i : Fin 128, read_user_path env (zeroBytes 128) p i = 0 := by
  unfold read_user_path
  by_cases hp : p = 0
  · exact ⟨0, by simp [hp, zeroBytes]⟩
  · simp only [hp, ne_eq, not_false_eq_true, if_true]
    cases env.user_mem p with
    | none => exact ⟨0, by simp [bpf_probe_read_str]⟩
    | some s =>
      have hle := strnlen_le s (128 - 1)
      exact ⟨⟨strnlen s (128 - 1), by omega⟩, by simp [bpf_probe_read_str]⟩

theorem sys_sctx_path (c : Syscall) (env : Env) (args : Fin 6 → Nat) :
    ∃ p, (sys_sctx c env args).path = read_user_path env (zeroBytes 128) p := by
  cases c
  · exact ⟨args 1, rfl⟩
  · exact ⟨args 0, rfl⟩
  · exact ⟨args 1, rfl⟩
  · exact ⟨args 1, rfl⟩
  · exact ⟨args 1, rfl⟩

theorem sys_sctx_op (c : Syscall) (env : Env) (args : Fin 6 → Nat) :
    (sys_sctx c env args).op = sys_op c ∧ (sys_sctx c env args).start_ns = env.ktime := by
  cases c <;> exact ⟨rfl, rfl⟩

theorem sys_enter_eq (c : Syscall) (env : Env) (args : Fin 6 → Nat) (s : FState) :
    sys_enter c env args s =
      if should_trace env.target_comm env.comm = 0 then s
      else save_syscall_ctx env (sys_sctx c env args) s := by
  cases c <;> rfl

theorem sys_exit_eq (c : Syscall) (env : Env) (ret : Int) (s : FState) :
    sys_exit c env ret s = emit_exit_event env ret s := by
  cases c <;> rfl

/-- A byte array that holds the bytes of `L`, none of them NUL, followed by a
NUL, holds the C string `L`. -/
theorem cstr_of_spec {n : Nat} (a : Bytes n) (L : List Nat) (hL : L.length < n)
    (h0 : 0 ∉ L) (ha : ∀ j, j ≤ L.length → rd a j = L.getD j 0) : cstr a = L := by
  have hlen : strnlen (rd a) n = L.length := by
    apply strnlen_unique _ _ _ (by omega)
    · intro j hj
      rw [ha j (by omega), List.getD_eq_getElem _ _ hj]
      intro hz
      exact h0 (hz ▸ List.getElem_mem _)
    · intro _
      rw [ha _ (le_refl _), List.getD_eq_default _ _ (le_refl _)]
  unfold cstr mem_str
  rw [hlen]
  apply List.ext_getElem
  · simp
  · intro i h1 h2
    simp only [List.getElem_map, List.getElem_range]
    rw [ha i (by omega), List.getD_eq_getElem _ _ h2]

/-! ## Lemmas: the records of the vfs kprobes -/

theorem vfs_entry_record_fields (op : Nat) (env : Env) (parm3 : Nat) (e : file_event) :
    (vfs_entry_record op env parm3 e).timestamp_ns = env.ktime ∧
    (vfs_entry_record op env parm3 e).duration_ns = 0 ∧
    (vfs_entry_record op env parm3 e).tgid = tgid_of env.pid_tgid ∧
    (vfs_entry_record op env parm3 e).op = op ∧
    (vfs_entry_record op env parm3 e).flags = 1 ∧
    (vfs_entry_record op env parm3 e).error = 0 ∧
    (vfs_entry_record op env parm3 e).comm = env.comm := by
  unfold vfs_entry_record
  by_cases h : parm3 = 0
  · simp [h]
  · simp [h, path_store]

theorem vfs_entry_record_path (op : Nat) (env : Env) (parm3 : Nat) (e : file_event)
    (i : Fin 128) :
    (vfs_entry_record op env parm3 e).path i =
      if parm3 ≠ 0 then
        read_dentry_path env.kmem env.name0 env.parent_name0 parm3 (path_view e) 128 i.val
      else if i.val = 0 then 0 else e.path i := by
  unfold vfs_entry_record
  by_cases h : parm3 = 0
  · simp [h]
  · simp only [h, ne_eq, not_false_eq_true, if_true, path_store]
    rfl

theorem vfs_entry_record_cstr (op : Nat) (env : Env) (parm3 : Nat) (e : file_event) :
    cstr (vfs_entry_record op env parm3 e).path =
      if parm3 ≠ 0 then dentry_path_spec env.kmem parm3 else [] := by
  by_cases h : parm3 = 0
  · rw [if_neg (by simpa using h)]
    apply cstr_of_head_nul
    rw [rd_lt _ 0 (by omega), vfs_entry_record_path]
    simp [h]
  · rw [if_pos h]
    obtain ⟨h0, hj⟩ := read_dentry_path_bytes env.kmem env.name0 env.parent_name0 parm3
      (path_view e) h
    have hlen := dentry_path_spec_length env.kmem parm3
    apply cstr_of_spec _ _ (by omega) h0
    intro j hjl
    rw [rd_lt _ j (by omega), vfs_entry_record_path, if_pos h, hj j, if_pos hjl]

theorem vfs_entry_record_has_nul (op : Nat) (env : Env) (parm3 : Nat) (e : file_event) :
    ∃ i : Fin 128, (vfs_entry_record op env parm3 e).path i = 0 := by
  by_cases h : parm3 = 0
  · refine ⟨0, ?_⟩
    rw [vfs_entry_record_path]
    simp [h]
  · obtain ⟨_, hj⟩ := read_dentry_path_bytes env.kmem env.name0 env.parent_name0 parm3
      (path_view e) h
    have hlen := dentry_path_spec_length env.kmem parm3
    refine ⟨⟨(dentry_path_spec env.kmem parm3).length, by omega⟩, ?_⟩
    rw [vfs_entry_record_path, if_pos h, hj _, if_pos (le_refl _),
      List.getD_eq_default _ _ (le_refl _)]

theorem kp_vfs_entry_reject (op : Nat) (env : Env) (parm3 : Nat) (s : FState)
    (h : should_trace env.target_comm env.comm = 0) : kp_vfs_entry op env parm3 s = s := by
  simp [kp_vfs_entry, h]

theorem kp_vfs_entry_pass (op : Nat) (env : Env) (parm3 : Nat) (s : FState)
    (h : ¬ should_trace env.target_comm env.comm = 0) :
    kp_vfs_entry op env parm3 s =
      { syscall_ctx_map := s.syscall_ctx_map,
        kprobe_ctx_map :=
          bpf_map_update_elem env.map_full s.kprobe_ctx_map (kprobe_key env.pid_tgid op)
            { start_ns := env.ktime, op := op },
        events :=
          match env.reserve with
          | none => s.events
          | some e => s.events ++ [vfs_entry_record op env parm3 e] } := by
  unfold kp_vfs_entry
  rw [if_neg h]
  cases env.reserve <;> rfl

/-! ## Lemmas: hash maps and the exit paths -/

theorem update_lookup_same {V : Type} (full : Bool) (m : BpfHash V) (k : Nat) (v : V)
    (h : refused full m k = false) : bpf_map_update_elem full m k v k = some v := by
  simp [bpf_map_update_elem, h]

theorem update_refused {V : Type} (full : Bool) (m : BpfHash V) (k : Nat) (v : V)
    (h : refused full m k = true) : bpf_map_update_elem full m k v = m := by
  simp [bpf_map_update_elem, h]

theorem refused_lookup {V : Type} (full : Bool) (m : BpfHash V) (k : Nat)
    (h : refused full m k = true) : m k = none := by
  simp only [refused, Bool.and_eq_true, Option.isNone_iff_eq_none] at h
  exact h.2

theorem update_lookup_other {V : Type} (full : Bool) (m : BpfHash V) (k j : Nat) (v : V)
    (h : j ≠ k) : bpf_map_update_elem full m k v j = m j := by
  unfold bpf_map_update_elem
  by_cases hc : refused full m k = true
  · simp [hc]
  · simp [hc, h]

theorem delete_lookup_same {V : Type} (m : BpfHash V) (k : Nat) :
    bpf_map_delete_elem m k k = none := by
  simp [bpf_map_delete_elem]

theorem delete_lookup_other {V : Type} (m : BpfHash V) (k j : Nat) (h : j ≠ k) :
    bpf_map_delete_elem m k j = m j := by
  simp [bpf_map_delete_elem, h]

theorem emit_exit_event_none (env : Env) (ret : Int) (s : FState)
    (h : s.syscall_ctx_map env.pid_tgid = none) : emit_exit_event env ret s = s := by
  simp [emit_exit_event, bpf_map_lookup_elem, h]

theorem emit_exit_event_noreserve (env : Env) (ret : Int) (s : FState) (ctx : syscall_ctx)
    (h : s.syscall_ctx_map env.pid_tgid = some ctx) (hr : env.reserve = none) :
    emit_exit_event env ret s =
      { s with syscall_ctx_map := bpf_map_delete_elem s.syscall_ctx_map env.pid_tgid } := by
  simp [emit_exit_event, bpf_map_lookup_elem, h, hr]

theorem emit_exit_event_some (env : Env) (ret : Int) (s : FState) (ctx : syscall_ctx)
    (e : file_event) (h : s.syscall_ctx_map env.pid_tgid = some ctx)
    (hr : env.reserve = some e) :
    emit_exit_event env ret s =
      { syscall_ctx_map := bpf_map_delete_elem s.syscall_ctx_map env.pid_tgid,
        kprobe_ctx_map := s.kprobe_ctx_map,
        events := s.events ++ [exit_record env ret ctx e] } := by
  simp [emit_exit_event, bpf_map_lookup_elem, h, hr, submit]

theorem emit_kprobe_exit_event_none (env : Env) (op : Nat) (ret : Int) (s : FState)
    (h : s.kprobe_ctx_map (kprobe_key env.pid_tgid op) = none) :
    emit_kprobe_exit_event env op ret s = s := by
  simp [emit_kprobe_exit_event, bpf_map_lookup_elem, h]

theorem emit_kprobe_exit_event_noreserve (env : Env) (op : Nat) (ret : Int) (s : FState)
    (ctx : kprobe_ctx) (h : s.kprobe_ctx_map (kprobe_key env.pid_tgid op) = some ctx)
    (hr : env.reserve = none) :
    emit_kprobe_exit_event env op ret s =
      { s with
        kprobe_ctx_map :=
          bpf_map_delete_elem s.kprobe_ctx_map (kprobe_key env.pid_tgid op) } := by
  simp [emit_kprobe_exit_event, bpf_map_lookup_elem, h, hr]

theorem emit_kprobe_exit_event_some (env : Env) (op : Nat) (ret : Int) (s : FState)
    (ctx : kprobe_ctx) (e : file_event)
    (h : s.kprobe_ctx_map (kprobe_key env.pid_tgid op) = some ctx)
    (hr : env.reserve = some e) :
    emit_kprobe_exit_event env op ret s =
      { syscall_ctx_map := s.syscall_ctx_map,
        kprobe_ctx_map :=
          bpf_map_delete_elem s.kprobe_ctx_map (kprobe_key env.pid_tgid op),
        events := s.events ++ [kprobe_exit_record env op ret ctx e] } := by
  simp [emit_kprobe_exit_event, bpf_map_lookup_elem, h, hr, submit]

theorem to_s32_of_range (x : Int) (h1 : -(2 ^ 31) ≤ x) (h2 : x < 2 ^ 31) : to_s32 x = x := by
  unfold to_s32
  omega

theorem to_s32_range (x : Int) : -(2 ^ 31) ≤ to_s32 x ∧ to_s32 x < 2 ^ 31 := by
  unfold to_s32
  omega

/-! ## Lemmas: a syscall entry followed by its exit -/

theorem save_syscall_ctx_lookup (env : Env) (sctx : syscall_ctx) (s : FState) :
    (save_syscall_ctx env sctx s).syscall_ctx_map env.pid_tgid =
      if refused env.map_full s.syscall_ctx_map env.pid_tgid then none else some sctx := by
  simp only [save_syscall_ctx]
  by_cases hc : refused env.map_full s.syscall_ctx_map env.pid_tgid = true
  · rw [if_pos hc, update_refused _ _ _ _ hc]
    exact refused_lookup _ _ _ hc
  · rw [if_neg hc, update_lookup_same _ _ _ _ (by simpa using hc)]

theorem save_syscall_ctx_frame (env : Env) (sctx : syscall_ctx) (s : FState) :
    (save_syscall_ctx env sctx s).events = s.events ∧
    (save_syscall_ctx env sctx s).kprobe_ctx_map = s.kprobe_ctx_map :=
  ⟨rfl, rfl⟩

/-- The records in the ring buffer after a tracked syscall's enter program (run
by a task that passes the filter) and the exit program of the same task. -/
theorem enter_exit_events (c : Syscall) (env1 env2 : Env) (args : Fin 6 → Nat) (ret : Int)
    (s : FState) (h1 : should_trace env1.target_comm env1.comm = 1)
    (hp : env2.pid_tgid = env1.pid_tgid) :
    (sys_exit c env2 ret (sys_enter c env1 args s)).events =
      if refused env1.map_full s.syscall_ctx_map env1.pid_tgid then s.events
      else
        match env2.reserve with
        | none => s.events
        | some e0 => s.events ++ [exit_record env2 ret (sys_sctx c env1 args) e0] := by
  rw [sys_exit_eq, sys_enter_eq, if_neg (by rw [h1]; decide)]
  have hl : (save_syscall_ctx env1 (sys_sctx c env1 args) s).syscall_ctx_map env2.pid_tgid =
      if refused env1.map_full s.syscall_ctx_map env1.pid_tgid then none
      else some (sys_sctx c env1 args) := by
    rw [hp]; exact save_syscall_ctx_lookup env1 (sys_sctx c env1 args) s
  by_cases hc : refused env1.map_full s.syscall_ctx_map env1.pid_tgid = true
  · rw [if_pos hc] at hl ⊢
    rw [emit_exit_event_none env2 ret _ hl]
    rfl
  · rw [if_neg hc] at hl ⊢
    cases hr : env2.reserve with
    | none => rw [emit_exit_event_noreserve env2 ret _ _ hl hr]; rfl
    | some e0 => rw [emit_exit_event_some env2 ret _ _ e0 hl hr]; rfl

theorem enter_exit_maps (c : Syscall) (env1 env2 : Env) (args : Fin 6 → Nat) (ret : Int)
    (s : FState) (hp : env2.pid_tgid = env1.pid_tgid) :
    (sys_exit c env2 ret (sys_enter c env1 args s)).syscall_ctx_map env1.pid_tgid = none := by
  rw [sys_exit_eq]
  cases hs : (sys_enter c env1 args s).syscall_ctx_map env2.pid_tgid with
  | none => rw [emit_exit_event_none env2 ret _ hs, ← hp]; exact hs
  | some ctx =>
    cases hr : env2.reserve with
    | none =>
      rw [emit_exit_event_noreserve env2 ret _ ctx hs hr, ← hp]
      exact delete_lookup_same _ _
    | some e0 =>
      rw [emit_exit_event_some env2 ret _ ctx e0 hs hr, ← hp]
      exact delete_lookup_same _ _

theorem append_singleton_cancel {α : Type} (l : List α) (a b : α)
    (h : l ++ [a] = l ++ [b]) : a = b := by
  have := List.append_cancel_left h
  simpa using this

theorem append_singleton_ne {α : Type} (l : List α) (a : α) : l ≠ l ++ [a] := by
  intro h
  have := congrArg List.length h
  simp at this

/-- A record appended by the exit program after the enter program is the one
built from the context the enter program stored. -/
theorem enter_exit_record (c : Syscall) (env1 env2 : Env) (args : Fin 6 → Nat) (ret : Int)
    (s : FState) (e : file_event) (h1 : should_trace env1.target_comm env1.comm = 1)
    (hp : env2.pid_tgid = env1.pid_tgid)
    (hev : (sys_exit c env2 ret (sys_enter c env1 args s)).events = s.events ++ [e]) :
    ∃ e0, env2.reserve = some e0 ∧ e = exit_record env2 ret (sys_sctx c env1 args) e0 := by
  rw [enter_exit_events c env1 env2 args ret s h1 hp] at hev
  by_cases hc : refused env1.map_full s.syscall_ctx_map env1.pid_tgid = true
  · rw [if_pos hc] at hev
    exact absurd hev (append_singleton_ne _ _)
  · rw [if_neg hc] at hev
    cases hr : env2.reserve with
    | none => rw [hr] at hev; exact absurd hev (append_singleton_ne _ _)
    | some e0 =>
      rw [hr] at hev
      exact ⟨e0, rfl, (append_singleton_cancel _ _ _ hev).symm⟩

theorem user_str_length (env : Env) (p m : Nat) : (user_str env p m).length ≤ m := by
  unfold user_str
  by_cases hp : p = 0
  · simp [hp]
  · simp only [hp, if_false]
    cases env.user_mem p with
    | none => simp
    | some s => rw [mem_str_length]; exact strnlen_le s m

theorem holds_user_str_read (env : Env) (p : Nat) :
    holds_user_str env (read_user_path env (zeroBytes 128) p) p := by
  have hc := cstr_read_user_path env p
  refine ⟨hc, ?_⟩
  have hl := user_str_length env p 127
  have hlen : strnlen (rd (read_user_path env (zeroBytes 128) p)) 128
      = (user_str env p 127).length := by
    rw [← hc]; simp [cstr, mem_str_length]
  rw [← hlen]
  exact strnlen_nul _ _ (by omega)

/-! ## Lemmas: a vfs kprobe followed by its kretprobe -/

/-- The records in the ring buffer after `kp_vfs_mkdir` / `kp_vfs_rmdir` (run by
a task that passes the filter) and the kretprobe of the same task. -/
theorem vfs_entry_exit_events (op : Nat) (env1 env2 : Env) (parm3 : Nat) (ret : Int)
    (s : FState) (e0 e1 : file_event)
    (h1 : should_trace env1.target_comm env1.comm = 1)
    (hp : env2.pid_tgid = env1.pid_tgid)
    (hr1 : env1.reserve = some e0) (hr2 : env2.reserve = some e1) :
    (emit_kprobe_exit_event env2 op ret (kp_vfs_entry op env1 parm3 s)).events =
      if refused env1.map_full s.kprobe_ctx_map (kprobe_key env1.pid_tgid op) then
        s.events ++ [vfs_entry_record op env1 parm3 e0]
      else
        s.events ++ [vfs_entry_record op env1 parm3 e0,
          kprobe_exit_record env2 op ret { start_ns := env1.ktime, op := op } e1] := by
  rw [kp_vfs_entry_pass op env1 parm3 s (by rw [h1]; decide), hr1]
  by_cases hc : refused env1.map_full s.kprobe_ctx_map (kprobe_key env1.pid_tgid op) = true
  · rw [if_pos hc]
    rw [emit_kprobe_exit_event_none]
    simp only [hp]
    rw [update_refused _ _ _ _ hc]
    exact refused_lookup _ _ _ hc
  · rw [if_neg hc]
    rw [emit_kprobe_exit_event_some env2 op ret _ { start_ns := env1.ktime, op := op } e1
      (by simp only [hp]; exact update_lookup_same _ _ _ _ (by simpa using hc)) hr2]
    simp

theorem vfs_pair_holds (op : Nat) (env1 env2 : Env) (parm3 rc : Nat) (e0 e1 : file_event)
    (hp : env2.pid_tgid = env1.pid_tgid) :
    vfs_pair op env1 env2 parm3 rc (vfs_entry_record op env1 parm3 e0)
      (kprobe_exit_record env2 op (kretprobe_ret rc) { start_ns := env1.ktime, op := op }
        e1) := by
  obtain ⟨_, f2, f3, f4, f5, f6, _⟩ := vfs_entry_record_fields op env1 parm3 e0
  have hrange := to_s32_range (rc : Int)
  refine ⟨?_, f4, rfl, f5, f2, f6, vfs_entry_record_cstr op env1 parm3 e0, rfl, rfl, ?_⟩
  · rw [f3]; simp [kprobe_exit_record, hp]
  · simp only [kprobe_exit_record]
    by_cases hneg : kretprobe_ret rc < 0
    · rw [if_pos hneg, if_pos hneg]
      exact to_s32_of_range _ (to_s32_range _).1 (to_s32_range _).2
    · rw [if_neg hneg, if_neg hneg]

/-! ## Lemmas: what an exit program appends -/

theorem emit_exit_event_absent (env : Env) (ret : Int) (s : FState)
    (h : (s.syscall_ctx_map env.pid_tgid).isSome = false) : emit_exit_event env ret s = s := by
  apply emit_exit_event_none
  cases hs : s.syscall_ctx_map env.pid_tgid with
  | none => rfl
  | some v => rw [hs] at h; exact absurd h (by simp)

theorem emit_kprobe_exit_event_absent (env : Env) (op : Nat) (ret : Int) (s : FState)
    (h : (s.kprobe_ctx_map (kprobe_key env.pid_tgid op)).isSome = false) :
    emit_kprobe_exit_event env op ret s = s := by
  apply emit_kprobe_exit_event_none
  cases hs : s.kprobe_ctx_map (kprobe_key env.pid_tgid op) with
  | none => rfl
  | some v => rw [hs] at h; exact absurd h (by simp)

theorem emit_exit_event_present (env : Env) (ret : Int) (s : FState) (e0 : file_event)
    (h : (s.syscall_ctx_map env.pid_tgid).isSome = true) (hr : env.reserve = some e0) :
    (emit_exit_event env ret s).events.length = s.events.length + 1 := by
  cases hs : s.syscall_ctx_map env.pid_tgid with
  | none => rw [hs] at h; exact absurd h (by simp)
  | some ctx => rw [emit_exit_event_some env ret s ctx e0 hs hr]; simp

theorem emit_kprobe_exit_event_present (env : Env) (op : Nat) (ret : Int) (s : FState)
    (e0 : file_event)
    (h : (s.kprobe_ctx_map (kprobe_key env.pid_tgid op)).isSome = true)
    (hr : env.reserve = some e0) :
    (emit_kprobe_exit_event env op ret s).events.length = s.events.length + 1 := by
  cases hs : s.kprobe_ctx_map (kprobe_key env.pid_tgid op) with
  | none => rw [hs] at h; exact absurd h (by simp)
  | some ctx => rw [emit_kprobe_exit_event_some env op ret s ctx e0 hs hr]; simp

/-! ## Lemmas: the filter invariant -/

theorem run_nil (s : FState) : run [] s = s := rfl

theorem run_cons (x : Env × Handler) (tr : List (Env × Handler)) (s : FState) :
    run (x :: tr) s = run tr (step x.1 x.2 s) := rfl

/-- A property that holds initially and is kept by every step whose invocation
satisfies `G` holds after every run made of such invocations. -/
theorem run_invariant (P : FState → Prop) (G : Env × Handler → Prop)
    (hstep : ∀ x s, G x → P s → P (step x.1 x.2 s)) (tr : List (Env × Handler)) :
    ∀ s, (∀ x ∈ tr, G x) → P s → P (run tr s) := by
  induction tr with
  | nil => intro s _ h; exact h
  | cons x rest ih =>
    intro s hG h
    rw [run_cons]
    exact ih _ (fun y hy => hG y (List.mem_cons_of_mem _ hy))
      (hstep x s (hG x (List.mem_cons_self _ _)) h)

/-! ## Lemmas: every stored or emitted path holds a NUL -/

theorem path_inv_save (env : Env) (sctx : syscall_ctx) (s : FState)
    (hs : ∃ i : Fin 128, sctx.path i = 0)
    (hm : ∀ k ctx, s.syscall_ctx_map k = some ctx → ∃ i : Fin 128, ctx.path i = 0)
    (he : ∀ e ∈ s.events, ∃ i : Fin 128, e.path i = 0) :
    (∀ k ctx, (save_syscall_ctx env sctx s).syscall_ctx_map k = some ctx →
      ∃ i : Fin 128, ctx.path i = 0) ∧
    ∀ e ∈ (save_syscall_ctx env sctx s).events, ∃ i : Fin 128, e.path i = 0 := by
  refine ⟨?_, he⟩
  intro k ctx hk
  simp only [save_syscall_ctx, bpf_map_update_elem] at hk
  by_cases hc : refused env.map_full s.syscall_ctx_map env.pid_tgid = true
  · rw [if_pos hc] at hk; exact hm k ctx hk
  · rw [if_neg hc] at hk
    by_cases hkk : k = env.pid_tgid
    · simp only [hkk, if_true, Option.some.injEq] at hk
      rw [← hk]; exact hs
    · simp only [hkk, if_false] at hk
      exact hm k ctx hk

theorem path_inv_exit (env : Env) (ret : Int) (s : FState)
    (hm : ∀ k ctx, s.syscall_ctx_map k = some ctx → ∃ i : Fin 128, ctx.path i = 0)
    (he : ∀ e ∈ s.events, ∃ i : Fin 128, e.path i = 0) :
    (∀ k ctx, (emit_exit_event env ret s).syscall_ctx_map k = some ctx →
      ∃ i : Fin 128, ctx.path i = 0) ∧
    ∀ e ∈ (emit_exit_event env ret s).events, ∃ i : Fin 128, e.path i = 0 := by
  have hdel : ∀ k ctx, bpf_map_delete_elem s.syscall_ctx_map env.pid_tgid k = some ctx →
      ∃ i : Fin 128, ctx.path i = 0 := by
    intro k ctx hk
    by_cases hkk : k = env.pid_tgid
    · rw [hkk, delete_lookup_same] at hk; exact absurd hk (by simp)
    · rw [delete_lookup_other _ _ _ hkk] at hk; exact hm k ctx hk
  cases hs : s.syscall_ctx_map env.pid_tgid with
  | none => rw [emit_exit_event_none env ret s hs]; exact ⟨hm, he⟩
  | some ctx =>
    cases hr : env.reserve with
    | none => rw [emit_exit_event_noreserve env ret s ctx hs hr]; exact ⟨hdel, he⟩
    | some e0 =>
      rw [emit_exit_event_some env ret s ctx e0 hs hr]
      refine ⟨hdel, ?_⟩
      intro e hmem
      rcases List.mem_append.mp hmem with h | h
      · exact he e h
      · rw [List.mem_singleton.mp h]
        exact hm _ ctx hs

theorem path_inv_kexit (env : Env) (op : Nat) (ret : Int) (s : FState)
    (hm : ∀ k ctx, s.syscall_ctx_map k = some ctx → ∃ i : Fin 128, ctx.path i = 0)
    (he : ∀ e ∈ s.events, ∃ i : Fin 128, e.path i = 0) :
    (∀ k ctx, (emit_kprobe_exit_event env op ret s).syscall_ctx_map k = some ctx →
      ∃ i : Fin 128, ctx.path i = 0) ∧
    ∀ e ∈ (emit_kprobe_exit_event env op ret s).events, ∃ i : Fin 128, e.path i = 0 := by
  cases hs : s.kprobe_ctx_map (kprobe_key env.pid_tgid op) with
  | none => rw [emit_kprobe_exit_event_none env op ret s hs]; exact ⟨hm, he⟩
  | some ctx =>
    cases hr : env.reserve with
    | none => rw [emit_kprobe_exit_event_noreserve env op ret s ctx hs hr]; exact ⟨hm, he⟩
    | some e0 =>
      rw [emit_kprobe_exit_event_some env op ret s ctx e0 hs hr]
      refine ⟨hm, ?_⟩
      intro e hmem
      rcases List.mem_append.mp hmem with h | h
      · exact he e h
      · rw [List.mem_singleton.mp h]
        exact ⟨0, by simp [kprobe_exit_record]⟩

theorem path_inv_ventry (op : Nat) (env : Env) (parm3 : Nat) (s : FState)
    (hm : ∀ k ctx, s.syscall_ctx_map k = some ctx → ∃ i : Fin 128, ctx.path i = 0)
    (he : ∀ e ∈ s.events, ∃ i : Fin 128, e.path i = 0) :
    (∀ k ctx, (kp_vfs_entry op env parm3 s).syscall_ctx_map k = some ctx →
      ∃ i : Fin 128, ctx.path i = 0) ∧
    ∀ e ∈ (kp_vfs_entry op env parm3 s).events, ∃ i : Fin 128, e.path i = 0 := by
  by_cases h : should_trace env.target_comm env.comm = 0
  · rw [kp_vfs_entry_reject op env parm3 s h]; exact ⟨hm, he⟩
  · rw [kp_vfs_entry_pass op env parm3 s h]
    refine ⟨hm, ?_⟩
    intro e hmem
    cases hr : env.reserve with
    | none => rw [hr] at hmem; exact he e hmem
    | some e0 =>
      rw [hr] at hmem
      rcases List.mem_append.mp hmem with h1 | h1
      · exact he e h1
      · rw [List.mem_singleton.mp h1]
        exact vfs_entry_record_has_nul op env parm3 e0

theorem path_inv_ksave (env : Env) (op : Nat) (s : FState)
    (hm : ∀ k ctx, s.syscall_ctx_map k = some ctx → ∃ i : Fin 128, ctx.path i = 0)
    (he : ∀ e ∈ s.events, ∃ i : Fin 128, e.path i = 0) :
    (∀ k ctx,
      (if should_trace env.target_comm env.comm = 0 then s
        else save_kprobe_ctx env op s).syscall_ctx_map k = some ctx →
      ∃ i : Fin 128, ctx.path i = 0) ∧
    ∀ e ∈ (if should_trace env.target_comm env.comm = 0 then s
        else save_kprobe_ctx env op s).events, ∃ i : Fin 128, e.path i = 0 := by
  by_cases h : should_trace env.target_comm env.comm = 0
  · rw [if_pos h]; exact ⟨hm, he⟩
  · rw [if_neg h]; exact ⟨hm, he⟩

theorem path_inv_enter (c : Syscall) (env : Env) (args : Fin 6 → Nat) (s : FState)
    (hm : ∀ k ctx, s.syscall_ctx_map k = some ctx → ∃ i : Fin 128, ctx.path i = 0)
    (he : ∀ e ∈ s.events, ∃ i : Fin 128, e.path i = 0) :
    (∀ k ctx, (sys_enter c env args s).syscall_ctx_map k = some ctx →
      ∃ i : Fin 128, ctx.path i = 0) ∧
    ∀ e ∈ (sys_enter c env args s).events, ∃ i : Fin 128, e.path i = 0 := by
  rw [sys_enter_eq]
  by_cases h : should_trace env.target_comm env.comm = 0
  · rw [if_pos h]; exact ⟨hm, he⟩
  · rw [if_neg h]
    obtain ⟨p, hp⟩ := sys_sctx_path c env args
    exact path_inv_save env _ s (by rw [hp]; exact read_user_path_has_nul env p) hm he

theorem path_inv_step (env : Env) (h : Handler) (s : FState)
    (hm : ∀ k ctx, s.syscall_ctx_map k = some ctx → ∃ i : Fin 128, ctx.path i = 0)
    (he : ∀ e ∈ s.events, ∃ i : Fin 128, e.path i = 0) :
    (∀ k ctx, (step env h s).syscall_ctx_map k = some ctx →
      ∃ i : Fin 128, ctx.path i = 0) ∧
    ∀ e ∈ (step env h s).events, ∃ i : Fin 128, e.path i = 0 := by
  cases h with
  | sys_enter_mount args => exact path_inv_enter .mount env args s hm he
  | sys_exit_mount ret => exact path_inv_exit env ret s hm he
  | sys_enter_umount args => exact path_inv_enter .umount env args s hm he
  | sys_exit_umount ret => exact path_inv_exit env ret s hm he
  | sys_enter_unlinkat args => exact path_inv_enter .unlinkat env args s hm he
  | sys_exit_unlinkat ret => exact path_inv_exit env ret s hm he
  | sys_enter_mkdirat args => exact path_inv_enter .mkdirat env args s hm he
  | sys_exit_mkdirat ret => exact path_inv_exit env ret s hm he
  | sys_enter_newfstatat args => exact path_inv_enter .newfstatat env args s hm he
  | sys_exit_newfstatat ret => exact path_inv_exit env ret s hm he
  | ovl_workdir_create => exact path_inv_ksave env OP_OVL_WORKDIR_CREATE s hm he
  | ovl_workdir_create_ret rc => exact path_inv_kexit env _ _ s hm he
  | ovl_workdir_cleanup => exact path_inv_ksave env OP_OVL_WORKDIR_CLEANUP s hm he
  | ovl_workdir_cleanup_ret rc => exact path_inv_kexit env _ _ s hm he
  | vfs_mkdir parm3 => exact path_inv_ventry _ env parm3 s hm he
  | vfs_mkdir_ret rc => exact path_inv_kexit env _ _ s hm he
  | vfs_rmdir parm3 => exact path_inv_ventry _ env parm3 s hm he
  | vfs_rmdir_ret rc => exact path_inv_kexit env _ _ s hm he

/-! ## Lemmas: the stack members -/

theorem vfs_entry_record_stack (op : Nat) (env : Env) (parm3 : Nat) (e : file_event) :
    (vfs_entry_record op env parm3 e).stack = bpf_get_stack env.stack_ret env.stack_frames ∧
    (vfs_entry_record op env parm3 e).stack_size =
      if env.stack_ret > 0 then (env.stack_ret / 8).toNat % 2 ^ 32 else 0 := by
  unfold vfs_entry_record
  by_cases h : parm3 = 0
  · simp [h]
  · simp [h, path_store]

/-- A record appended by a vfs kprobe is the entry record built in the reserved
slot. -/
theorem kp_vfs_entry_appended (op : Nat) (env : Env) (parm3 : Nat) (s : FState)
    (e : file_event) (hev : (kp_vfs_entry op env parm3 s).events = s.events ++ [e]) :
    ∃ e0, env.reserve = some e0 ∧ e = vfs_entry_record op env parm3 e0 := by
  by_cases h : should_trace env.target_comm env.comm = 0
  · rw [kp_vfs_entry_reject op env parm3 s h] at hev
    exact absurd hev (append_singleton_ne _ _)
  · rw [kp_vfs_entry_pass op env parm3 s h] at hev
    cases hr : env.reserve with
    | none => rw [hr] at hev; exact absurd hev (append_singleton_ne _ _)
    | some e0 =>
      rw [hr] at hev
      exact ⟨e0, rfl, (append_singleton_cancel _ _ _ hev).symm⟩

/-- A record appended by `emit_exit_event` is the exit record built in the
reserved slot from the stored context. -/
theorem emit_exit_event_appended (env : Env) (ret : Int) (s : FState) (e : file_event)
    (hev : (emit_exit_event env ret s).events = s.events ++ [e]) :
    ∃ ctx e0, s.syscall_ctx_map env.pid_tgid = some ctx ∧ env.reserve = some e0 ∧
      e = exit_record env ret ctx e0 := by
  cases hs : s.syscall_ctx_map env.pid_tgid with
  | none =>
    rw [emit_exit_event_none env ret s hs] at hev
    exact absurd hev (append_singleton_ne _ _)
  | some ctx =>
    cases hr : env.reserve with
    | none =>
      rw [emit_exit_event_noreserve env ret s ctx hs hr] at hev
      exact absurd hev (append_singleton_ne _ _)
    | some e0 =>
      rw [emit_exit_event_some env ret s ctx e0 hs hr] at hev
      exact ⟨ctx, e0, rfl, rfl, (append_singleton_cancel _ _ _ hev).symm⟩

/-- A record appended by `emit_kprobe_exit_event` is the exit record built in the
reserved slot from the stored context. -/
theorem emit_kprobe_exit_event_appended (env : Env) (op : Nat) (ret : Int) (s : FState)
    (e : file_event)
    (hev : (emit_kprobe_exit_event env op ret s).events = s.events ++ [e]) :
    ∃ ctx e0, s.kprobe_ctx_map (kprobe_key env.pid_tgid op) = some ctx ∧
      env.reserve = some e0 ∧ e = kprobe_exit_record env op ret ctx e0 := by
  cases hs : s.kprobe_ctx_map (kprobe_key env.pid_tgid op) with
  | none =>
    rw [emit_kprobe_exit_event_none env op ret s hs] at hev
    exact absurd hev (append_singleton_ne _ _)
  | some ctx =>
    cases hr : env.reserve with
    | none =>
      rw [emit_kprobe_exit_event_noreserve env op ret s ctx hs hr] at hev
      exact absurd hev (append_singleton_ne _ _)
    | some e0 =>
      rw [emit_kprobe_exit_event_some env op ret s ctx e0 hs hr] at hev
      exact ⟨ctx, e0, rfl, rfl, (append_singleton_cancel _ _ _ hev).symm⟩

theorem stack_size_le (r : Int) (h : r ≤ 128) :
    (if r > 0 then (r / 8).toNat % 2 ^ 32 else 0) ≤ 16 := by
  by_cases hr : r > 0
  · rw [if_pos hr]
    have : (r / 8).toNat ≤ 16 := by omega
    exact le_trans (Nat.mod_le _ _) this
  · rw [if_neg hr]; omega

theorem stack_tail_zero (r : Int) (frames : Fin 16 → Nat) (i : Fin 16) (h : r ≤ 128)
    (h8 : 0 < r → r % 8 = 0)
    (hi : (if r > 0 then (r / 8).toNat % 2 ^ 32 else 0) ≤ i.val) :
    bpf_get_stack r frames i = 0 := by
  unfold bpf_get_stack
  by_cases hr : r > 0
  · rw [if_pos hr] at hi
    have h8' := h8 hr
    have hlt : (r / 8).toNat < 2 ^ 32 := by omega
    rw [Nat.mod_eq_of_lt hlt] at hi
    have : ¬ (8 * (i.val : Int) < r) := by omega
    rw [if_neg this]
  · have : ¬ (8 * (i.val : Int) < r) := by omega
    rw [if_neg this]

/-! ## Lemmas: refused insertions and empty maps -/

theorem save_kprobe_ctx_refused (env : Env) (op : Nat) (s : FState)
    (h : refused env.map_full s.kprobe_ctx_map (kprobe_key env.pid_tgid op) = true) :
    save_kprobe_ctx env op s = s := by
  simp only [save_kprobe_ctx]
  rw [update_refused _ _ _ _ h]

theorem save_syscall_ctx_refused (env : Env) (sctx : syscall_ctx) (s : FState)
    (h : refused env.map_full s.syscall_ctx_map env.pid_tgid = true) :
    save_syscall_ctx env sctx s = s := by
  simp only [save_syscall_ctx]
  rw [update_refused _ _ _ _ h]

theorem refused_of_full {V : Type} (m : BpfHash V) (k : Nat) (h : m k = none) :
    refused true m k = true := by
  simp [refused, h]

/-- A syscall whose context insertion is refused leaves no trace at all. -/
theorem sys_refused_unobserved (c : Syscall) (env1 env2 : Env) (args : Fin 6 → Nat)
    (ret : Int) (s : FState) (hp : env2.pid_tgid = env1.pid_tgid)
    (hfull : env1.map_full = true) (habs : s.syscall_ctx_map env1.pid_tgid = none) :
    sys_enter c env1 args s = s ∧ sys_exit c env2 ret (sys_enter c env1 args s) = s := by
  have hent : sys_enter c env1 args s = s := by
    rw [sys_enter_eq]
    by_cases h : should_trace env1.target_comm env1.comm = 0
    · rw [if_pos h]
    · rw [if_neg h]
      apply save_syscall_ctx_refused
      rw [hfull]; exact refused_of_full _ _ habs
  refine ⟨hent, ?_⟩
  rw [hent, sys_exit_eq]
  exact emit_exit_event_none env2 ret s (by rw [hp]; exact habs)

/-- A kprobe that only saves its context leaves no trace when the insertion is
refused. -/
theorem ksave_refused_unobserved (env1 env2 : Env) (op : Nat) (ret : Int) (s : FState)
    (hp : env2.pid_tgid = env1.pid_tgid) (hfull : env1.map_full = true)
    (habs : s.kprobe_ctx_map (kprobe_key env1.pid_tgid op) = none) :
    (if should_trace env1.target_comm env1.comm = 0 then s else save_kprobe_ctx env1 op s) = s ∧
    emit_kprobe_exit_event env2 op ret
      (if should_trace env1.target_comm env1.comm = 0 then s else save_kprobe_ctx env1 op s)
      = s := by
  have hent : (if should_trace env1.target_comm env1.comm = 0 then s
      else save_kprobe_ctx env1 op s) = s := by
    by_cases h : should_trace env1.target_comm env1.comm = 0
    · rw [if_pos h]
    · rw [if_neg h]
      apply save_kprobe_ctx_refused
      rw [hfull]; exact refused_of_full _ _ habs
  refine ⟨hent, ?_⟩
  rw [hent]
  exact emit_kprobe_exit_event_none env2 op ret s (by rw [hp]; exact habs)

/-- A vfs kprobe whose context insertion is refused still submits its entry
record; the kretprobe then finds no context. -/
theorem vfs_refused_entry_only (op : Nat) (env1 env2 : Env) (parm3 : Nat) (ret : Int)
    (s : FState) (hp : env2.pid_tgid = env1.pid_tgid) (hfull : env1.map_full = true)
    (habs : s.kprobe_ctx_map (kprobe_key env1.pid_tgid op) = none) :
    (kp_vfs_entry op env1 parm3 s).events =
      (if should_trace env1.target_comm env1.comm = 0 then s.events
        else
          match env1.reserve with
          | none => s.events
          | some e0 => s.events ++ [vfs_entry_record op env1 parm3 e0]) ∧
    emit_kprobe_exit_event env2 op ret (kp_vfs_entry op env1 parm3 s)
      = kp_vfs_entry op env1 parm3 s := by
  have href : refused env1.map_full s.kprobe_ctx_map (kprobe_key env1.pid_tgid op) = true := by
    rw [hfull]; exact refused_of_full _ _ habs
  by_cases h : should_trace env1.target_comm env1.comm = 0
  · rw [kp_vfs_entry_reject op env1 parm3 s h, if_pos h]
    exact ⟨rfl, emit_kprobe_exit_event_none env2 op ret s (by rw [hp]; exact habs)⟩
  · rw [kp_vfs_entry_pass op env1 parm3 s h, if_neg h]
    refine ⟨rfl, ?_⟩
    apply emit_kprobe_exit_event_none
    simp only [hp]
    rw [update_refused _ _ _ _ href]
    exact habs

/-- With an empty filter nothing happens in a state whose maps are empty. -/
theorem step_idle (env : Env) (h : Handler) (s : FState) (ht : filter_empty env)
    (hs : ∀ k, s.syscall_ctx_map k = none) (hk : ∀ k, s.kprobe_ctx_map k = none) :
    step env h s = s := by
  have hz : should_trace env.target_comm env.comm = 0 := should_trace_empty _ _ ht
  cases h with
  | sys_enter_mount args => simp [step, tp_sys_enter_mount, hz]
  | sys_enter_umount args => simp [step, tp_sys_enter_umount, hz]
  | sys_enter_unlinkat args => simp [step, tp_sys_enter_unlinkat, hz]
  | sys_enter_mkdirat args => simp [step, tp_sys_enter_mkdirat, hz]
  | sys_enter_newfstatat args => simp [step, tp_sys_enter_newfstatat, hz]
  | ovl_workdir_create => simp [step, kp_ovl_workdir_create, hz]
  | ovl_workdir_cleanup => simp [step, kp_ovl_workdir_cleanup, hz]
  | vfs_mkdir parm3 => exact kp_vfs_entry_reject _ env parm3 s hz
  | vfs_rmdir parm3 => exact kp_vfs_entry_reject _ env parm3 s hz
  | sys_exit_mount ret => exact emit_exit_event_none env ret s (hs _)
  | sys_exit_umount ret => exact emit_exit_event_none env ret s (hs _)
  | sys_exit_unlinkat ret => exact emit_exit_event_none env ret s (hs _)
  | sys_exit_mkdirat ret => exact emit_exit_event_none env ret s (hs _)
  | sys_exit_newfstatat ret => exact emit_exit_event_none env ret s (hs _)
  | ovl_workdir_create_ret rc => exact emit_kprobe_exit_event_none env _ _ s (hk _)
  | ovl_workdir_cleanup_ret rc => exact emit_kprobe_exit_event_none env _ _ s (hk _)
  | vfs_mkdir_ret rc => exact emit_kprobe_exit_event_none env _ _ s (hk _)
  | vfs_rmdir_ret rc => exact emit_kprobe_exit_event_none env _ _ s (hk _)

/-! ## Lemmas: the overlay-inuse tracer -/

namespace Ovl

theorem emit_inuse_event_maps (env : Env) (pid_tgid dentry : Nat) (s : State) :
    (emit_inuse_event env pid_tgid dentry s).mount_args_map = s.mount_args_map ∧
    (emit_inuse_event env pid_tgid dentry s).trylock_ctx_map = s.trylock_ctx_map ∧
    (emit_inuse_event env pid_tgid dentry s).is_inuse_ctx_map = s.is_inuse_ctx_map := by
  unfold emit_inuse_event
  by_cases hd : dentry = 0
  · simp [hd]
  · rw [if_neg hd]
    cases env.reserve <;> exact ⟨rfl, rfl, rfl⟩

theorem emit_inuse_event_events (env : Env) (pid_tgid dentry : Nat) (s : State) :
    (emit_inuse_event env pid_tgid dentry s).events =
      if dentry = 0 then s.events
      else
        match env.reserve with
        | none => s.events
        | some e => s.events ++ [inuse_record env (s.mount_args_map pid_tgid) pid_tgid dentry e]
    := by
  unfold emit_inuse_event
  by_cases hd : dentry = 0
  · simp [hd]
  · rw [if_neg hd, if_neg hd]
    cases env.reserve <;> rfl

theorem kretp_trylock_events (env : Env) (ret : Int) (s : State) :
    (kretp_ovl_inuse_trylock env ret s).events =
      if ret ≠ 0 then s.events
      else
        match s.trylock_ctx_map env.pid_tgid with
        | none => s.events
        | some pctx => (emit_inuse_event env env.pid_tgid pctx.dentry_ptr s).events := by
  unfold kretp_ovl_inuse_trylock
  by_cases hr : ret ≠ 0
  · rw [if_pos hr, if_pos hr]
  · rw [if_neg hr, if_neg hr]
    simp only [bpf_map_lookup_elem]
    cases s.trylock_ctx_map env.pid_tgid <;> rfl

theorem kretp_is_inuse_events (env : Env) (ret : Int) (s : State) :
    (kretp_ovl_is_inuse env ret s).events =
      if ret = 0 then s.events
      else
        match s.is_inuse_ctx_map env.pid_tgid with
        | none => s.events
        | some pctx => (emit_inuse_event env env.pid_tgid pctx.dentry_ptr s).events := by
  unfold kretp_ovl_is_inuse
  by_cases hr : ret = 0
  · rw [if_pos hr, if_pos hr]
  · rw [if_neg hr, if_neg hr]
    simp only [bpf_map_lookup_elem]
    cases s.is_inuse_ctx_map env.pid_tgid <;> rfl

theorem kretp_trylock_map (env : Env) (ret : Int) (s : State) :
    (kretp_ovl_inuse_trylock env ret s).trylock_ctx_map
      = bpf_map_delete_elem s.trylock_ctx_map env.pid_tgid := by
  unfold kretp_ovl_inuse_trylock
  by_cases hr : ret ≠ 0
  · rw [if_pos hr]
  · rw [if_neg hr]
    simp only [bpf_map_lookup_elem]
    cases hs : s.trylock_ctx_map env.pid_tgid with
    | none =>
      funext j
      by_cases hj : j = env.pid_tgid
      · rw [hj, delete_lookup_same, hs]
      · rw [delete_lookup_other _ _ _ hj]
    | some pctx =>
      simp only [(emit_inuse_event_maps env env.pid_tgid pctx.dentry_ptr s).2.1]

theorem kretp_is_inuse_map (env : Env) (ret : Int) (s : State) :
    (kretp_ovl_is_inuse env ret s).is_inuse_ctx_map
      = bpf_map_delete_elem s.is_inuse_ctx_map env.pid_tgid := by
  unfold kretp_ovl_is_inuse
  by_cases hr : ret = 0
  · rw [if_pos hr]
  · rw [if_neg hr]
    simp only [bpf_map_lookup_elem]
    cases hs : s.is_inuse_ctx_map env.pid_tgid with
    | none =>
      funext j
      by_cases hj : j = env.pid_tgid
      · rw [hj, delete_lookup_same, hs]
      · rw [delete_lookup_other _ _ _ hj]
    | some pctx =>
      simp only [(emit_inuse_event_maps env env.pid_tgid pctx.dentry_ptr s).2.2]

/-- The other maps are not touched by a predicate kretprobe. -/
theorem kretp_trylock_frame (env : Env) (ret : Int) (s : State) :
    (kretp_ovl_inuse_trylock env ret s).is_inuse_ctx_map = s.is_inuse_ctx_map ∧
    (kretp_ovl_inuse_trylock env ret s).mount_args_map = s.mount_args_map := by
  unfold kretp_ovl_inuse_trylock
  by_cases hr : ret ≠ 0
  · rw [if_pos hr]; exact ⟨rfl, rfl⟩
  · rw [if_neg hr]
    simp only [bpf_map_lookup_elem]
    cases hs : s.trylock_ctx_map env.pid_tgid with
    | none => exact ⟨rfl, rfl⟩
    | some pctx =>
      exact ⟨(emit_inuse_event_maps env env.pid_tgid pctx.dentry_ptr s).2.2,
        (emit_inuse_event_maps env env.pid_tgid pctx.dentry_ptr s).1⟩

theorem kretp_is_inuse_frame (env : Env) (ret : Int) (s : State) :
    (kretp_ovl_is_inuse env ret s).trylock_ctx_map = s.trylock_ctx_map ∧
    (kretp_ovl_is_inuse env ret s).mount_args_map = s.mount_args_map := by
  unfold kretp_ovl_is_inuse
  by_cases hr : ret = 0
  · rw [if_pos hr]; exact ⟨rfl, rfl⟩
  · rw [if_neg hr]
    simp only [bpf_map_lookup_elem]
    cases hs : s.is_inuse_ctx_map env.pid_tgid with
    | none => exact ⟨rfl, rfl⟩
    | some pctx =>
      exact ⟨(emit_inuse_event_maps env env.pid_tgid pctx.dentry_ptr s).2.1,
        (emit_inuse_event_maps env env.pid_tgid pctx.dentry_ptr s).1⟩

theorem holds_str_probe_read {n : Nat} (dst : Bytes n) (src : Option (Nat → Nat))
    (hn : 0 < n) : holds_str (bpf_probe_read_str dst src) (read_spec (n - 1) src) := by
  cases src with
  | none =>
    have h0 : rd (bpf_probe_read_str dst none) 0 = 0 := by
      simp [rd, bpf_probe_read_str]
    exact ⟨cstr_of_head_nul _ h0, h0⟩
  | some t =>
    refine ⟨cstr_probe_read_some dst t hn, ?_⟩
    have hle := strnlen_le t (n - 1)
    simp only [read_spec, mem_str_length]
    rw [rd_probe_read_some dst t _ (by omega)]
    simp

theorem read_names_frame (k : KMem) (d : Nat) (e : event) :
    (read_names k d e).mount_src = e.mount_src ∧
    (read_names k d e).mount_dst = e.mount_dst ∧
    (read_names k d e).mount_data = e.mount_data := by
  unfold read_names
  simp only []
  split_ifs <;> exact ⟨rfl, rfl, rfl⟩

theorem inuse_record_mount_some (env : Env) (m : mount_args) (pid_tgid d : Nat) (e : event) :
    (inuse_record env (some m) pid_tgid d e).mount_src = m.src ∧
    (inuse_record env (some m) pid_tgid d e).mount_dst = m.dst ∧
    (inuse_record env (some m) pid_tgid d e).mount_data = m.data :=
  ⟨rfl, rfl, rfl⟩

theorem inuse_record_mount_none (env : Env) (pid_tgid d : Nat) (e : event) :
    (inuse_record env none pid_tgid d e).mount_src = e.mount_src ∧
    (inuse_record env none pid_tgid d e).mount_dst = e.mount_dst ∧
    (inuse_record env none pid_tgid d e).mount_data = e.mount_data := by
  simp only [inuse_record]
  exact read_names_frame _ _ _

/-- An event appended by the `ovl_inuse_trylock` kretprobe. -/
theorem kretp_trylock_appended (env : Env) (ret : Int) (s : State) (e : event)
    (hev : (kretp_ovl_inuse_trylock env ret s).events = s.events ++ [e]) :
    ret = 0 ∧
    ∃ pctx e0, s.trylock_ctx_map env.pid_tgid = some pctx ∧ pctx.dentry_ptr ≠ 0 ∧
      env.reserve = some e0 ∧
      e = inuse_record env (s.mount_args_map env.pid_tgid) env.pid_tgid pctx.dentry_ptr e0 := by
  rw [kretp_trylock_events] at hev
  by_cases hr : ret ≠ 0
  · rw [if_pos hr] at hev; exact absurd hev (append_singleton_ne _ _)
  · rw [if_neg hr] at hev
    refine ⟨not_not.mp hr, ?_⟩
    cases hs : s.trylock_ctx_map env.pid_tgid with
    | none => rw [hs] at hev; exact absurd hev (append_singleton_ne _ _)
    | some pctx =>
      rw [hs] at hev
      simp only [emit_inuse_event_events] at hev
      by_cases hd : pctx.dentry_ptr = 0
      · rw [if_pos hd] at hev; exact absurd hev (append_singleton_ne _ _)
      · rw [if_neg hd] at hev
        cases hres : env.reserve with
        | none => rw [hres] at hev; exact absurd hev (append_singleton_ne _ _)
        | some e0 =>
          rw [hres] at hev
          exact ⟨pctx, e0, rfl, hd, rfl, (append_singleton_cancel _ _ _ hev).symm⟩

/-- An event appended by the `ovl_is_inuse` kretprobe. -/
theorem kretp_is_inuse_appended (env : Env) (ret : Int) (s : State) (e : event)
    (hev : (kretp_ovl_is_inuse env ret s).events = s.events ++ [e]) :
    ret ≠ 0 ∧
    ∃ pctx e0, s.is_inuse_ctx_map env.pid_tgid = some pctx ∧ pctx.dentry_ptr ≠ 0 ∧
      env.reserve = some e0 ∧
      e = inuse_record env (s.mount_args_map env.pid_tgid) env.pid_tgid pctx.dentry_ptr e0 := by
  rw [kretp_is_inuse_events] at hev
  by_cases hr : ret = 0
  · rw [if_pos hr] at hev; exact absurd hev (append_singleton_ne _ _)
  · rw [if_neg hr] at hev
    refine ⟨hr, ?_⟩
    cases hs : s.is_inuse_ctx_map env.pid_tgid with
    | none => rw [hs] at hev; exact absurd hev (append_singleton_ne _ _)
    | some pctx =>
      rw [hs] at hev
      simp only [emit_inuse_event_events] at hev
      by_cases hd : pctx.dentry_ptr = 0
      · rw [if_pos hd] at hev; exact absurd hev (append_singleton_ne _ _)
      · rw [if_neg hd] at hev
        cases hres : env.reserve with
        | none => rw [hres] at hev; exact absurd hev (append_singleton_ne _ _)
        | some e0 =>
          rw [hres] at hev
          exact ⟨pctx, e0, rfl, hd, rfl, (append_singleton_cancel _ _ _ hev).symm⟩

theorem enter_mount_lookup (env : Env) (args : Fin 6 → Nat) (s : State) (a0 : mount_args)
    (htmp : env.tmp_mount_args = some a0)
    (hnr : refused env.map_full s.mount_args_map env.pid_tgid = false) :
    (tp_sys_enter_mount env args s).mount_args_map env.pid_tgid
      = some (read_mount_args env args a0) := by
  simp only [tp_sys_enter_mount, htmp]
  exact update_lookup_same _ _ _ _ hnr

theorem enter_mount_frame (env : Env) (args : Fin 6 → Nat) (s : State) :
    (tp_sys_enter_mount env args s).events = s.events ∧
    (tp_sys_enter_mount env args s).trylock_ctx_map = s.trylock_ctx_map ∧
    (tp_sys_enter_mount env args s).is_inuse_ctx_map = s.is_inuse_ctx_map := by
  unfold tp_sys_enter_mount
  cases env.tmp_mount_args <;> exact ⟨rfl, rfl, rfl⟩

theorem read_mount_args_fields (env : Env) (args : Fin 6 → Nat) (a0 : mount_args) :
    holds_str (read_mount_args env args a0).src (read_spec 255 (env.user_mem (args 0))) ∧
    holds_str (read_mount_args env args a0).dst (read_spec 255 (env.user_mem (args 1))) ∧
    holds_str (read_mount_args env args a0).data (read_spec 511 (env.user_mem (args 4))) :=
  ⟨holds_str_probe_read a0.src _ (by omega), holds_str_probe_read a0.dst _ (by omega),
    holds_str_probe_read a0.data _ (by omega)⟩

theorem inuse_record_name0 (env : Env) (margs : Option mount_args) (pid_tgid d : Nat)
    (e : event) :
    (name_ptr env.kmem d ≠ 0 →
      (inuse_record env margs pid_tgid d e).dentry_name0
        = bpf_probe_read_str e.dentry_name0 (env.kmem.str (name_ptr env.kmem d))) ∧
    (name_ptr env.kmem d = 0 →
      (inuse_record env margs pid_tgid d e).dentry_name0 = e.dentry_name0) := by
  unfold inuse_record read_names name_ptr
  constructor
  · intro h
    cases margs <;> (simp only [h, ne_eq, not_false_eq_true, if_true]; split_ifs <;> rfl)
  · intro h
    cases margs <;> (simp only [h, ne_eq, not_true_eq_false, if_false]; split_ifs <;> rfl)

theorem inuse_record_name1 (env : Env) (margs : Option mount_args) (pid_tgid d : Nat)
    (e : event) :
    (has_parent env.kmem d → name_ptr env.kmem (parent_ptr env.kmem d) ≠ 0 →
      (inuse_record env margs pid_tgid d e).dentry_name1
        = bpf_probe_read_str e.dentry_name1
            (env.kmem.str (name_ptr env.kmem (parent_ptr env.kmem d)))) ∧
    (¬ (has_parent env.kmem d ∧ name_ptr env.kmem (parent_ptr env.kmem d) ≠ 0) →
      (inuse_record env margs pid_tgid d e).dentry_name1 = e.dentry_name1) := by
  unfold inuse_record read_names name_ptr has_parent parent_ptr
  constructor
  · intro h1 h2
    cases margs <;>
      (simp only [h1, h2, ne_eq, not_false_eq_true, and_self, if_true]; split_ifs <;> rfl)
  · intro h
    cases margs <;> (simp only []; split_ifs <;> first | rfl | (exfalso; apply h; tauto))

theorem inuse_record_name2 (env : Env) (margs : Option mount_args) (pid_tgid d : Nat)
    (e : event) :
    (has_parent env.kmem d → has_parent env.kmem (parent_ptr env.kmem d) →
      name_ptr env.kmem (parent_ptr env.kmem (parent_ptr env.kmem d)) ≠ 0 →
      (inuse_record env margs pid_tgid d e).dentry_name2
        = bpf_probe_read_str e.dentry_name2
            (env.kmem.str (name_ptr env.kmem (parent_ptr env.kmem (parent_ptr env.kmem d))))) ∧
    (¬ (has_parent env.kmem d ∧ has_parent env.kmem (parent_ptr env.kmem d) ∧
        name_ptr env.kmem (parent_ptr env.kmem (parent_ptr env.kmem d)) ≠ 0) →
      (inuse_record env margs pid_tgid d e).dentry_name2 = e.dentry_name2) := by
  unfold inuse_record read_names name_ptr has_parent parent_ptr
  constructor
  · intro h1 h2 h3
    cases margs <;>
      (simp only [h1, h2, h3, ne_eq, not_false_eq_true, and_self, if_true]; split_ifs <;> rfl)
  · intro h
    cases margs <;> (simp only []; split_ifs <;> first | rfl | (exfalso; apply h; tauto))

/-- The event path does not look at the two correlation maps. -/
theorem emit_inuse_event_indep (env : Env) (pid_tgid d : Nat) (s : State)
    (m : BpfHash probe_ctx) :
    emit_inuse_event env pid_tgid d { s with trylock_ctx_map := m }
      = { emit_inuse_event env pid_tgid d s with trylock_ctx_map := m } ∧
    emit_inuse_event env pid_tgid d { s with is_inuse_ctx_map := m }
      = { emit_inuse_event env pid_tgid d s with is_inuse_ctx_map := m } := by
  unfold emit_inuse_event
  by_cases hd : d = 0
  · simp only [hd, if_true, and_self]
  · simp only [hd, if_false]
    cases env.reserve <;> exact ⟨rfl, rfl⟩

theorem kretp_is_inuse_indep (env : Env) (ret : Int) (s : State) (m : BpfHash probe_ctx) :
    kretp_ovl_is_inuse env ret { s with trylock_ctx_map := m }
      = { kretp_ovl_is_inuse env ret s with trylock_ctx_map := m } := by
  unfold kretp_ovl_is_inuse
  by_cases hr : ret = 0
  · rw [if_pos hr, if_pos hr]
  · rw [if_neg hr, if_neg hr]
    simp only [bpf_map_lookup_elem]
    cases s.is_inuse_ctx_map env.pid_tgid with
    | none => rfl
    | some pctx =>
      simp only [(emit_inuse_event_indep env env.pid_tgid pctx.dentry_ptr s m).1]

theorem kretp_trylock_indep (env : Env) (ret : Int) (s : State) (m : BpfHash probe_ctx) :
    kretp_ovl_inuse_trylock env ret { s with is_inuse_ctx_map := m }
      = { kretp_ovl_inuse_trylock env ret s with is_inuse_ctx_map := m } := by
  unfold kretp_ovl_inuse_trylock
  by_cases hr : ret ≠ 0
  · rw [if_pos hr, if_pos hr]
  · rw [if_neg hr, if_neg hr]
    simp only [bpf_map_lookup_elem]
    cases s.trylock_ctx_map env.pid_tgid with
    | none => rfl
    | some pctx =>
      simp only [(emit_inuse_event_indep env env.pid_tgid pctx.dentry_ptr s m).2]

/-- The event the `ovl_inuse_trylock` kretprobe emits on a conflict, in terms of
the context stored under the task's key. -/
theorem kretp_trylock_conflict (env : Env) (s : State) :
    (kretp_ovl_inuse_trylock env 0 s).events =
      match s.trylock_ctx_map env.pid_tgid with
      | none => s.events
      | some pctx =>
        if pctx.dentry_ptr = 0 then s.events
        else
          match env.reserve with
          | none => s.events
          | some e0 =>
            s.events ++
              [inuse_record env (s.mount_args_map env.pid_tgid) env.pid_tgid
                pctx.dentry_ptr e0] := by
  rw [kretp_trylock_events, if_neg (by simp)]
  cases s.trylock_ctx_map env.pid_tgid with
  | none => rfl
  | some pctx => exact emit_inuse_event_events env env.pid_tgid pctx.dentry_ptr s

end Ovl

/-! ## Lemmas: the clock value an exit program measures from -/

theorem u64_sub_int (a b : Nat) :
    ((u64_sub a b : Nat) : Int) = ((a : Int) - (b : Int)) % 2 ^ 64 := by
  unfold u64_sub
  omega

theorem u64_sub_exact (a b : Nat) (h : b ≤ a) (ha : a < 2 ^ 64) : u64_sub a b = a - b := by
  unfold u64_sub
  omega

/-- A context found after `emit_exit_event` was there before it. -/
theorem start_at_exit (env : Env) (ret : Int) (s : FState) (k : CtxKey) (u : Nat)
    (h : start_at (emit_exit_event env ret s) k = some u) : start_at s k = some u := by
  cases hs : s.syscall_ctx_map env.pid_tgid with
  | none => rwa [emit_exit_event_none env ret s hs] at h
  | some ctx =>
    have hmap : ∀ j, (emit_exit_event env ret s).syscall_ctx_map j
        = bpf_map_delete_elem s.syscall_ctx_map env.pid_tgid j ∧
        (emit_exit_event env ret s).kprobe_ctx_map j = s.kprobe_ctx_map j := by
      intro j
      cases hr : env.reserve with
      | none => rw [emit_exit_event_noreserve env ret s ctx hs hr]; exact ⟨rfl, rfl⟩
      | some e0 => rw [emit_exit_event_some env ret s ctx e0 hs hr]; exact ⟨rfl, rfl⟩
    cases k with
    | inl j =>
      simp only [start_at] at h ⊢
      rw [(hmap j).1] at h
      by_cases hj : j = env.pid_tgid
      · rw [hj, delete_lookup_same] at h
        exact absurd h (by simp)
      · rwa [delete_lookup_other _ _ _ hj] at h
    | inr j =>
      simp only [start_at] at h ⊢
      rwa [(hmap j).2] at h

/-- A context found after `emit_kprobe_exit_event` was there before it. -/
theorem start_at_kexit (env : Env) (op : Nat) (ret : Int) (s : FState) (k : CtxKey) (u : Nat)
    (h : start_at (emit_kprobe_exit_event env op ret s) k = some u) :
    start_at s k = some u := by
  cases hs : s.kprobe_ctx_map (kprobe_key env.pid_tgid op) with
  | none => rwa [emit_kprobe_exit_event_none env op ret s hs] at h
  | some ctx =>
    have hmap : ∀ j, (emit_kprobe_exit_event env op ret s).kprobe_ctx_map j
        = bpf_map_delete_elem s.kprobe_ctx_map (kprobe_key env.pid_tgid op) j ∧
        (emit_kprobe_exit_event env op ret s).syscall_ctx_map j = s.syscall_ctx_map j := by
      intro j
      cases hr : env.reserve with
      | none => rw [emit_kprobe_exit_event_noreserve env op ret s ctx hs hr]; exact ⟨rfl, rfl⟩
      | some e0 => rw [emit_kprobe_exit_event_some env op ret s ctx e0 hs hr]; exact ⟨rfl, rfl⟩
    cases k with
    | inl j =>
      simp only [start_at] at h ⊢
      rwa [(hmap j).2] at h
    | inr j =>
      simp only [start_at] at h ⊢
      rw [(hmap j).1] at h
      by_cases hj : j = kprobe_key env.pid_tgid op
      · rw [hj, delete_lookup_same] at h
        exact absurd h (by simp)
      · rwa [delete_lookup_other _ _ _ hj] at h

/-- An enter tracepoint changes no context but the one under its own key. -/
theorem start_at_enter (c : Syscall) (env : Env) (args : Fin 6 → Nat) (s : FState)
    (k : CtxKey) (hne : some (Sum.inl env.pid_tgid) ≠ some k) :
    start_at (sys_enter c env args s) k = start_at s k := by
  rw [sys_enter_eq]
  by_cases hf : should_trace env.target_comm env.comm = 0
  · rw [if_pos hf]
  · rw [if_neg hf]
    cases k with
    | inl j =>
      have hj : j ≠ env.pid_tgid := fun hj => hne (by rw [hj])
      simp only [start_at, save_syscall_ctx]
      rw [update_lookup_other _ _ _ _ _ hj]
    | inr j => rfl

/-- The program `save_kprobe_ctx` changes no context but the one under its own
key. -/
theorem start_at_ksave (env : Env) (op : Nat) (s : FState) (k : CtxKey)
    (hne : some (Sum.inr (kprobe_key env.pid_tgid op)) ≠ some k) :
    start_at (save_kprobe_ctx env op s) k = start_at s k := by
  cases k with
  | inl j => rfl
  | inr j =>
    have hj : j ≠ kprobe_key env.pid_tgid op := fun hj => hne (by rw [hj])
    simp only [start_at, save_kprobe_ctx]
    rw [update_lookup_other _ _ _ _ _ hj]

/-- A vfs kprobe changes no context but the one under its own key. -/
theorem start_at_ventry (op : Nat) (env : Env) (parm3 : Nat) (s : FState) (k : CtxKey)
    (hne : some (Sum.inr (kprobe_key env.pid_tgid op)) ≠ some k) :
    start_at (kp_vfs_entry op env parm3 s) k = start_at s k := by
  by_cases hf : should_trace env.target_comm env.comm = 0
  · rw [kp_vfs_entry_reject op env parm3 s hf]
  · rw [kp_vfs_entry_pass op env parm3 s hf]
    cases k with
    | inl j => rfl
    | inr j =>
      have hj : j ≠ kprobe_key env.pid_tgid op := fun hj => hne (by rw [hj])
      simp only [start_at]
      rw [update_lookup_other _ _ _ _ _ hj]

/-- A context found under key `k` after a program that is not an entry program
for `k` was there before it. -/
theorem start_at_step (env : Env) (h : Handler) (s : FState) (k : CtxKey) (u : Nat)
    (hne : entry_key env h ≠ some k) (hu : start_at (step env h s) k = some u) :
    start_at s k = some u := by
  cases h with
  | sys_enter_mount args => rwa [← start_at_enter .mount env args s k hne]
  | sys_exit_mount ret => exact start_at_exit env ret s k u hu
  | sys_enter_umount args => rwa [← start_at_enter .umount env args s k hne]
  | sys_exit_umount ret => exact start_at_exit env ret s k u hu
  | sys_enter_unlinkat args => rwa [← start_at_enter .unlinkat env args s k hne]
  | sys_exit_unlinkat ret => exact start_at_exit env ret s k u hu
  | sys_enter_mkdirat args => rwa [← start_at_enter .mkdirat env args s k hne]
  | sys_exit_mkdirat ret => exact start_at_exit env ret s k u hu
  | sys_enter_newfstatat args => rwa [← start_at_enter .newfstatat env args s k hne]
  | sys_exit_newfstatat ret => exact start_at_exit env ret s k u hu
  | ovl_workdir_create =>
    by_cases hf : should_trace env.target_comm env.comm = 0
    · have : step env .ovl_workdir_create s = s := by
        simp only [step, kp_ovl_workdir_create]; rw [if_pos hf]
      rwa [this] at hu
    · have : step env .ovl_workdir_create s = save_kprobe_ctx env OP_OVL_WORKDIR_CREATE s := by
        simp only [step, kp_ovl_workdir_create]; rw [if_neg hf]
      rw [this, start_at_ksave env _ s k hne] at hu
      exact hu
  | ovl_workdir_create_ret rc => exact start_at_kexit env OP_OVL_WORKDIR_CREATE _ s k u hu
  | ovl_workdir_cleanup =>
    by_cases hf : should_trace env.target_comm env.comm = 0
    · have : step env .ovl_workdir_cleanup s = s := by
        simp only [step, kp_ovl_workdir_cleanup]; rw [if_pos hf]
      rwa [this] at hu
    · have : step env .ovl_workdir_cleanup s
          = save_kprobe_ctx env OP_OVL_WORKDIR_CLEANUP s := by
        simp only [step, kp_ovl_workdir_cleanup]; rw [if_neg hf]
      rw [this, start_at_ksave env _ s k hne] at hu
      exact hu
  | ovl_workdir_cleanup_ret rc => exact start_at_kexit env OP_OVL_WORKDIR_CLEANUP _ s k u hu
  | vfs_mkdir parm3 => rwa [← start_at_ventry OP_VFS_MKDIR env parm3 s k hne]
  | vfs_mkdir_ret rc => exact start_at_kexit env OP_VFS_MKDIR _ s k u hu
  | vfs_rmdir parm3 => rwa [← start_at_ventry OP_VFS_RMDIR env parm3 s k hne]
  | vfs_rmdir_ret rc => exact start_at_kexit env OP_VFS_RMDIR _ s k u hu

/-- A context found under key `k` after a run without an entry program for `k`
was there before the run. -/
theorem start_at_run (tr : List (Env × Handler)) (k : CtxKey) (u : Nat) :
    ∀ s, (∀ x ∈ tr, entry_key x.1 x.2 ≠ some k) → start_at (run tr s) k = some u →
      start_at s k = some u := by
  induction tr with
  | nil => intro s _ h; exact h
  | cons x rest ih =>
    intro s hne h
    rw [run_cons] at h
    exact start_at_step x.1 x.2 s k u (hne x (List.mem_cons_self _ _))
      (ih _ (fun y hy => hne y (List.mem_cons_of_mem _ hy)) h)

/-- The context found under its key after an entry program run by a task that
passes the filter holds the clock value of that invocation. -/
theorem start_at_entry (env : Env) (h : Handler) (s : FState) (k : CtxKey) (u : Nat)
    (hk : entry_key env h = some k) (hpass : should_trace env.target_comm env.comm ≠ 0)
    (hu : start_at (step env h s) k = some u) : u = env.ktime := by
  have hsys : ∀ c args, start_at (sys_enter c env args s) (Sum.inl env.pid_tgid) = some u →
      u = env.ktime := by
    intro c args hc
    rw [sys_enter_eq, if_neg hpass] at hc
    simp only [start_at] at hc
    rw [save_syscall_ctx_lookup] at hc
    by_cases hrf : refused env.map_full s.syscall_ctx_map env.pid_tgid = true
    · rw [if_pos hrf] at hc
      exact absurd hc (by simp)
    · rw [if_neg hrf] at hc
      simp only [Option.map_some', Option.some.injEq] at hc
      rw [← hc, (sys_sctx_op c env args).2]
  have hkp : ∀ op, start_at (save_kprobe_ctx env op s) (Sum.inr (kprobe_key env.pid_tgid op))
      = some u → u = env.ktime := by
    intro op hc
    simp only [start_at, save_kprobe_ctx] at hc
    by_cases hrf : refused env.map_full s.kprobe_ctx_map (kprobe_key env.pid_tgid op) = true
    · rw [update_refused _ _ _ _ hrf, refused_lookup _ _ _ hrf] at hc
      exact absurd hc (by simp)
    · rw [update_lookup_same _ _ _ _ (by simpa using hrf)] at hc
      simp only [Option.map_some', Option.some.injEq] at hc
      exact hc.symm
  have hvfs : ∀ op parm3,
      start_at (kp_vfs_entry op env parm3 s) (Sum.inr (kprobe_key env.pid_tgid op)) = some u →
      u = env.ktime := by
    intro op parm3 hc
    rw [kp_vfs_entry_pass op env parm3 s hpass] at hc
    exact hkp op hc
  cases h with
  | sys_enter_mount args =>
    simp only [entry_key, Option.some.injEq] at hk; subst hk; exact hsys .mount args hu
  | sys_enter_umount args =>
    simp only [entry_key, Option.some.injEq] at hk; subst hk; exact hsys .umount args hu
  | sys_enter_unlinkat args =>
    simp only [entry_key, Option.some.injEq] at hk; subst hk; exact hsys .unlinkat args hu
  | sys_enter_mkdirat args =>
    simp only [entry_key, Option.some.injEq] at hk; subst hk; exact hsys .mkdirat args hu
  | sys_enter_newfstatat args =>
    simp only [entry_key, Option.some.injEq] at hk; subst hk; exact hsys .newfstatat args hu
  | ovl_workdir_create =>
    simp only [entry_key, Option.some.injEq] at hk; subst hk
    have : step env .ovl_workdir_create s = save_kprobe_ctx env OP_OVL_WORKDIR_CREATE s := by
      simp only [step, kp_ovl_workdir_create]; rw [if_neg hpass]
    rw [this] at hu
    exact hkp _ hu
  | ovl_workdir_cleanup =>
    simp only [entry_key, Option.some.injEq] at hk; subst hk
    have : step env .ovl_workdir_cleanup s = save_kprobe_ctx env OP_OVL_WORKDIR_CLEANUP s := by
      simp only [step, kp_ovl_workdir_cleanup]; rw [if_neg hpass]
    rw [this] at hu
    exact hkp _ hu
  | vfs_mkdir parm3 =>
    simp only [entry_key, Option.some.injEq] at hk; subst hk; exact hvfs _ parm3 hu
  | vfs_rmdir parm3 =>
    simp only [entry_key, Option.some.injEq] at hk; subst hk; exact hvfs _ parm3 hu
  | sys_exit_mount _ => simp [entry_key] at hk
  | sys_exit_umount _ => simp [entry_key] at hk
  | sys_exit_unlinkat _ => simp [entry_key] at hk
  | sys_exit_mkdirat _ => simp [entry_key] at hk
  | sys_exit_newfstatat _ => simp [entry_key] at hk
  | ovl_workdir_create_ret _ => simp [entry_key] at hk
  | ovl_workdir_cleanup_ret _ => simp [entry_key] at hk
  | vfs_mkdir_ret _ => simp [entry_key] at hk
  | vfs_rmdir_ret _ => simp [entry_key] at hk

/-- The record an exit program appends: its timestamp is the clock value of the
invocation and its duration is measured from the `start_ns` stored under the
key. -/
theorem exit_step_appended (env : Env) (hx : Handler) (k : CtxKey) (s : FState)
    (e : file_event) (hxk : exit_key env hx = some k)
    (hev : (step env hx s).events = s.events ++ [e]) :
    ∃ t, start_at s k = some t ∧ e.timestamp_ns = env.ktime ∧
      e.duration_ns = u64_sub env.ktime t := by
  have hsys : ∀ ret, (emit_exit_event env ret s).events = s.events ++ [e] →
      ∃ t, start_at s (Sum.inl env.pid_tgid) = some t ∧ e.timestamp_ns = env.ktime ∧
        e.duration_ns = u64_sub env.ktime t := by
    intro ret h
    obtain ⟨ctx, e0, hs, _, he⟩ := emit_exit_event_appended env ret s e h
    refine ⟨ctx.start_ns, ?_, ?_, ?_⟩
    · simp only [start_at, hs, Option.map_some']
    · rw [he]; rfl
    · rw [he]; rfl
  have hkp : ∀ op ret, (emit_kprobe_exit_event env op ret s).events = s.events ++ [e] →
      ∃ t, start_at s (Sum.inr (kprobe_key env.pid_tgid op)) = some t ∧
        e.timestamp_ns = env.ktime ∧ e.duration_ns = u64_sub env.ktime t := by
    intro op ret h
    obtain ⟨ctx, e0, hs, _, he⟩ := emit_kprobe_exit_event_appended env op ret s e h
    refine ⟨ctx.start_ns, ?_, ?_, ?_⟩
    · simp only [start_at, hs, Option.map_some']
    · rw [he]; rfl
    · rw [he]; rfl
  cases hx with
  | sys_exit_mount ret =>
    simp only [exit_key, Option.some.injEq] at hxk; subst hxk; exact hsys ret hev
  | sys_exit_umount ret =>
    simp only [exit_key, Option.some.injEq] at hxk; subst hxk; exact hsys ret hev
  | sys_exit_unlinkat ret =>
    simp only [exit_key, Option.some.injEq] at hxk; subst hxk; exact hsys ret hev
  | sys_exit_mkdirat ret =>
    simp only [exit_key, Option.some.injEq] at hxk; subst hxk; exact hsys ret hev
  | sys_exit_newfstatat ret =>
    simp only [exit_key, Option.some.injEq] at hxk; subst hxk; exact hsys ret hev
  | ovl_workdir_create_ret rc =>
    simp only [exit_key, Option.some.injEq] at hxk; subst hxk; exact hkp _ _ hev
  | ovl_workdir_cleanup_ret rc =>
    simp only [exit_key, Option.some.injEq] at hxk; subst hxk; exact hkp _ _ hev
  | vfs_mkdir_ret rc =>
    simp only [exit_key, Option.some.injEq] at hxk; subst hxk; exact hkp _ _ hev
  | vfs_rmdir_ret rc =>
    simp only [exit_key, Option.some.injEq] at hxk; subst hxk; exact hkp _ _ hev
  | sys_enter_mount _ => simp [exit_key] at hxk
  | sys_enter_umount _ => simp [exit_key] at hxk
  | sys_enter_unlinkat _ => simp [exit_key] at hxk
  | sys_enter_mkdirat _ => simp [exit_key] at hxk
  | sys_enter_newfstatat _ => simp [exit_key] at hxk
  | ovl_workdir_create => simp [exit_key] at hxk
  | ovl_workdir_cleanup => simp [exit_key] at hxk
  | vfs_mkdir _ => simp [exit_key] at hxk
  | vfs_rmdir _ => simp [exit_key] at hxk

/-! ## Lemmas: the key of `kprobe_ctx_map` and a context stored twice -/

theorem kprobe_key_eq (p op : Nat) (hp : p < 2 ^ 56) (hop : op < 256) :
    kprobe_key p op = p * 256 + op := by
  unfold kprobe_key
  rw [Nat.shiftLeft_eq, Nat.mod_eq_of_lt (by omega)]
  have h := Nat.mul_add_lt_is_or (show op < 2 ^ 8 by omega) p
  rw [Nat.mul_comm p, ← h]

theorem kprobe_key_wrap (p op : Nat) : kprobe_key (p + 2 ^ 56) op = kprobe_key p op := by
  unfold kprobe_key
  rw [Nat.shiftLeft_eq, Nat.shiftLeft_eq]
  have : (p + 2 ^ 56) * 2 ^ 8 % 2 ^ 64 = p * 2 ^ 8 % 2 ^ 64 := by omega
  rw [this]

theorem refused_of_some {V : Type} (full : Bool) (m : BpfHash V) (k : Nat) (v : V)
    (h : m k = some v) : refused full m k = false := by
  simp [refused, h]

/-- The maps and the ring buffer after a vfs kprobe run by a task that passes the
filter. -/
theorem kp_vfs_entry_parts (op : Nat) (env : Env) (parm3 : Nat) (s : FState)
    (h : ¬ should_trace env.target_comm env.comm = 0) :
    (kp_vfs_entry op env parm3 s).kprobe_ctx_map
      = bpf_map_update_elem env.map_full s.kprobe_ctx_map (kprobe_key env.pid_tgid op)
          { start_ns := env.ktime, op := op } ∧
    (kp_vfs_entry op env parm3 s).events
      = (match env.reserve with
        | none => s.events
        | some e => s.events ++ [vfs_entry_record op env parm3 e]) := by
  rw [kp_vfs_entry_pass op env parm3 s h]
  exact ⟨rfl, rfl⟩

/-- After `emit_kprobe_exit_event` no context is left under its key. -/
theorem emit_kprobe_exit_event_released (env : Env) (op : Nat) (ret : Int) (s : FState) :
    (emit_kprobe_exit_event env op ret s).kprobe_ctx_map (kprobe_key env.pid_tgid op)
      = none := by
  cases hs : s.kprobe_ctx_map (kprobe_key env.pid_tgid op) with
  | none => rw [emit_kprobe_exit_event_none env op ret s hs]; exact hs
  | some ctx =>
    cases hr : env.reserve with
    | none =>
      rw [emit_kprobe_exit_event_noreserve env op ret s ctx hs hr]
      exact delete_lookup_same _ _
    | some e0 =>
      rw [emit_kprobe_exit_event_some env op ret s ctx e0 hs hr]
      exact delete_lookup_same _ _

/-! ## Lemmas: where `read_dentry_path` writes -/

/-- The copy loop moves `pos` forward, never past a non-negative limit, writes
non-zero bytes between the old and the new `pos`, and nothing elsewhere. -/
theorem copy_loop_frame (src : Bytes 48) (lim : Int) (fuel i : Nat) (buf : Nat → Nat)
    (pos : Nat) :
    pos ≤ (copy_loop src lim fuel i buf pos).2 ∧
    ((copy_loop src lim fuel i buf pos).2 = pos ∨
      ((copy_loop src lim fuel i buf pos).2 : Int) ≤ lim) ∧
    (∀ j, j < pos ∨ (copy_loop src lim fuel i buf pos).2 ≤ j →
      (copy_loop src lim fuel i buf pos).1 j = buf j) ∧
    (∀ j, pos ≤ j → j < (copy_loop src lim fuel i buf pos).2 →
      (copy_loop src lim fuel i buf pos).1 j ≠ 0) := by
  induction fuel generalizing i buf pos with
  | zero =>
    exact ⟨le_refl _, Or.inl rfl, fun _ _ => rfl,
      fun j h1 h2 => absurd h2 (Nat.not_lt.mpr h1)⟩
  | succ n ih =>
    unfold copy_loop
    by_cases h : i < 47
    · simp only [h, dite_true]
      by_cases hc : src ⟨i, by omega⟩ ≠ 0 ∧ (pos : Int) < lim
      · rw [if_pos hc]
        obtain ⟨a1, a2, a3, a4⟩ := ih (i + 1) (poke buf pos (src ⟨i, by omega⟩)) (pos + 1)
        refine ⟨by omega, ?_, ?_, ?_⟩
        · rcases a2 with a2 | a2
          · right; rw [a2]; push_cast; omega
          · right; exact a2
        · intro j hj
          rw [a3 j (by omega)]
          simp only [poke]
          rw [if_neg (by omega)]
        · intro j hj1 hj2
          by_cases hjp : j = pos
          · rw [a3 j (by omega)]
            simp only [poke]
            rw [if_pos hjp]
            exact hc.1
          · exact a4 j (by omega) hj2
      · rw [if_neg hc]
        exact ⟨le_refl _, Or.inl rfl, fun _ _ => rfl, fun j h1 h2 => absurd h2 (by omega)⟩
    · rw [dif_neg h]
      exact ⟨le_refl _, Or.inl rfl, fun _ _ => rfl,
        fun j h1 h2 => absurd h2 (Nat.not_lt.mpr h1)⟩

/-- For every `buflen >= 2` the block "Build path string" leaves a string that
ends at some `pos <= min (buflen - 1) 95` and touches nothing after `pos`. -/
theorem build_path_bounds (name pn : Bytes 48) (hp : Nat) (buf : Nat → Nat) (buflen : Int)
    (hb : 2 ≤ buflen) :
    ∃ pos : Nat, (pos : Int) ≤ buflen - 1 ∧ pos ≤ 95 ∧
      build_path name pn hp buf buflen pos = 0 ∧
      (∀ j, j < pos → build_path name pn hp buf buflen j ≠ 0) ∧
      (∀ j, pos < j → build_path name pn hp buf buflen j = buf j) := by
  by_cases hhp : hp ≠ 0
  · obtain ⟨a1, a2, a3, a4⟩ := copy_loop_frame pn (buflen - 2) 47 0 buf 0
    have a5 := copy_loop_pos_le pn (buflen - 2) 47 0 buf 0
    obtain ⟨b1, b2, b3, b4⟩ := copy_loop_frame name (buflen - 1) 47 0
      (poke (copy_loop pn (buflen - 2) 47 0 buf 0).1 (copy_loop pn (buflen - 2) 47 0 buf 0).2 47)
      ((copy_loop pn (buflen - 2) 47 0 buf 0).2 + 1)
    have b5 := copy_loop_pos_le name (buflen - 1) 47 0
      (poke (copy_loop pn (buflen - 2) 47 0 buf 0).1 (copy_loop pn (buflen - 2) 47 0 buf 0).2 47)
      ((copy_loop pn (buflen - 2) 47 0 buf 0).2 + 1)
    have hbp : build_path name pn hp buf buflen =
        poke (copy_loop name (buflen - 1) 47 0
          (poke (copy_loop pn (buflen - 2) 47 0 buf 0).1
            (copy_loop pn (buflen - 2) 47 0 buf 0).2 47)
          ((copy_loop pn (buflen - 2) 47 0 buf 0).2 + 1)).1
          (copy_loop name (buflen - 1) 47 0
            (poke (copy_loop pn (buflen - 2) 47 0 buf 0).1
              (copy_loop pn (buflen - 2) 47 0 buf 0).2 47)
            ((copy_loop pn (buflen - 2) 47 0 buf 0).2 + 1)).2 0 := by
      simp only [build_path, hhp, ne_eq, not_false_eq_true, if_true]
    rw [hbp]
    generalize copy_loop name (buflen - 1) 47 0
      (poke (copy_loop pn (buflen - 2) 47 0 buf 0).1 (copy_loop pn (buflen - 2) 47 0 buf 0).2 47)
      ((copy_loop pn (buflen - 2) 47 0 buf 0).2 + 1) = r2 at b1 b2 b3 b4 b5 ⊢
    generalize copy_loop pn (buflen - 2) 47 0 buf 0 = r1 at a1 a2 a3 a4 a5 b1 b2 b3 b4 b5 ⊢
    have c1 : (r1.2 : Int) ≤ buflen - 2 := by
      rcases a2 with a2 | a2
      · rw [a2]; push_cast; omega
      · exact a2
    have c2 : (r2.2 : Int) ≤ buflen - 1 := by
      rcases b2 with b2 | b2
      · rw [b2]; push_cast; omega
      · exact b2
    refine ⟨r2.2, c2, by omega, ?_, ?_, ?_⟩
    · simp only [poke, if_true]
    · intro j hj
      simp only [poke]
      rw [if_neg (by omega)]
      by_cases hj1 : r1.2 + 1 ≤ j
      · exact b4 j hj1 hj
      · rw [b3 j (Or.inl (by omega))]
        simp only [poke]
        by_cases hj2 : j = r1.2
        · rw [if_pos hj2]; omega
        · rw [if_neg hj2]
          exact a4 j (by omega) (by omega)
    · intro j hj
      simp only [poke]
      rw [if_neg (by omega), b3 j (Or.inr (by omega))]
      simp only [poke]
      rw [if_neg (by omega), a3 j (Or.inr (by omega))]
  · have hz : hp = 0 := by omega
    subst hz
    obtain ⟨b1, b2, b3, b4⟩ := copy_loop_frame name (buflen - 1) 47 0 buf 0
    have b5 := copy_loop_pos_le name (buflen - 1) 47 0 buf 0
    have hbp : build_path name pn 0 buf buflen =
        poke (copy_loop name (buflen - 1) 47 0 buf 0).1
          (copy_loop name (buflen - 1) 47 0 buf 0).2 0 := by
      simp only [build_path, ne_eq, not_true_eq_false, if_false]
    rw [hbp]
    generalize copy_loop name (buflen - 1) 47 0 buf 0 = r2 at b1 b2 b3 b4 b5 ⊢
    have c2 : (r2.2 : Int) ≤ buflen - 1 := by
      rcases b2 with b2 | b2
      · rw [b2]; push_cast; omega
      · exact b2
    refine ⟨r2.2, c2, by omega, ?_, ?_, ?_⟩
    · simp only [poke, if_true]
    · intro j hj
      simp only [poke]
      rw [if_neg (by omega)]
      exact b4 j (by omega) hj
    · intro j hj
      simp only [poke]
      rw [if_neg (by omega), b3 j (Or.inr (by omega))]

/-! ## C1: what `should_trace` decides -/

/-- C1. For every 16-byte `target` and `comm`, `should_trace` returns 1 exactly
when `target[0] != 0` and `target[i] == comm[i]` at every index `i` that has no
NUL of `target` strictly before it (the indices up to and including the first
NUL, all 16 when there is none); otherwise it returns 0. Target "mkdir" rejects
comm "mkdirs", and changing `comm` at indices after the first NUL of `target`
does not change the result. -/
theorem should_trace_spec (target comm : Bytes 16) :
    (should_trace (some target) comm = 1 ↔
      target 0 ≠ 0 ∧
        ∀ i : Fin 16, (∀ j : Fin 16, j < i → target j ≠ 0) → target i = comm i) ∧
    (should_trace (some target) comm ≠ 1 → should_trace (some target) comm = 0) ∧
    should_trace (some (bytes16 [109, 107, 100, 105, 114]))
      (bytes16 [109, 107, 100, 105, 114, 115]) = 0 ∧
    (∀ comm2 : Bytes 16,
      (∀ i : Fin 16, (∀ j : Fin 16, j < i → target j ≠ 0) → comm2 i = comm i) →
        should_trace (some target) comm2 = should_trace (some target) comm) := by
  refine ⟨should_trace_iff target comm, ?_, by decide, ?_⟩
  · intro hne
    rcases should_trace_zero_or_one (some target) comm with h | h
    · exact absurd h hne
    · exact h
  · intro comm2 hagree
    have hiff : should_trace (some target) comm2 = 1 ↔ should_trace (some target) comm = 1 := by
      rw [should_trace_iff target comm2, should_trace_iff target comm]
      constructor
      · rintro ⟨h0, hx⟩
        exact ⟨h0, fun i hall => (hx i hall).trans (hagree i hall)⟩
      · rintro ⟨h0, hx⟩
        exact ⟨h0, fun i hall => (hx i hall).trans (hagree i hall).symm⟩
    rcases should_trace_zero_or_one (some target) comm2 with h2 | h2 <;>
      rcases should_trace_zero_or_one (some target) comm with h1 | h1
    · rw [h1, h2]
    · have := hiff.mp h2; rw [h1] at this; exact absurd this (by decide)
    · have := hiff.mpr h1; rw [h2] at this; exact absurd this (by decide)
    · rw [h1, h2]

/-! ## C2: the `comm` of an emitted record and the filter -/

/-- C3, counterexample. Task 7 enters `mkdirat` while the filter is "a"; the
filter is then emptied; the exit tracepoint, invoked with `target_comm[0] == 0`,
still appends a record. -/
theorem exit_emits_under_empty_filter :
    (sample_env [] [97] 7 20).target_comm.map (fun t => t 0) = some 0 ∧
    (tp_sys_exit_mkdirat (sample_env [] [97] 7 20) 0
        (tp_sys_enter_mkdirat (sample_env [97] [97] 7 10) zero_args FState.init)).events.length
      = (tp_sys_enter_mkdirat (sample_env [97] [97] 7 10) zero_args
          FState.init).events.length + 1 := by
  constructor
  · decide
  · decide

/-- C3, amended. Invoked while `target_comm[0] == 0`, every entry program (enter
tracepoint or kprobe) leaves the ring buffer and both maps unchanged, and so
does every exit program when its correlation map holds no context under the
current task's key. The exit programs do not consult `target_comm`: when a
context stored by an earlier entry is present and the reservation succeeds,
an exit program appends one record even though the filter is empty. -/
theorem empty_filter (env : Env) (h : Handler) (s : FState) (ht : filter_empty env) :
    (h.is_entry = true → step env h s = s) ∧
    (h.is_entry = false → ctx_present env h s = false → step env h s = s) ∧
    (h.is_entry = false → ctx_present env h s = true → ∀ e0, env.reserve = some e0 →
      (step env h s).events.length = s.events.length + 1) := by
  have hz : should_trace env.target_comm env.comm = 0 := should_trace_empty _ _ ht
  cases h with
  | sys_enter_mount args =>
    refine ⟨fun _ => ?_, fun hx => absurd hx (by simp [Handler.is_entry]), fun hx => absurd hx (by simp [Handler.is_entry])⟩
    simp [step, tp_sys_enter_mount, hz]
  | sys_enter_umount args =>
    refine ⟨fun _ => ?_, fun hx => absurd hx (by simp [Handler.is_entry]), fun hx => absurd hx (by simp [Handler.is_entry])⟩
    simp [step, tp_sys_enter_umount, hz]
  | sys_enter_unlinkat args =>
    refine ⟨fun _ => ?_, fun hx => absurd hx (by simp [Handler.is_entry]), fun hx => absurd hx (by simp [Handler.is_entry])⟩
    simp [step, tp_sys_enter_unlinkat, hz]
  | sys_enter_mkdirat args =>
    refine ⟨fun _ => ?_, fun hx => absurd hx (by simp [Handler.is_entry]), fun hx => absurd hx (by simp [Handler.is_entry])⟩
    simp [step, tp_sys_enter_mkdirat, hz]
  | sys_enter_newfstatat args =>
    refine ⟨fun _ => ?_, fun hx => absurd hx (by simp [Handler.is_entry]), fun hx => absurd hx (by simp [Handler.is_entry])⟩
    simp [step, tp_sys_enter_newfstatat, hz]
  | ovl_workdir_create =>
    refine ⟨fun _ => ?_, fun hx => absurd hx (by simp [Handler.is_entry]), fun hx => absurd hx (by simp [Handler.is_entry])⟩
    simp [step, kp_ovl_workdir_create, hz]
  | ovl_workdir_cleanup =>
    refine ⟨fun _ => ?_, fun hx => absurd hx (by simp [Handler.is_entry]), fun hx => absurd hx (by simp [Handler.is_entry])⟩
    simp [step, kp_ovl_workdir_cleanup, hz]
  | vfs_mkdir parm3 =>
    refine ⟨fun _ => ?_, fun hx => absurd hx (by simp [Handler.is_entry]), fun hx => absurd hx (by simp [Handler.is_entry])⟩
    exact kp_vfs_entry_reject _ env parm3 s hz
  | vfs_rmdir parm3 =>
    refine ⟨fun _ => ?_, fun hx => absurd hx (by simp [Handler.is_entry]), fun hx => absurd hx (by simp [Handler.is_entry])⟩
    exact kp_vfs_entry_reject _ env parm3 s hz
  | sys_exit_mount ret =>
    exact ⟨fun hx => absurd hx (by simp [Handler.is_entry]), fun _ hc => emit_exit_event_absent env ret s hc,
      fun _ hc e0 hr => emit_exit_event_present env ret s e0 hc hr⟩
  | sys_exit_umount ret =>
    exact ⟨fun hx => absurd hx (by simp [Handler.is_entry]), fun _ hc => emit_exit_event_absent env ret s hc,
      fun _ hc e0 hr => emit_exit_event_present env ret s e0 hc hr⟩
  | sys_exit_unlinkat ret =>
    exact ⟨fun hx => absurd hx (by simp [Handler.is_entry]), fun _ hc => emit_exit_event_absent env ret s hc,
      fun _ hc e0 hr => emit_exit_event_present env ret s e0 hc hr⟩
  | sys_exit_mkdirat ret =>
    exact ⟨fun hx => absurd hx (by simp [Handler.is_entry]), fun _ hc => emit_exit_event_absent env ret s hc,
      fun _ hc e0 hr => emit_exit_event_present env ret s e0 hc hr⟩
  | sys_exit_newfstatat ret =>
    exact ⟨fun hx => absurd hx (by simp [Handler.is_entry]), fun _ hc => emit_exit_event_absent env ret s hc,
      fun _ hc e0 hr => emit_exit_event_present env ret s e0 hc hr⟩
  | ovl_workdir_create_ret rc =>
    exact ⟨fun hx => absurd hx (by simp [Handler.is_entry]),
      fun _ hc => emit_kprobe_exit_event_absent env _ _ s hc,
      fun _ hc e0 hr => emit_kprobe_exit_event_present env _ _ s e0 hc hr⟩
  | ovl_workdir_cleanup_ret rc =>
    exact ⟨fun hx => absurd hx (by simp [Handler.is_entry]),
      fun _ hc => emit_kprobe_exit_event_absent env _ _ s hc,
      fun _ hc e0 hr => emit_kprobe_exit_event_present env _ _ s e0 hc hr⟩
  | vfs_mkdir_ret rc =>
    exact ⟨fun hx => absurd hx (by simp [Handler.is_entry]),
      fun _ hc => emit_kprobe_exit_event_absent env _ _ s hc,
      fun _ hc e0 hr => emit_kprobe_exit_event_present env _ _ s e0 hc hr⟩
  | vfs_rmdir_ret rc =>
    exact ⟨fun hx => absurd hx (by simp [Handler.is_entry]),
      fun _ hc => emit_kprobe_exit_event_absent env _ _ s hc,
      fun _ hc e0 hr => emit_kprobe_exit_event_present env _ _ s e0 hc hr⟩

/-- C3, witness: with an empty filter, `kp_vfs_mkdir` by task 7 changes nothing
in a state where another call of the task is still pending. -/
theorem empty_filter_witness :
    filter_empty (sample_env [] [97] 7 20) ∧
    ((Handler.vfs_mkdir 100).is_entry = true →
      step (sample_env [] [97] 7 20) (Handler.vfs_mkdir 100)
          (tp_sys_enter_mkdirat (sample_env [97] [97] 7 10) zero_args FState.init)
        = tp_sys_enter_mkdirat (sample_env [97] [97] 7 10) zero_args FState.init) :=
  ⟨fun t ht => by
      have : t = bytes16 [] := (Option.some.inj ht).symm
      rw [this]; rfl,
    (empty_filter (sample_env [] [97] 7 20) (Handler.vfs_mkdir 100)
      (tp_sys_enter_mkdirat (sample_env [97] [97] 7 10) zero_args FState.init)
      (fun t ht => by
        have : t = bytes16 [] := (Option.some.inj ht).symm
        rw [this]; rfl)).1⟩

/-! ## C4: one record per completed syscall -/

/-- C4, counterexample. (a) When the clock reads the same value at entry and at
exit, the record of the completed `mkdirat` has `duration_ns = 0`, not a value
greater than 0. (b) When `syscall_ctx_map` is full and holds no entry for the
task, the enter program stores nothing and the matching exit program, its
reservation succeeding, appends no record. -/
theorem pairing_fails :
    ((tp_sys_exit_mkdirat (sample_env [97] [97] 7 10) 0
        (tp_sys_enter_mkdirat (sample_env [97] [97] 7 10) zero_args FState.init)).events.map
          file_event.duration_ns = [0]) ∧
    (tp_sys_exit_mkdirat (sample_env [97] [97] 7 20) 0
        (tp_sys_enter_mkdirat (sample_env_full [97] [97] 7 10) zero_args full_state)).events.length
      = full_state.events.length := by
  constructor
  · decide
  · decide

/-- C4, amended. For every tracked syscall issued by a task that passes
`should_trace`, when the enter program's context insertion is not refused (the
map has room or already holds the task's key), the exit program of the same
task follows and its reservation succeeds, exactly one record is appended; its
`tgid` is the upper 32 bits of `pid_tgid`, its `op` is the op stored at entry,
and its `duration_ns` is the exit clock minus the entry clock modulo `2 ^ 64`,
which is greater than 0 exactly when the two clock readings differ. A further
exit invocation without a new entry appends nothing. -/
theorem syscall_pairing (c : Syscall) (env1 env2 env3 : Env) (args : Fin 6 → Nat)
    (ret ret3 : Int) (s : FState) (e0 : file_event)
    (h1 : should_trace env1.target_comm env1.comm = 1)
    (hp : env2.pid_tgid = env1.pid_tgid) (hp3 : env3.pid_tgid = env1.pid_tgid)
    (hnr : refused env1.map_full s.syscall_ctx_map env1.pid_tgid = false)
    (hr : env2.reserve = some e0) :
    ∃ e : file_event,
      (sys_exit c env2 ret (sys_enter c env1 args s)).events = s.events ++ [e] ∧
      e.tgid = (env1.pid_tgid / 2 ^ 32) % 2 ^ 32 ∧
      e.op = sys_op c ∧ e.op = (sys_sctx c env1 args).op ∧
      e.duration_ns = u64_sub env2.ktime env1.ktime ∧
      (0 < e.duration_ns ↔ env2.ktime % 2 ^ 64 ≠ env1.ktime % 2 ^ 64) ∧
      (sys_exit c env3 ret3 (sys_exit c env2 ret (sys_enter c env1 args s))).events
        = s.events ++ [e] := by
  have hev : (sys_exit c env2 ret (sys_enter c env1 args s)).events
      = s.events ++ [exit_record env2 ret (sys_sctx c env1 args) e0] := by
    rw [enter_exit_events c env1 env2 args ret s h1 hp, hnr, hr]
    rfl
  obtain ⟨hop, hstart⟩ := sys_sctx_op c env1 args
  refine ⟨exit_record env2 ret (sys_sctx c env1 args) e0, hev, ?_, ?_, ?_, ?_, ?_, ?_⟩
  · simp only [exit_record, tgid_of, hp, Nat.shiftRight_eq_div_pow]
  · simp only [exit_record, hop]
  · simp only [exit_record]
  · simp only [exit_record, hstart]
  · simp only [exit_record, hstart, u64_sub]
    omega
  · have hnone := enter_exit_maps c env1 env2 args ret s hp
    rw [← hp3] at hnone
    rw [sys_exit_eq c env3, emit_exit_event_none env3 ret3 _ hnone, hev]

/-- C4, witness: task 7 enters `mkdirat` at clock 10 and leaves it at clock 25. -/
theorem syscall_pairing_witness :
    ∃ e : file_event,
      (sys_exit .mkdirat (sample_env [97] [97] 7 25) 0
          (sys_enter .mkdirat (sample_env [97] [97] 7 10) zero_args FState.init)).events
        = FState.init.events ++ [e] ∧
      e.tgid = (7 / 2 ^ 32) % 2 ^ 32 ∧
      e.op = sys_op .mkdirat ∧
      e.op = (sys_sctx .mkdirat (sample_env [97] [97] 7 10) zero_args).op ∧
      e.duration_ns = u64_sub 25 10 ∧
      (0 < e.duration_ns ↔ 25 % 2 ^ 64 ≠ 10 % 2 ^ 64) ∧
      (sys_exit .mkdirat (sample_env [97] [97] 7 30) 0
          (sys_exit .mkdirat (sample_env [97] [97] 7 25) 0
            (sys_enter .mkdirat (sample_env [97] [97] 7 10) zero_args FState.init))).events
        = FState.init.events ++ [e] :=
  syscall_pairing .mkdirat (sample_env [97] [97] 7 10) (sample_env [97] [97] 7 25)
    (sample_env [97] [97] 7 30) zero_args 0 0 FState.init zero_event (by decide) rfl rfl
    (by decide) rfl

/-! ## C5: the `error` member -/

/-- C5, counterexample. A syscall exit tracepoint that receives the 64-bit
return value `-2147483649` (below `-2 ^ 31`) emits a record whose `error` is
`2147483647`, not `ret`. -/
theorem exit_error_truncates :
    ((tp_sys_exit_mkdirat (sample_env [97] [97] 7 20) (-2147483649)
        (tp_sys_enter_mkdirat (sample_env [97] [97] 7 10) zero_args FState.init)).events.map
          file_event.error) = [2147483647] := by
  decide

/-- C5, amended. Every record a syscall exit appends has `error` equal to `ret`
when `-2 ^ 31 <= ret < 0`, to the low 32 bits of `ret` read as a signed value
when `ret < -2 ^ 31`, and to 0 when `ret >= 0`; every record a kretprobe, whose
`ret` is a C `int`, appends has `error` equal to `ret` when `ret < 0` and to 0
otherwise. A syscall exit appends such a record whenever a syscall context is
stored for the task and the reservation succeeds; a kretprobe does whenever a
kprobe context is stored under its key and the reservation succeeds. -/
theorem exit_error_field (env : Env) (ret : Int) (op rc : Nat) (s : FState)
    (e0 : file_event) (hr : env.reserve = some e0) :
    (∀ e, (emit_exit_event env ret s).events = s.events ++ [e] →
      (-(2 ^ 31) ≤ ret → ret < 0 → e.error = ret) ∧
      (ret < -(2 ^ 31) → e.error = to_s32 ret) ∧
      (0 ≤ ret → e.error = 0)) ∧
    (∀ e, (emit_kprobe_exit_event env op (kretprobe_ret rc) s).events = s.events ++ [e] →
      (kretprobe_ret rc < 0 → e.error = kretprobe_ret rc) ∧
      (0 ≤ kretprobe_ret rc → e.error = 0)) ∧
    (∀ ctx, s.syscall_ctx_map env.pid_tgid = some ctx →
      ∃ e1, (emit_exit_event env ret s).events = s.events ++ [e1] ∧
        (-(2 ^ 31) ≤ ret → ret < 0 → e1.error = ret) ∧
        (ret < -(2 ^ 31) → e1.error = to_s32 ret) ∧
        (0 ≤ ret → e1.error = 0)) ∧
    (∀ kctx, s.kprobe_ctx_map (kprobe_key env.pid_tgid op) = some kctx →
      ∃ e2, (emit_kprobe_exit_event env op (kretprobe_ret rc) s).events = s.events ++ [e2] ∧
        (kretprobe_ret rc < 0 → e2.error = kretprobe_ret rc) ∧
        (0 ≤ kretprobe_ret rc → e2.error = 0)) := by
  have hsys : ∀ (ctx : syscall_ctx) (e1 : file_event),
      (-(2 ^ 31) ≤ ret → ret < 0 → (exit_record env ret ctx e1).error = ret) ∧
      (ret < -(2 ^ 31) → (exit_record env ret ctx e1).error = to_s32 ret) ∧
      (0 ≤ ret → (exit_record env ret ctx e1).error = 0) := by
    intro ctx e1
    refine ⟨?_, ?_, ?_⟩
    · intro h1 h2
      simp only [exit_record, h2, if_true]
      exact to_s32_of_range ret h1 (by omega)
    · intro h1
      have : ret < 0 := by omega
      simp only [exit_record, this, if_true]
    · intro h1
      have : ¬ ret < 0 := by omega
      simp only [exit_record, this, if_false]
  have hkp : ∀ (kctx : kprobe_ctx) (e1 : file_event),
      (kretprobe_ret rc < 0 →
        (kprobe_exit_record env op (kretprobe_ret rc) kctx e1).error = kretprobe_ret rc) ∧
      (0 ≤ kretprobe_ret rc →
        (kprobe_exit_record env op (kretprobe_ret rc) kctx e1).error = 0) := by
    intro kctx e1
    refine ⟨?_, ?_⟩
    · intro h1
      simp only [kprobe_exit_record, h1, if_true]
      exact to_s32_of_range _ (to_s32_range _).1 (to_s32_range _).2
    · intro h1
      have : ¬ kretprobe_ret rc < 0 := by omega
      simp only [kprobe_exit_record, this, if_false]
  refine ⟨?_, ?_, ?_, ?_⟩
  · intro e hev
    obtain ⟨ctx, e1, _, _, he⟩ := emit_exit_event_appended env ret s e hev
    rw [he]
    exact hsys ctx e1
  · intro e hev
    obtain ⟨kctx, e1, _, _, he⟩ := emit_kprobe_exit_event_appended env op _ s e hev
    rw [he]
    exact hkp kctx e1
  · intro ctx hs
    refine ⟨exit_record env ret ctx e0, ?_, hsys ctx e0⟩
    rw [emit_exit_event_some env ret s ctx e0 hs hr]
  · intro kctx hk
    refine ⟨kprobe_exit_record env op (kretprobe_ret rc) kctx e0, ?_, hkp kctx e0⟩
    rw [emit_kprobe_exit_event_some env op _ s kctx e0 hk hr]

/-- C5, witness: task 7 leaves a plain `mkdirat` (no kprobe context stored) with
`-17`; and, outside any tracked syscall, task 7 returns from
`ovl_workdir_create` with the return register `0xffffffef`, the `int` `-17`. -/
theorem exit_error_field_witness :
    ((sample_env [97] [97] 7 20).reserve = some zero_event ∧
      ((tp_sys_exit_mkdirat (sample_env [97] [97] 7 20) (-17)
        (tp_sys_enter_mkdirat (sample_env [97] [97] 7 10) zero_args FState.init)).events.map
          file_event.error) = [-17] ∧
      ((kretp_ovl_workdir_create (sample_env [97] [97] 7 20) 4294967279
        (kp_ovl_workdir_create (sample_env [97] [97] 7 10) FState.init)).events.map
          file_event.error) = [-17]) ∧
    (∃ e1,
      (emit_exit_event (sample_env [97] [97] 7 20) (-17)
          (tp_sys_enter_mkdirat (sample_env [97] [97] 7 10) zero_args FState.init)).events
        = (tp_sys_enter_mkdirat (sample_env [97] [97] 7 10) zero_args FState.init).events
          ++ [e1] ∧
      (-(2 ^ 31) ≤ (-17 : Int) → (-17 : Int) < 0 → e1.error = -17) ∧
      ((-17 : Int) < -(2 ^ 31) → e1.error = to_s32 (-17)) ∧
      (0 ≤ (-17 : Int) → e1.error = 0)) ∧
    (∃ e2,
      (emit_kprobe_exit_event (sample_env [97] [97] 7 20) 6 (kretprobe_ret 4294967279)
          (kp_ovl_workdir_create (sample_env [97] [97] 7 10) FState.init)).events
        = (kp_ovl_workdir_create (sample_env [97] [97] 7 10) FState.init).events ++ [e2] ∧
      (kretprobe_ret 4294967279 < 0 → e2.error = kretprobe_ret 4294967279) ∧
      (0 ≤ kretprobe_ret 4294967279 → e2.error = 0)) :=
  ⟨⟨rfl, by decide, by decide⟩,
    (exit_error_field (sample_env [97] [97] 7 20) (-17) 6 4294967279
      (tp_sys_enter_mkdirat (sample_env [97] [97] 7 10) zero_args FState.init)
      zero_event rfl).2.2.1 (mkdirat_sctx (sample_env [97] [97] 7 10) zero_args) rfl,
    (exit_error_field (sample_env [97] [97] 7 20) (-17) 6 4294967279
      (kp_ovl_workdir_create (sample_env [97] [97] 7 10) FState.init)
      zero_event rfl).2.2.2 { start_ns := 10, op := 6 } rfl⟩

/-! ## C6: the exit record carries the arguments captured at entry -/

/-- C6. When a task that passes the filter enters a tracked syscall and the same
task leaves it, a record `e` appended by the exit program carries what the
enter program captured: MOUNT has op 1, `path` the string at `args[1]`, `path2`
the string at `args[4]`, `flags` the low 32 bits of `args[3]`; UMOUNT has op 2,
`path` from `args[0]`, `flags` from `args[1]`; UNLINKAT (3), MKDIRAT (4) and
NEWFSTATAT (5) have `path` from `args[1]` and `flags` from `args[2]`, `args[2]`
and `args[3]`. Each string is the user string cut after 127 bytes and followed
by a NUL, empty for a NULL pointer. Such a record is appended whenever the
reservation succeeds and the context insertion was not refused. -/
theorem exit_record_carries_args (env1 env2 : Env) (args : Fin 6 → Nat) (ret : Int)
    (s : FState) (e : file_event)
    (h1 : should_trace env1.target_comm env1.comm = 1)
    (hp : env2.pid_tgid = env1.pid_tgid) :
    ((tp_sys_exit_mount env2 ret (tp_sys_enter_mount env1 args s)).events = s.events ++ [e] →
      e.op = 1 ∧ holds_user_str env1 e.path (args 1) ∧ holds_user_str env1 e.path2 (args 4) ∧
        e.flags = args 3 % 2 ^ 32) ∧
    ((tp_sys_exit_umount env2 ret (tp_sys_enter_umount env1 args s)).events = s.events ++ [e] →
      e.op = 2 ∧ holds_user_str env1 e.path (args 0) ∧ e.flags = args 1 % 2 ^ 32) ∧
    ((tp_sys_exit_unlinkat env2 ret (tp_sys_enter_unlinkat env1 args s)).events
        = s.events ++ [e] →
      e.op = 3 ∧ holds_user_str env1 e.path (args 1) ∧ e.flags = args 2 % 2 ^ 32) ∧
    ((tp_sys_exit_mkdirat env2 ret (tp_sys_enter_mkdirat env1 args s)).events
        = s.events ++ [e] →
      e.op = 4 ∧ holds_user_str env1 e.path (args 1) ∧ e.flags = args 2 % 2 ^ 32) ∧
    ((tp_sys_exit_newfstatat env2 ret (tp_sys_enter_newfstatat env1 args s)).events
        = s.events ++ [e] →
      e.op = 5 ∧ holds_user_str env1 e.path (args 1) ∧ e.flags = args 3 % 2 ^ 32) ∧
    (∀ (c : Syscall) (e0 : file_event), env2.reserve = some e0 →
      refused env1.map_full s.syscall_ctx_map env1.pid_tgid = false →
      ∃ e1, (sys_exit c env2 ret (sys_enter c env1 args s)).events = s.events ++ [e1]) := by
  refine ⟨?_, ?_, ?_, ?_, ?_, ?_⟩
  · intro hev
    obtain ⟨e0, _, he⟩ := enter_exit_record .mount env1 env2 args ret s e h1 hp hev
    rw [he]
    exact ⟨rfl, holds_user_str_read env1 (args 1), holds_user_str_read env1 (args 4), rfl⟩
  · intro hev
    obtain ⟨e0, _, he⟩ := enter_exit_record .umount env1 env2 args ret s e h1 hp hev
    rw [he]
    exact ⟨rfl, holds_user_str_read env1 (args 0), rfl⟩
  · intro hev
    obtain ⟨e0, _, he⟩ := enter_exit_record .unlinkat env1 env2 args ret s e h1 hp hev
    rw [he]
    exact ⟨rfl, holds_user_str_read env1 (args 1), rfl⟩
  · intro hev
    obtain ⟨e0, _, he⟩ := enter_exit_record .mkdirat env1 env2 args ret s e h1 hp hev
    rw [he]
    exact ⟨rfl, holds_user_str_read env1 (args 1), rfl⟩
  · intro hev
    obtain ⟨e0, _, he⟩ := enter_exit_record .newfstatat env1 env2 args ret s e h1 hp hev
    rw [he]
    exact ⟨rfl, holds_user_str_read env1 (args 1), rfl⟩
  · intro c e0 hr hnr
    refine ⟨exit_record env2 ret (sys_sctx c env1 args) e0, ?_⟩
    rw [enter_exit_events c env1 env2 args ret s h1 hp, hnr, hr]
    rfl

/-- C6, witness: `mount(NULL, "/mnt", NULL, 1, "ro")` by task 7. -/
theorem exit_record_carries_args_witness :
    should_trace (sample_env_mem [97] [97] 7 10).target_comm
        (sample_env_mem [97] [97] 7 10).comm = 1 ∧
    user_str (sample_env_mem [97] [97] 7 10) 500 127 = [47, 109, 110, 116] ∧
    user_str (sample_env_mem [97] [97] 7 10) 600 127 = [114, 111] ∧
    ((exit_record (sample_env [97] [97] 7 20) 0
          (mount_sctx (sample_env_mem [97] [97] 7 10) sample_mount_args) zero_event).op = 1 ∧
      holds_user_str (sample_env_mem [97] [97] 7 10)
        (exit_record (sample_env [97] [97] 7 20) 0
          (mount_sctx (sample_env_mem [97] [97] 7 10) sample_mount_args) zero_event).path 500 ∧
      holds_user_str (sample_env_mem [97] [97] 7 10)
        (exit_record (sample_env [97] [97] 7 20) 0
          (mount_sctx (sample_env_mem [97] [97] 7 10) sample_mount_args) zero_event).path2 600 ∧
      (exit_record (sample_env [97] [97] 7 20) 0
          (mount_sctx (sample_env_mem [97] [97] 7 10) sample_mount_args) zero_event).flags
        = 1) :=
  ⟨by decide, by decide, by decide,
    (exit_record_carries_args (sample_env_mem [97] [97] 7 10) (sample_env [97] [97] 7 20)
      sample_mount_args 0 FState.init
      (exit_record (sample_env [97] [97] 7 20) 0
        (mount_sctx (sample_env_mem [97] [97] 7 10) sample_mount_args) zero_event)
      (by decide) rfl).1 rfl⟩

/-! ## C7: exit handlers release the context -/

/-- C7. After `emit_exit_event` returns, `syscall_ctx_map` has no entry under
the current `pid_tgid` and every other key holds what it held before; after
`emit_kprobe_exit_event` returns, the same is true of `kprobe_ctx_map` and the
key `(pid_tgid << 8) | op`. This holds for every environment, so whether or not
the ring-buffer reservation succeeds; neither function touches the other map. -/
theorem exit_releases_ctx (env : Env) (ret : Int) (op : Nat) (s : FState) :
    (emit_exit_event env ret s).syscall_ctx_map env.pid_tgid = none ∧
    (∀ k : Nat, k ≠ env.pid_tgid →
      (emit_exit_event env ret s).syscall_ctx_map k = s.syscall_ctx_map k) ∧
    (emit_exit_event env ret s).kprobe_ctx_map = s.kprobe_ctx_map ∧
    (emit_kprobe_exit_event env op ret s).kprobe_ctx_map (kprobe_key env.pid_tgid op) = none ∧
    (∀ k : Nat, k ≠ kprobe_key env.pid_tgid op →
      (emit_kprobe_exit_event env op ret s).kprobe_ctx_map k = s.kprobe_ctx_map k) ∧
    (emit_kprobe_exit_event env op ret s).syscall_ctx_map = s.syscall_ctx_map := by
  have hA : (emit_exit_event env ret s).syscall_ctx_map
        = bpf_map_delete_elem s.syscall_ctx_map env.pid_tgid ∧
      (emit_exit_event env ret s).kprobe_ctx_map = s.kprobe_ctx_map := by
    cases hs : s.syscall_ctx_map env.pid_tgid with
    | none =>
      rw [emit_exit_event_none env ret s hs]
      refine ⟨?_, rfl⟩
      funext j
      by_cases hj : j = env.pid_tgid
      · subst hj; rw [delete_lookup_same, hs]
      · rw [delete_lookup_other _ _ _ hj]
    | some ctx =>
      cases hr : env.reserve with
      | none => rw [emit_exit_event_noreserve env ret s ctx hs hr]; exact ⟨rfl, rfl⟩
      | some e => rw [emit_exit_event_some env ret s ctx e hs hr]; exact ⟨rfl, rfl⟩
  have hB : (emit_kprobe_exit_event env op ret s).kprobe_ctx_map
        = bpf_map_delete_elem s.kprobe_ctx_map (kprobe_key env.pid_tgid op) ∧
      (emit_kprobe_exit_event env op ret s).syscall_ctx_map = s.syscall_ctx_map := by
    cases hs : s.kprobe_ctx_map (kprobe_key env.pid_tgid op) with
    | none =>
      rw [emit_kprobe_exit_event_none env op ret s hs]
      refine ⟨?_, rfl⟩
      funext j
      by_cases hj : j = kprobe_key env.pid_tgid op
      · subst hj; rw [delete_lookup_same, hs]
      · rw [delete_lookup_other _ _ _ hj]
    | some ctx =>
      cases hr : env.reserve with
      | none => rw [emit_kprobe_exit_event_noreserve env op ret s ctx hs hr]; exact ⟨rfl, rfl⟩
      | some e => rw [emit_kprobe_exit_event_some env op ret s ctx e hs hr]; exact ⟨rfl, rfl⟩
  refine ⟨?_, ?_, hA.2, ?_, ?_, hB.2⟩
  · rw [hA.1, delete_lookup_same]
  · intro k hk; rw [hA.1, delete_lookup_other _ _ _ hk]
  · rw [hB.1, delete_lookup_same]
  · intro k hk; rw [hB.1, delete_lookup_other _ _ _ hk]

/-! ## C8: the two records of a vfs call -/

/-- C8, counterexample. With `kprobe_ctx_map` full and no entry for the task,
`kp_vfs_mkdir` followed by `kretp_vfs_mkdir`, both reservations succeeding,
appends one record only, the entry record with `flags = 1`: the insertion was
refused, so the kretprobe finds no context. -/
theorem vfs_duality_fails :
    ((kretp_vfs_mkdir (sample_env [97] [97] 7 20) 0
        (kp_vfs_mkdir (sample_env_full [97] [97] 7 10) 0 full_state)).events.map
          file_event.flags) = full_state.events.map file_event.flags ++ [1] := by
  decide

/-- C8, amended. For a traced task, a `vfs_mkdir` (op 8) or `vfs_rmdir` (op 9)
kprobe whose context insertion is not refused (the map has room or already
holds the key), followed by its kretprobe, both ring-buffer reservations
succeeding, appends exactly two records with the same `tgid` and `op`, in this
order: an entry record with `flags = 1`, `duration_ns = 0`, `error = 0` and the
synthesised dentry path, then an exit record with `flags = 0`, the measured
duration and the error. -/
theorem vfs_duality (env1 env2 : Env) (parm3 rc : Nat) (s : FState) (e0 e1 : file_event)
    (h1 : should_trace env1.target_comm env1.comm = 1)
    (hp : env2.pid_tgid = env1.pid_tgid)
    (hr1 : env1.reserve = some e0) (hr2 : env2.reserve = some e1) :
    (refused env1.map_full s.kprobe_ctx_map (kprobe_key env1.pid_tgid OP_VFS_MKDIR) = false →
      ∃ a b : file_event,
        (kretp_vfs_mkdir env2 rc (kp_vfs_mkdir env1 parm3 s)).events = s.events ++ [a, b] ∧
        vfs_pair 8 env1 env2 parm3 rc a b) ∧
    (refused env1.map_full s.kprobe_ctx_map (kprobe_key env1.pid_tgid OP_VFS_RMDIR) = false →
      ∃ a b : file_event,
        (kretp_vfs_rmdir env2 rc (kp_vfs_rmdir env1 parm3 s)).events = s.events ++ [a, b] ∧
        vfs_pair 9 env1 env2 parm3 rc a b) := by
  constructor
  · intro hnr
    refine ⟨_, _, ?_, vfs_pair_holds OP_VFS_MKDIR env1 env2 parm3 rc e0 e1 hp⟩
    have := vfs_entry_exit_events OP_VFS_MKDIR env1 env2 parm3 (kretprobe_ret rc) s e0 e1
      h1 hp hr1 hr2
    rw [hnr] at this
    exact this
  · intro hnr
    refine ⟨_, _, ?_, vfs_pair_holds OP_VFS_RMDIR env1 env2 parm3 rc e0 e1 hp⟩
    have := vfs_entry_exit_events OP_VFS_RMDIR env1 env2 parm3 (kretprobe_ret rc) s e0 e1
      h1 hp hr1 hr2
    rw [hnr] at this
    exact this

/-- C8, witness: task 7 calls `vfs_mkdir` on the dentry "b/c". -/
theorem vfs_duality_witness :
    refused (sample_env_kmem [97] [97] 7 10).map_full FState.init.kprobe_ctx_map
        (kprobe_key (sample_env_kmem [97] [97] 7 10).pid_tgid OP_VFS_MKDIR) = false ∧
    ∃ a b : file_event,
      (kretp_vfs_mkdir (sample_env [97] [97] 7 20) 0
          (kp_vfs_mkdir (sample_env_kmem [97] [97] 7 10) 100 FState.init)).events
        = FState.init.events ++ [a, b] ∧
      vfs_pair 8 (sample_env_kmem [97] [97] 7 10) (sample_env [97] [97] 7 20) 100 0 a b :=
  ⟨by decide,
    (vfs_duality (sample_env_kmem [97] [97] 7 10) (sample_env [97] [97] 7 20) 100 0
      FState.init zero_event zero_event (by decide) rfl rfl rfl).1 (by decide)⟩

/-! ## C9: the string `read_dentry_path` writes -/

/-- C9. For every non-null dentry and `buflen = 128`, `read_dentry_path` writes
exactly the string the specification names (`dentry_path_spec`: parent name,
`/`, name when the parent exists, differs from the entry and its name starts
with neither `/` nor NUL; the name alone otherwise, each name read as at most 47
bytes before the NUL): the bytes of that string, none of them NUL, then one
NUL, and nothing after it is modified; so the C string left in the 128-byte
buffer is exactly that string. -/
theorem read_dentry_path_spec (k : KMem) (name0 parent_name0 : Bytes 48) (d : Nat)
    (buf : Nat → Nat) (hd : d ≠ 0) :
    0 ∉ dentry_path_spec k d ∧
    (∀ j, read_dentry_path k name0 parent_name0 d buf 128 j =
      if j ≤ (dentry_path_spec k d).length then (dentry_path_spec k d).getD j 0
      else buf j) ∧
    cstr (fun i : Fin 128 => read_dentry_path k name0 parent_name0 d buf 128 i.val)
      = dentry_path_spec k d := by
  obtain ⟨h0, hj⟩ := read_dentry_path_bytes k name0 parent_name0 d buf hd
  have hlen := dentry_path_spec_length k d
  refine ⟨h0, hj, ?_⟩
  apply cstr_of_spec _ _ (by omega) h0
  intro j hjl
  rw [rd_lt _ j (by omega)]
  simp only []
  rw [hj j, if_pos hjl]

/-- C9, witness: the dentry "c" with parent "b" yields "b/c". -/
theorem read_dentry_path_spec_witness :
    (100 : Nat) ≠ 0 ∧ dentry_path_spec sample_kmem 100 = [98, 47, 99] ∧
    (0 ∉ dentry_path_spec sample_kmem 100 ∧
      (∀ j, read_dentry_path sample_kmem (zeroBytes 48) (zeroBytes 48) 100 (fun _ => 1) 128 j =
        if j ≤ (dentry_path_spec sample_kmem 100).length then
          (dentry_path_spec sample_kmem 100).getD j 0
        else (fun _ => 1) j) ∧
      cstr (fun i : Fin 128 =>
          read_dentry_path sample_kmem (zeroBytes 48) (zeroBytes 48) 100 (fun _ => 1) 128 i.val)
        = dentry_path_spec sample_kmem 100) :=
  ⟨by decide, by decide,
    read_dentry_path_spec sample_kmem (zeroBytes 48) (zeroBytes 48) 100 (fun _ => 1)
      (by decide)⟩

/-! ## C10: every emitted path is NUL-terminated -/

/-- C10. Whatever sequence of file-ops tracer programs runs from the initial
state, in whatever environments, every record appended to the ring buffer
(syscall exit record, kprobe entry record, kprobe exit record) has a NUL among
the 128 bytes of its `path`. -/
theorem path_nul_terminated (tr : List (Env × Handler)) (e : file_event)
    (he : e ∈ (run tr FState.init).events) : ∃ i : Fin 128, e.path i = 0 := by
  have inv := run_invariant
    (fun s => (∀ k ctx, s.syscall_ctx_map k = some ctx → ∃ i : Fin 128, ctx.path i = 0) ∧
      ∀ e ∈ s.events, ∃ i : Fin 128, e.path i = 0)
    (fun _ => True)
    (fun x s _ hP => path_inv_step x.1 x.2 s hP.1 hP.2) tr FState.init
    (fun _ _ => trivial)
    ⟨fun k ctx hk => by simp [FState.init] at hk, fun e he => by simp [FState.init] at he⟩
  exact inv.2 e he

/-- C10, witness: the record of a traced `mkdirat` with a NULL pathname. -/
theorem path_nul_terminated_witness :
    exit_record (sample_env [97] [97] 7 20) 0
        (mkdirat_sctx (sample_env [97] [97] 7 10) zero_args) zero_event
      ∈ (run [(sample_env [97] [97] 7 10, Handler.sys_enter_mkdirat zero_args),
              (sample_env [97] [97] 7 20, Handler.sys_exit_mkdirat 0)] FState.init).events ∧
    ∃ i : Fin 128,
      (exit_record (sample_env [97] [97] 7 20) 0
        (mkdirat_sctx (sample_env [97] [97] 7 10) zero_args) zero_event).path i = 0 :=
  ⟨List.mem_singleton.mpr rfl,
    path_nul_terminated
      [(sample_env [97] [97] 7 10, Handler.sys_enter_mkdirat zero_args),
        (sample_env [97] [97] 7 20, Handler.sys_exit_mkdirat 0)] _
      (List.mem_singleton.mpr rfl)⟩

/-! ## C11: the stack members of an emitted record -/

/-- C11, counterexample. Task 7 completes a `mkdirat`; the ring-buffer slot
reserved for its exit record still holds an old record with a frame address in
`stack[3]`. The emitted record has `stack_size = 0` and `stack[3] = 57005`: a
slot at an index not below `stack_size` is not zero. -/
theorem exit_record_stack_stale :
    ((tp_sys_exit_mkdirat (sample_env_stale [97] [97] 7 20) 0
        (tp_sys_enter_mkdirat (sample_env [97] [97] 7 10) zero_args FState.init)).events.map
          (fun e => (e.stack_size, e.stack 3))) = [(0, 57005)] := by
  decide

/-- C11, amended. For any prior contents of the reserved ring-buffer memory: a
record appended by the `vfs_mkdir` or `vfs_rmdir` kprobe has `stack_size <= 16`
and every slot of its stack array at an index `>= stack_size` is zero, given
that `bpf_get_stack` returns an error or a whole number of frames within its
128-byte buffer; a record appended by a syscall exit tracepoint has
`stack_size = 0` and its stack array is whatever the reserved memory held
before. -/
theorem stack_members (env : Env) (op parm3 : Nat) (ret : Int) (s : FState)
    (e : file_event) (hw : stack_walker_ok env) :
    ((kp_vfs_entry op env parm3 s).events = s.events ++ [e] →
      e.stack_size ≤ 16 ∧ ∀ i : Fin 16, e.stack_size ≤ i.val → e.stack i = 0) ∧
    ((emit_exit_event env ret s).events = s.events ++ [e] →
      e.stack_size = 0 ∧ ∃ e0, env.reserve = some e0 ∧ e.stack = e0.stack) := by
  constructor
  · intro hev
    obtain ⟨e0, _, he⟩ := kp_vfs_entry_appended op env parm3 s e hev
    obtain ⟨hst, hsz⟩ := vfs_entry_record_stack op env parm3 e0
    rw [he, hsz, hst]
    exact ⟨stack_size_le _ hw.1, fun i hi => stack_tail_zero _ _ i hw.1 hw.2 hi⟩
  · intro hev
    obtain ⟨ctx, e0, _, hr, he⟩ := emit_exit_event_appended env ret s e hev
    rw [he]
    exact ⟨rfl, e0, hr, rfl⟩

/-- C11, witness: the entry record of a `vfs_mkdir` by task 7, written over an
old record, when the stack walker finds two frames. -/
theorem stack_members_witness :
    stack_walker_ok (sample_env_stack [97] [97] 7 10) ∧
    (vfs_entry_record 8 (sample_env_stack [97] [97] 7 10) 0 stale_event).stack_size = 2 ∧
    ((kp_vfs_entry 8 (sample_env_stack [97] [97] 7 10) 0 FState.init).events
        = FState.init.events
          ++ [vfs_entry_record 8 (sample_env_stack [97] [97] 7 10) 0 stale_event] →
      (vfs_entry_record 8 (sample_env_stack [97] [97] 7 10) 0 stale_event).stack_size ≤ 16 ∧
      ∀ i : Fin 16,
        (vfs_entry_record 8 (sample_env_stack [97] [97] 7 10) 0 stale_event).stack_size ≤ i.val →
        (vfs_entry_record 8 (sample_env_stack [97] [97] 7 10) 0 stale_event).stack i = 0) ∧
    (kp_vfs_entry 8 (sample_env_stack [97] [97] 7 10) 0 FState.init).events
      = FState.init.events
        ++ [vfs_entry_record 8 (sample_env_stack [97] [97] 7 10) 0 stale_event] :=
  ⟨⟨by decide, fun _ => by decide⟩, by decide,
    (stack_members (sample_env_stack [97] [97] 7 10) 8 0 0 FState.init
      (vfs_entry_record 8 (sample_env_stack [97] [97] 7 10) 0 stale_event)
      ⟨by decide, fun _ => by decide⟩).1,
    rfl⟩

namespace Ovl

/-! ## C12: the predicate gate of the overlay-inuse tracer -/

/-- C12. For every state and every return value `ret` (the `int` the kretprobe
receives): when `ret != 0` the `ovl_inuse_trylock` kretprobe leaves the ring
buffer unchanged, so it appends an event only if `ret == 0`; when `ret == 0`
the `ovl_is_inuse` kretprobe leaves it unchanged, so it appends only if
`ret != 0`; the two entry kprobes and the two mount tracepoints always leave it
unchanged. A kretprobe never appends more than one event. -/
theorem predicate_gate (env : Env) (ret : Int) (dentry : Nat) (args : Fin 6 → Nat) (s : State) :
    (ret ≠ 0 → (kretp_ovl_inuse_trylock env ret s).events = s.events) ∧
    (ret = 0 → (kretp_ovl_is_inuse env ret s).events = s.events) ∧
    ((kretp_ovl_inuse_trylock env ret s).events = s.events ∨
      ∃ e, (kretp_ovl_inuse_trylock env ret s).events = s.events ++ [e]) ∧
    ((kretp_ovl_is_inuse env ret s).events = s.events ∨
      ∃ e, (kretp_ovl_is_inuse env ret s).events = s.events ++ [e]) ∧
    (kp_ovl_inuse_trylock env dentry s).events = s.events ∧
    (kp_ovl_is_inuse env dentry s).events = s.events ∧
    (tp_sys_enter_mount env args s).events = s.events ∧
    (tp_sys_exit_mount env s).events = s.events := by
  have hemit : ∀ d, (emit_inuse_event env env.pid_tgid d s).events = s.events ∨
      ∃ e, (emit_inuse_event env env.pid_tgid d s).events = s.events ++ [e] := by
    intro d
    rw [emit_inuse_event_events]
    by_cases hd : d = 0
    · rw [if_pos hd]; exact Or.inl rfl
    · rw [if_neg hd]
      cases env.reserve with
      | none => exact Or.inl rfl
      | some e0 => exact Or.inr ⟨_, rfl⟩
  refine ⟨?_, ?_, ?_, ?_, rfl, rfl, ?_, rfl⟩
  · intro hr
    rw [kretp_trylock_events, if_pos hr]
  · intro hr
    rw [kretp_is_inuse_events, if_pos hr]
  · rw [kretp_trylock_events]
    by_cases hr : ret ≠ 0
    · rw [if_pos hr]; exact Or.inl rfl
    · rw [if_neg hr]
      cases s.trylock_ctx_map env.pid_tgid with
      | none => exact Or.inl rfl
      | some pctx => exact hemit pctx.dentry_ptr
  · rw [kretp_is_inuse_events]
    by_cases hr : ret = 0
    · rw [if_pos hr]; exact Or.inl rfl
    · rw [if_neg hr]
      cases s.is_inuse_ctx_map env.pid_tgid with
      | none => exact Or.inl rfl
      | some pctx => exact hemit pctx.dentry_ptr
  · unfold tp_sys_enter_mount
    cases env.tmp_mount_args <;> rfl

/-! ## C13: the predicate kretprobes release their context -/

/-- C13. For every return value and every prior state, after the
`ovl_inuse_trylock` kretprobe returns `trylock_ctx_map` has no entry under the
current task's key, and after the `ovl_is_inuse` kretprobe returns
`is_inuse_ctx_map` has none: on the non-conflict path, on the early return of a
failed lookup, and whether or not the record could be reserved. Entries under
other keys are untouched. -/
theorem predicate_ctx_released (env : Env) (ret : Int) (s : State) :
    (kretp_ovl_inuse_trylock env ret s).trylock_ctx_map env.pid_tgid = none ∧
    (kretp_ovl_is_inuse env ret s).is_inuse_ctx_map env.pid_tgid = none ∧
    (∀ k, k ≠ env.pid_tgid →
      (kretp_ovl_inuse_trylock env ret s).trylock_ctx_map k = s.trylock_ctx_map k) ∧
    (∀ k, k ≠ env.pid_tgid →
      (kretp_ovl_is_inuse env ret s).is_inuse_ctx_map k = s.is_inuse_ctx_map k) := by
  rw [kretp_trylock_map, kretp_is_inuse_map]
  exact ⟨delete_lookup_same _ _, delete_lookup_same _ _,
    fun k hk => delete_lookup_other _ _ _ hk, fun k hk => delete_lookup_other _ _ _ hk⟩

/-! ## C14: the mount arguments of an event -/

/-- C14, counterexample. `mount_args_map` is full and holds no entry for task 7.
Task 7 enters `mount("ovl", "/mnt", NULL, 0, "ro")`: the insertion of its
arguments is refused. Within that syscall `ovl_inuse_trylock` is entered on the
dentry at 100 and returns 0; the event is written over an old record whose
`mount_src` is "x". The emitted event's `mount_src` is "x", not "ovl". -/
theorem mount_args_lost_when_full :
    read_spec 255 (sample_user_mem (sample_mount_args 0)) = [111, 118, 108] ∧
    ((kretp_ovl_inuse_trylock (sample_env 7 30 stale_event) 0
        (kp_ovl_inuse_trylock (sample_env 7 20 stale_event) 100
          (tp_sys_enter_mount (sample_env_full 7 10 stale_event) sample_mount_args
            full_state))).events.map (fun e => cstr e.mount_src)) = [[120]] := by
  constructor
  · decide
  · decide

/-- C14, amended. When a task's mount-entry tracepoint stores its arguments (the
scratch slot is available and the insertion into `mount_args_map` is not
refused) and is followed, before the mount-exit tracepoint, by a predicate
kprobe and a conflicting kretprobe of the same task, the event that kretprobe
emits has `mount_src`, `mount_dst` and `mount_data` equal, as NUL-terminated
strings, to the `source` (`args[0]`), `target` (`args[1]`) and `data`
(`args[4]`) strings of that syscall cut after 255, 255 and 511 bytes. Such an
event is emitted when the kprobe stored a non-null dentry and the reservation
succeeds. After the mount-exit tracepoint the task has no entry in
`mount_args_map`. -/
theorem mount_args_roundtrip (env1 env2 env3 env4 : Env) (args : Fin 6 → Nat)
    (d : Nat) (ret : Int) (s s4 : State) (a0 : mount_args) (e : event)
    (hp2 : env2.pid_tgid = env1.pid_tgid) (hp3 : env3.pid_tgid = env1.pid_tgid)
    (htmp : env1.tmp_mount_args = some a0)
    (hnr : refused env1.map_full s.mount_args_map env1.pid_tgid = false) :
    ((kretp_ovl_inuse_trylock env3 ret
        (kp_ovl_inuse_trylock env2 d (tp_sys_enter_mount env1 args s))).events
        = s.events ++ [e] → mount_fields env1 args e) ∧
    ((kretp_ovl_is_inuse env3 ret
        (kp_ovl_is_inuse env2 d (tp_sys_enter_mount env1 args s))).events
        = s.events ++ [e] → mount_fields env1 args e) ∧
    (d ≠ 0 → ret = 0 →
      refused env2.map_full s.trylock_ctx_map env1.pid_tgid = false →
      ∀ e0, env3.reserve = some e0 →
        ∃ e1, (kretp_ovl_inuse_trylock env3 ret
          (kp_ovl_inuse_trylock env2 d (tp_sys_enter_mount env1 args s))).events
          = s.events ++ [e1]) ∧
    (tp_sys_exit_mount env4 s4).mount_args_map env4.pid_tgid = none := by
  have hlook := enter_mount_lookup env1 args s a0 htmp hnr
  obtain ⟨hev0, htl0, hil0⟩ := enter_mount_frame env1 args s
  obtain ⟨f1, f2, f3⟩ := read_mount_args_fields env1 args a0
  refine ⟨?_, ?_, ?_, delete_lookup_same _ _⟩
  · intro hev
    have hev' : (kretp_ovl_inuse_trylock env3 ret
        (kp_ovl_inuse_trylock env2 d (tp_sys_enter_mount env1 args s))).events
        = (kp_ovl_inuse_trylock env2 d (tp_sys_enter_mount env1 args s)).events ++ [e] := by
      rw [hev]; simp only [kp_ovl_inuse_trylock, hev0]
    obtain ⟨_, pctx, e0, _, _, _, he⟩ := kretp_trylock_appended env3 ret _ e hev'
    have hm : (kp_ovl_inuse_trylock env2 d (tp_sys_enter_mount env1 args s)).mount_args_map
        env3.pid_tgid = some (read_mount_args env1 args a0) := by
      rw [hp3]; exact hlook
    rw [hm] at he
    rw [he]
    exact ⟨f1, f2, f3⟩
  · intro hev
    have hev' : (kretp_ovl_is_inuse env3 ret
        (kp_ovl_is_inuse env2 d (tp_sys_enter_mount env1 args s))).events
        = (kp_ovl_is_inuse env2 d (tp_sys_enter_mount env1 args s)).events ++ [e] := by
      rw [hev]; simp only [kp_ovl_is_inuse, hev0]
    obtain ⟨_, pctx, e0, _, _, _, he⟩ := kretp_is_inuse_appended env3 ret _ e hev'
    have hm : (kp_ovl_is_inuse env2 d (tp_sys_enter_mount env1 args s)).mount_args_map
        env3.pid_tgid = some (read_mount_args env1 args a0) := by
      rw [hp3]; exact hlook
    rw [hm] at he
    rw [he]
    exact ⟨f1, f2, f3⟩
  · intro hd hret hnr2 e0 hres
    refine ⟨inuse_record env3 (some (read_mount_args env1 args a0)) env3.pid_tgid d e0, ?_⟩
    rw [kretp_trylock_events, if_neg (by rw [hret]; simp)]
    have hctx : (kp_ovl_inuse_trylock env2 d (tp_sys_enter_mount env1 args s)).trylock_ctx_map
        env3.pid_tgid = some { dentry_ptr := d } := by
      simp only [kp_ovl_inuse_trylock, hp3, hp2, htl0]
      exact update_lookup_same _ _ _ _ hnr2
    rw [hctx]
    simp only [emit_inuse_event_events]
    rw [if_neg hd, hres]
    have hm : (kp_ovl_inuse_trylock env2 d (tp_sys_enter_mount env1 args s)).mount_args_map
        env3.pid_tgid = some (read_mount_args env1 args a0) := by
      rw [hp3]; exact hlook
    simp only [hm]
    simp only [kp_ovl_inuse_trylock, hev0]

/-- C14, witness: task 7 enters `mount("ovl", "/mnt", NULL, 0, "ro")`, the
overlay driver finds the dentry at 100 in use, and the event is written over an
old record. -/
theorem mount_args_roundtrip_witness :
    refused (sample_env 7 10 stale_event).map_full State.init.mount_args_map 7 = false ∧
    read_spec 255 (sample_user_mem (sample_mount_args 0)) = [111, 118, 108] ∧
    read_spec 255 (sample_user_mem (sample_mount_args 1)) = [47, 109, 110, 116] ∧
    read_spec 511 (sample_user_mem (sample_mount_args 4)) = [114, 111] ∧
    mount_fields (sample_env 7 10 stale_event) sample_mount_args
      (inuse_record (sample_env 7 30 stale_event)
        (some (read_mount_args (sample_env 7 10 stale_event) sample_mount_args zero_mount_args))
        7 100 stale_event) :=
  ⟨by decide, by decide, by decide, by decide,
    (mount_args_roundtrip (sample_env 7 10 stale_event) (sample_env 7 20 stale_event)
      (sample_env 7 30 stale_event) (sample_env 7 40 stale_event) sample_mount_args 100 0
      State.init State.init zero_mount_args
      (inuse_record (sample_env 7 30 stale_event)
        (some (read_mount_args (sample_env 7 10 stale_event) sample_mount_args zero_mount_args))
        7 100 stale_event)
      rfl rfl rfl (by decide)).1 rfl⟩

/-! ## C15: an event without stored mount arguments -/

/-- C15, the code at the failing input. For a task that has no entry in
`mount_args_map`, `emit_inuse_event` assigns none of the three mount strings:
they are whatever the reserved ring-buffer memory held. Task 7 calls
`ovl_is_inuse` on the dentry at 100 outside any mount syscall, it returns 1,
and the event is written over an old record with the mount strings "x", "y",
"z": the emitted event carries "x", "y", "z", not empty strings. -/
theorem mount_fields_stale (env : Env) (pid_tgid d : Nat) (e0 : event) :
    ((inuse_record env none pid_tgid d e0).mount_src = e0.mount_src ∧
      (inuse_record env none pid_tgid d e0).mount_dst = e0.mount_dst ∧
      (inuse_record env none pid_tgid d e0).mount_data = e0.mount_data) ∧
    State.init.mount_args_map 7 = none ∧
    ((kretp_ovl_is_inuse (sample_env 7 20 stale_event) 1
        (kp_ovl_is_inuse (sample_env 7 10 stale_event) 100 State.init)).events.map
          (fun e => (cstr e.mount_src, cstr e.mount_dst, cstr e.mount_data)))
      = [([120], [121], [122])] := by
  refine ⟨inuse_record_mount_none env pid_tgid d e0, rfl, ?_⟩
  decide

/-! ## C16: the three name slots of an event -/

/-- C16, counterexample. The dentry at 300 has a non-null parent pointer, 350,
that differs from it, but the parent's name pointer is NULL. The event for the
dentry at 300, written over an old record holding "p" in `dentry_name1`, still
holds "p" there: the slot was not filled although the parent pointer is
non-null and differs from the entry. -/
theorem parent_slot_not_filled :
    (parent_ptr sample_kmem 300 = 350 ∧ (350 : Nat) ≠ 0 ∧ (350 : Nat) ≠ 300) ∧
    name_ptr sample_kmem 350 = 0 ∧
    ((kretp_ovl_is_inuse (sample_env 7 20 stale_event) 1
        (kp_ovl_is_inuse (sample_env 7 10 stale_event) 300 State.init)).events.map
          (fun e => (cstr e.dentry_name0, cstr e.dentry_name1)))
      = [([117], [112])] := by
  refine ⟨⟨?_, ?_, ?_⟩, ?_, ?_⟩ <;> decide

/-- C16, amended. For every non-null dentry `d` whose record can be reserved,
`emit_inuse_event` appends one record and fills `dentry_name0` with `d`'s name
when `d`'s name pointer is non-null; fills `dentry_name1` with the parent's
name exactly when the parent pointer is non-null, differs from `d`, and the
parent's name pointer is non-null; and fills `dentry_name2` with the
grandparent's name exactly when, in addition, the parent's parent pointer is
non-null, differs from the parent, and the grandparent's name pointer is
non-null. A filled slot holds the name cut after 63 bytes and a NUL; a slot
that is not filled keeps the prior contents of the reserved memory. For a root
entry (its own parent) neither ancestor slot is written. -/
theorem dentry_names (env : Env) (pid_tgid d : Nat) (s : State) (e0 : event)
    (hd : d ≠ 0) (hr : env.reserve = some e0) :
    (emit_inuse_event env pid_tgid d s).events
      = s.events ++ [inuse_record env (s.mount_args_map pid_tgid) pid_tgid d e0] ∧
    (name_ptr env.kmem d ≠ 0 →
      holds_str (inuse_record env (s.mount_args_map pid_tgid) pid_tgid d e0).dentry_name0
        (name63 env.kmem d)) ∧
    (name_ptr env.kmem d = 0 →
      (inuse_record env (s.mount_args_map pid_tgid) pid_tgid d e0).dentry_name0
        = e0.dentry_name0) ∧
    (has_parent env.kmem d → name_ptr env.kmem (parent_ptr env.kmem d) ≠ 0 →
      holds_str (inuse_record env (s.mount_args_map pid_tgid) pid_tgid d e0).dentry_name1
        (name63 env.kmem (parent_ptr env.kmem d))) ∧
    (¬ (has_parent env.kmem d ∧ name_ptr env.kmem (parent_ptr env.kmem d) ≠ 0) →
      (inuse_record env (s.mount_args_map pid_tgid) pid_tgid d e0).dentry_name1
        = e0.dentry_name1) ∧
    (has_parent env.kmem d → has_parent env.kmem (parent_ptr env.kmem d) →
      name_ptr env.kmem (parent_ptr env.kmem (parent_ptr env.kmem d)) ≠ 0 →
      holds_str (inuse_record env (s.mount_args_map pid_tgid) pid_tgid d e0).dentry_name2
        (name63 env.kmem (parent_ptr env.kmem (parent_ptr env.kmem d)))) ∧
    (¬ (has_parent env.kmem d ∧ has_parent env.kmem (parent_ptr env.kmem d) ∧
        name_ptr env.kmem (parent_ptr env.kmem (parent_ptr env.kmem d)) ≠ 0) →
      (inuse_record env (s.mount_args_map pid_tgid) pid_tgid d e0).dentry_name2
        = e0.dentry_name2) ∧
    (parent_ptr env.kmem d = d →
      (inuse_record env (s.mount_args_map pid_tgid) pid_tgid d e0).dentry_name1
          = e0.dentry_name1 ∧
      (inuse_record env (s.mount_args_map pid_tgid) pid_tgid d e0).dentry_name2
          = e0.dentry_name2) := by
  obtain ⟨a1, a2⟩ := inuse_record_name0 env (s.mount_args_map pid_tgid) pid_tgid d e0
  obtain ⟨b1, b2⟩ := inuse_record_name1 env (s.mount_args_map pid_tgid) pid_tgid d e0
  obtain ⟨c1, c2⟩ := inuse_record_name2 env (s.mount_args_map pid_tgid) pid_tgid d e0
  refine ⟨?_, ?_, a2, ?_, b2, ?_, c2, ?_⟩
  · rw [emit_inuse_event_events, if_neg hd, hr]
  · intro h
    rw [a1 h]
    exact holds_str_probe_read e0.dentry_name0 _ (by omega)
  · intro h1 h2
    rw [b1 h1 h2]
    exact holds_str_probe_read e0.dentry_name1 _ (by omega)
  · intro h1 h2 h3
    rw [c1 h1 h2 h3]
    exact holds_str_probe_read e0.dentry_name2 _ (by omega)
  · intro hroot
    have hnp : ¬ has_parent env.kmem d := fun h => h.2 hroot
    exact ⟨b2 (fun h => hnp h.1), c2 (fun h => hnp h.1)⟩

/-- C16, witness: the dentry "w" at 700 with parent "v" and grandparent "t"; the
three slots hold "w", "v" and "t". -/
theorem dentry_names_witness :
    ((700 : Nat) ≠ 0 ∧ (sample_env 7 20 stale_event).reserve = some stale_event) ∧
    (name63 sample_kmem 700 = [119] ∧
      name63 sample_kmem (parent_ptr sample_kmem 700) = [118] ∧
      name63 sample_kmem (parent_ptr sample_kmem (parent_ptr sample_kmem 700)) = [116]) ∧
    (emit_inuse_event (sample_env 7 20 stale_event) 7 700 State.init).events
      = State.init.events
        ++ [inuse_record (sample_env 7 20 stale_event) (State.init.mount_args_map 7) 7 700
              stale_event] ∧
    holds_str
      (inuse_record (sample_env 7 20 stale_event) (State.init.mount_args_map 7) 7 700
        stale_event).dentry_name0 (name63 sample_kmem 700) ∧
    holds_str
      (inuse_record (sample_env 7 20 stale_event) (State.init.mount_args_map 7) 7 700
        stale_event).dentry_name1 (name63 sample_kmem (parent_ptr sample_kmem 700)) ∧
    holds_str
      (inuse_record (sample_env 7 20 stale_event) (State.init.mount_args_map 7) 7 700
        stale_event).dentry_name2
      (name63 sample_kmem (parent_ptr sample_kmem (parent_ptr sample_kmem 700))) :=
  have h := dentry_names (sample_env 7 20 stale_event) 7 700 State.init stale_event
    (by decide) rfl
  ⟨⟨by decide, rfl⟩, ⟨by decide, by decide, by decide⟩, h.1, h.2.1 (by decide),
    h.2.2.2.1 ⟨by decide, by decide⟩ (by decide),
    h.2.2.2.2.2.1 ⟨by decide, by decide⟩ ⟨by decide, by decide⟩ (by decide)⟩

/-! ## C17: the two predicates keep separate maps -/

/-- C17. The `ovl_is_inuse` kprobe and kretprobe leave `trylock_ctx_map` as it
is and behave the same whatever it holds; the `ovl_inuse_trylock` kprobe and
kretprobe leave `is_inuse_ctx_map` as it is and behave the same whatever it
holds. Consequently, after a task's trylock-entry on `d1`, an is_inuse-entry
on `d2` and an is_inuse-exit (by that task or any other), the task's
trylock-exit with `ret = 0` emits its event for
`d1`, the dentry recorded at trylock entry (recorded unless the insertion was
refused; emitted when `d1` is non-null and the reservation succeeds), never for
`d2`. -/
theorem predicate_maps_separate (env1 env2 env3 env4 : Env) (d1 d2 : Nat) (ret3 : Int)
    (s : State) (m : BpfHash probe_ctx)
    (hp4 : env4.pid_tgid = env1.pid_tgid) :
    ((kp_ovl_is_inuse env2 d2 s).trylock_ctx_map = s.trylock_ctx_map ∧
      (kretp_ovl_is_inuse env3 ret3 s).trylock_ctx_map = s.trylock_ctx_map ∧
      (kp_ovl_inuse_trylock env1 d1 s).is_inuse_ctx_map = s.is_inuse_ctx_map ∧
      (kretp_ovl_inuse_trylock env4 ret3 s).is_inuse_ctx_map = s.is_inuse_ctx_map) ∧
    (kp_ovl_is_inuse env2 d2 { s with trylock_ctx_map := m }
        = { kp_ovl_is_inuse env2 d2 s with trylock_ctx_map := m } ∧
      kretp_ovl_is_inuse env3 ret3 { s with trylock_ctx_map := m }
        = { kretp_ovl_is_inuse env3 ret3 s with trylock_ctx_map := m } ∧
      kp_ovl_inuse_trylock env1 d1 { s with is_inuse_ctx_map := m }
        = { kp_ovl_inuse_trylock env1 d1 s with is_inuse_ctx_map := m } ∧
      kretp_ovl_inuse_trylock env4 ret3 { s with is_inuse_ctx_map := m }
        = { kretp_ovl_inuse_trylock env4 ret3 s with is_inuse_ctx_map := m }) ∧
    (kretp_ovl_inuse_trylock env4 0
        (kretp_ovl_is_inuse env3 ret3
          (kp_ovl_is_inuse env2 d2 (kp_ovl_inuse_trylock env1 d1 s)))).events
      = (kretp_ovl_is_inuse env3 ret3
          (kp_ovl_is_inuse env2 d2 (kp_ovl_inuse_trylock env1 d1 s))).events
        ++ (if refused env1.map_full s.trylock_ctx_map env1.pid_tgid = true ∨ d1 = 0 then []
            else
              match env4.reserve with
              | none => []
              | some e0 =>
                [inuse_record env4 (s.mount_args_map env1.pid_tgid) env1.pid_tgid d1 e0]) := by
  refine ⟨⟨rfl, (kretp_is_inuse_frame env3 ret3 s).1, rfl, (kretp_trylock_frame env4 ret3 s).1⟩,
    ⟨rfl, kretp_is_inuse_indep env3 ret3 s m, rfl, kretp_trylock_indep env4 ret3 s m⟩, ?_⟩
  have ht : (kretp_ovl_is_inuse env3 ret3
      (kp_ovl_is_inuse env2 d2 (kp_ovl_inuse_trylock env1 d1 s))).trylock_ctx_map
      = bpf_map_update_elem env1.map_full s.trylock_ctx_map env1.pid_tgid
          { dentry_ptr := d1 } := by
    rw [(kretp_is_inuse_frame env3 ret3 _).1]
    rfl
  have hm : (kretp_ovl_is_inuse env3 ret3
      (kp_ovl_is_inuse env2 d2 (kp_ovl_inuse_trylock env1 d1 s))).mount_args_map
      = s.mount_args_map := by
    rw [(kretp_is_inuse_frame env3 ret3 _).2]
    rfl
  rw [kretp_trylock_conflict, ht, hm, hp4]
  by_cases href : refused env1.map_full s.trylock_ctx_map env1.pid_tgid = true
  · rw [update_refused _ _ _ _ href, refused_lookup _ _ _ href, if_pos (Or.inl href)]
    simp
  · rw [update_lookup_same _ _ _ _ (by simpa using href)]
    simp only []
    by_cases hd : d1 = 0
    · rw [if_pos hd, if_pos (Or.inr hd)]; simp
    · rw [if_neg hd, if_neg (by
        intro h
        rcases h with h | h
        · exact href h
        · exact hd h)]
      cases env4.reserve with
      | none => simp
      | some e0 => rfl

/-- C17, witness: task 7 enters `ovl_inuse_trylock` on the dentry "c" (at 100),
then `ovl_is_inuse` on the dentry "w" (at 700), which returns 0, and
`ovl_inuse_trylock` returns 0: one event is emitted, for "c". -/
theorem predicate_maps_separate_witness :
    ((kretp_ovl_inuse_trylock (sample_env 7 40 zero_event) 0
        (kretp_ovl_is_inuse (sample_env 7 30 zero_event) 0
          (kp_ovl_is_inuse (sample_env 7 20 zero_event) 700
            (kp_ovl_inuse_trylock (sample_env 7 10 zero_event) 100 State.init)))).events.map
        (fun e => cstr e.dentry_name0)) = [[99]] ∧
    (kretp_ovl_inuse_trylock (sample_env 7 40 zero_event) 0
        (kretp_ovl_is_inuse (sample_env 7 30 zero_event) 0
          (kp_ovl_is_inuse (sample_env 7 20 zero_event) 700
            (kp_ovl_inuse_trylock (sample_env 7 10 zero_event) 100 State.init)))).events
      = (kretp_ovl_is_inuse (sample_env 7 30 zero_event) 0
          (kp_ovl_is_inuse (sample_env 7 20 zero_event) 700
            (kp_ovl_inuse_trylock (sample_env 7 10 zero_event) 100 State.init))).events
        ++ (if refused (sample_env 7 10 zero_event).map_full State.init.trylock_ctx_map
              (sample_env 7 10 zero_event).pid_tgid = true ∨ (100 : Nat) = 0 then []
            else
              match (sample_env 7 40 zero_event).reserve with
              | none => []
              | some e0 =>
                [inuse_record (sample_env 7 40 zero_event)
                  (State.init.mount_args_map (sample_env 7 10 zero_event).pid_tgid)
                  (sample_env 7 10 zero_event).pid_tgid 100 e0]) :=
  ⟨by decide,
    (predicate_maps_separate (sample_env 7 10 zero_event) (sample_env 7 20 zero_event)
      (sample_env 7 30 zero_event) (sample_env 7 40 zero_event) 100 700 0 State.init
      (fun _ => none) rfl).2.2⟩

end Ovl

/-! ## C18: the exit status of the mount-injection helper -/

/-- C18, counterexample. (a) The target does not exist and `mkdir` fails with
`EACCES`, which is not "already exists"; every other call succeeds. `main`
writes "mkdir failed" and returns 0. (b) `umount2` fails with `EPERM`, which is
neither "not mounted" nor "invalid"; every other call succeeds. `main` writes
"umount2 failed" and returns 0. -/
theorem mkdir_failure_exits_zero :
    (mkdir_denied.mkdir < 0 ∧ mkdir_denied.mkdir_errno ≠ EEXIST ∧
      main mkdir_denied = (0, [Diag.mkdir_failed])) ∧
    (umount_denied.umount2 < 0 ∧ umount_denied.umount2_errno ≠ EINVAL ∧
      umount_denied.umount2_errno ≠ ENOENT ∧
      main umount_denied = (0, [Diag.umount2_failed])) := by
  decide

/-- C18, amended. For every combination of outcomes `main` exits with status 1
exactly when the argument count is not 4, the pid is not positive, or one of
`open_tree`, the `open` of the mount namespace, `setns`, `move_mount` fails, and
with status 0 otherwise; whenever it exits with 1 it has written a message. A
failure of `mkdir` (tried only when `stat` fails with `ENOENT`) or of `umount2`
never changes the exit status: when the error is not a benign one (`EEXIST`;
`EINVAL`, `ENOENT`) the helper writes a message and goes on. -/
theorem helper_exit_status (o : Outcomes) :
    ((main o).1 =
        if o.argc ≠ 4 ∨ o.container_pid ≤ 0 ∨ o.open_tree < 0 ∨ o.open_ns < 0 ∨
            o.setns < 0 ∨ o.move_mount < 0 then 1 else 0) ∧
    ((main o).1 = 1 → (main o).2 ≠ []) ∧
    (o.argc = 4 → 0 < o.container_pid → 0 ≤ o.open_tree → 0 ≤ o.open_ns → 0 ≤ o.setns →
      (Diag.mkdir_failed ∈ (main o).2 ↔
        (o.stat < 0 ∧ o.stat_errno = ENOENT ∧ o.mkdir < 0 ∧ o.mkdir_errno ≠ EEXIST)) ∧
      (Diag.umount2_failed ∈ (main o).2 ↔
        (o.umount2 < 0 ∧ o.umount2_errno ≠ EINVAL ∧ o.umount2_errno ≠ ENOENT))) := by
  refine ⟨?_, ?_, ?_⟩
  · unfold main
    by_cases h1 : o.argc ≠ 4
    · simp [h1]
    by_cases h2 : o.container_pid ≤ 0
    · simp [h1, h2]
    by_cases h3 : o.open_tree < 0
    · simp [h1, h2, h3]
    by_cases h4 : o.open_ns < 0
    · simp [h1, h2, h3, h4]
    by_cases h5 : o.setns < 0
    · simp [h1, h2, h3, h4, h5]
    by_cases h6 : o.move_mount < 0
    · simp [h1, h2, h3, h4, h5, h6]
    · simp [h1, h2, h3, h4, h5, h6]
  · unfold main
    by_cases h1 : o.argc ≠ 4
    · simp [h1]
    by_cases h2 : o.container_pid ≤ 0
    · simp [h1, h2]
    by_cases h3 : o.open_tree < 0
    · simp [h1, h2, h3]
    by_cases h4 : o.open_ns < 0
    · simp [h1, h2, h3, h4]
    by_cases h5 : o.setns < 0
    · simp [h1, h2, h3, h4, h5]
    by_cases h6 : o.move_mount < 0
    · simp [h1, h2, h3, h4, h5, h6]
    · simp [h1, h2, h3, h4, h5, h6]
  · intro h1 h2 h3 h4 h5
    have hmsgs : (Diag.mkdir_failed ∈ (main o).2 ↔ Diag.mkdir_failed ∈ step_mkdir o) ∧
        (Diag.umount2_failed ∈ (main o).2 ↔ Diag.umount2_failed ∈ step_umount o) := by
      have hm : Diag.mkdir_failed ∉ step_umount o := by
        unfold step_umount
        split_ifs <;> simp
      have hu : Diag.umount2_failed ∉ step_mkdir o := by
        unfold step_mkdir
        split_ifs <;> simp
      unfold main
      rw [if_neg (by simpa using h1), if_neg (by omega), if_neg (by omega), if_neg (by omega),
        if_neg (by omega)]
      by_cases h6 : o.move_mount < 0
      · simp [h6, hm, hu]
      · simp [h6, hm, hu]
    rw [hmsgs.1, hmsgs.2]
    constructor
    · unfold step_mkdir
      split_ifs <;> simp_all
    · unfold step_umount
      split_ifs with a b
      · simp only [List.mem_singleton, true_iff]
        exact ⟨a, b.1, b.2⟩
      · simp only [List.not_mem_nil, false_iff]
        exact fun h => b ⟨h.2.1, h.2.2⟩
      · simp only [List.not_mem_nil, false_iff]
        exact fun h => a h.1

/-- C18, witness: with `mkdir` failing on `EACCES` the status is 0 although the
message "mkdir failed" was written; with every call succeeding it is 0 and
nothing is written. -/
theorem helper_exit_status_witness :
    (0 ≤ mkdir_denied.open_tree ∧ Diag.mkdir_failed ∈ (main mkdir_denied).2 ∧
      (main mkdir_denied).1 = 0) ∧
    main all_ok = (0, []) ∧
    (Diag.mkdir_failed ∈ (main mkdir_denied).2 ↔
        (mkdir_denied.stat < 0 ∧ mkdir_denied.stat_errno = ENOENT ∧ mkdir_denied.mkdir < 0 ∧
          mkdir_denied.mkdir_errno ≠ EEXIST)) :=
  ⟨by decide, by decide,
    ((helper_exit_status mkdir_denied).2.2 (by decide) (by decide) (by decide) (by decide)
      (by decide)).1⟩

/-! ## C19: an entry whose context insertion fails -/

/-- C19, counterexample. With `kprobe_ctx_map` full and no entry for task 7, the
`vfs_rmdir` kprobe cannot store its context, yet it appends its entry record to
the ring buffer. -/
theorem vfs_entry_emitted_when_refused :
    refused (sample_env_full [97] [97] 7 10).map_full full_state.kprobe_ctx_map
        (kprobe_key 7 OP_VFS_RMDIR) = true ∧
    ((kp_vfs_rmdir (sample_env_full [97] [97] 7 10) 0 full_state).events.map
        (fun e => (e.op, e.flags))) = full_state.events.map (fun e => (e.op, e.flags)) ++ [(9, 1)]
    := by
  constructor
  · decide
  · decide

/-- C19, amended. When the map is full and holds no entry under the task's key,
so that the context insertion is refused: each of the five syscall enter
tracepoints and the `ovl_workdir_create` / `ovl_workdir_cleanup` kprobes leaves
the whole state unchanged, the matching exit handler finds no context and also
changes nothing, and the operation produces no record at all. The `vfs_mkdir`
and `vfs_rmdir` kprobes emit their entry record before and independently of the
insertion, so they still append it (task traced, reservation succeeding); the
matching kretprobe finds no context and appends nothing. -/
theorem insertion_refused (env1 env2 : Env) (args : Fin 6 → Nat) (ret : Int)
    (rc parm3 : Nat) (s : FState) (hp : env2.pid_tgid = env1.pid_tgid)
    (hfull : env1.map_full = true) :
    (∀ c : Syscall, s.syscall_ctx_map env1.pid_tgid = none →
      sys_enter c env1 args s = s ∧ sys_exit c env2 ret (sys_enter c env1 args s) = s) ∧
    (s.kprobe_ctx_map (kprobe_key env1.pid_tgid OP_OVL_WORKDIR_CREATE) = none →
      kp_ovl_workdir_create env1 s = s ∧
      kretp_ovl_workdir_create env2 rc (kp_ovl_workdir_create env1 s) = s) ∧
    (s.kprobe_ctx_map (kprobe_key env1.pid_tgid OP_OVL_WORKDIR_CLEANUP) = none →
      kp_ovl_workdir_cleanup env1 s = s ∧
      kretp_ovl_workdir_cleanup env2 rc (kp_ovl_workdir_cleanup env1 s) = s) ∧
    (s.kprobe_ctx_map (kprobe_key env1.pid_tgid OP_VFS_MKDIR) = none →
      (kp_vfs_mkdir env1 parm3 s).events =
        (if should_trace env1.target_comm env1.comm = 0 then s.events
          else
            match env1.reserve with
            | none => s.events
            | some e0 => s.events ++ [vfs_entry_record OP_VFS_MKDIR env1 parm3 e0]) ∧
      kretp_vfs_mkdir env2 rc (kp_vfs_mkdir env1 parm3 s) = kp_vfs_mkdir env1 parm3 s) ∧
    (s.kprobe_ctx_map (kprobe_key env1.pid_tgid OP_VFS_RMDIR) = none →
      (kp_vfs_rmdir env1 parm3 s).events =
        (if should_trace env1.target_comm env1.comm = 0 then s.events
          else
            match env1.reserve with
            | none => s.events
            | some e0 => s.events ++ [vfs_entry_record OP_VFS_RMDIR env1 parm3 e0]) ∧
      kretp_vfs_rmdir env2 rc (kp_vfs_rmdir env1 parm3 s) = kp_vfs_rmdir env1 parm3 s) := by
  refine ⟨?_, ?_, ?_, ?_, ?_⟩
  · intro c habs
    exact sys_refused_unobserved c env1 env2 args ret s hp hfull habs
  · intro habs
    exact ksave_refused_unobserved env1 env2 OP_OVL_WORKDIR_CREATE _ s hp hfull habs
  · intro habs
    exact ksave_refused_unobserved env1 env2 OP_OVL_WORKDIR_CLEANUP _ s hp hfull habs
  · intro habs
    exact vfs_refused_entry_only OP_VFS_MKDIR env1 env2 parm3 _ s hp hfull habs
  · intro habs
    exact vfs_refused_entry_only OP_VFS_RMDIR env1 env2 parm3 _ s hp hfull habs

/-- C19, witness: task 7 enters and leaves `mkdirat` while `syscall_ctx_map` is
full; the state is unchanged. -/
theorem insertion_refused_witness :
    (sample_env [97] [97] 7 20).pid_tgid = (sample_env_full [97] [97] 7 10).pid_tgid ∧
    (sample_env_full [97] [97] 7 10).map_full = true ∧
    full_state.syscall_ctx_map (sample_env_full [97] [97] 7 10).pid_tgid = none ∧
    sys_enter .mkdirat (sample_env_full [97] [97] 7 10) zero_args full_state = full_state ∧
    sys_exit .mkdirat (sample_env [97] [97] 7 20) 0
      (sys_enter .mkdirat (sample_env_full [97] [97] 7 10) zero_args full_state) = full_state :=
  ⟨rfl, rfl, rfl,
    (insertion_refused (sample_env_full [97] [97] 7 10) (sample_env [97] [97] 7 20) zero_args 0
      0 0 full_state rfl rfl).1 .mkdirat rfl⟩

/-! ## C20: an empty filter from the start -/

/-- C20. Starting from empty correlation maps and an empty ring buffer, after
every sequence of file-ops tracer program invocations during which the filter
is empty (`target_comm[0] == 0`, or its lookup fails) at every invocation, the
ring buffer is still empty and both correlation maps are still empty: the state
is the initial state. -/
theorem empty_filter_run (tr : List (Env × Handler))
    (hempty : ∀ x ∈ tr, filter_empty x.1) :
    run tr FState.init = FState.init ∧
    (run tr FState.init).events = [] ∧
    (∀ k, (run tr FState.init).syscall_ctx_map k = none) ∧
    (∀ k, (run tr FState.init).kprobe_ctx_map k = none) := by
  have inv := run_invariant (fun s => s = FState.init) (fun x => filter_empty x.1)
    (fun x s hg hi => by
      rw [hi]
      exact step_idle x.1 x.2 FState.init hg (fun _ => rfl) (fun _ => rfl))
    tr FState.init hempty rfl
  rw [inv]
  exact ⟨rfl, rfl, fun _ => rfl, fun _ => rfl⟩

/-- C20, witness: with an empty filter, task 7 (named "mkdir") enters `mkdirat`,
calls `vfs_mkdir`, returns from it and leaves the syscall. -/
theorem empty_filter_run_witness :
    (∀ x ∈ [(sample_env [] [109] 7 10, Handler.sys_enter_mkdirat zero_args),
            (sample_env [] [109] 7 11, Handler.vfs_mkdir 0),
            (sample_env [] [109] 7 12, Handler.vfs_mkdir_ret 0),
            (sample_env [] [109] 7 13, Handler.sys_exit_mkdirat 0)],
      filter_empty x.1) ∧
    run [(sample_env [] [109] 7 10, Handler.sys_enter_mkdirat zero_args),
         (sample_env [] [109] 7 11, Handler.vfs_mkdir 0),
         (sample_env [] [109] 7 12, Handler.vfs_mkdir_ret 0),
         (sample_env [] [109] 7 13, Handler.sys_exit_mkdirat 0)] FState.init
      = FState.init :=
  have hs : ∀ x ∈ [(sample_env [] [109] 7 10, Handler.sys_enter_mkdirat zero_args),
      (sample_env [] [109] 7 11, Handler.vfs_mkdir 0),
      (sample_env [] [109] 7 12, Handler.vfs_mkdir_ret 0),
      (sample_env [] [109] 7 13, Handler.sys_exit_mkdirat 0)], filter_empty x.1 := by
    intro x hx t ht
    simp only [List.mem_cons, List.mem_singleton, List.not_mem_nil, or_false] at hx
    rcases hx with rfl | rfl | rfl | rfl <;>
      (have : t = bytes16 [] := (Option.some.inj ht).symm
       rw [this]; rfl)
  ⟨hs, (empty_filter_run _ hs).1⟩

/-! ## C21: the timestamp and the duration of an exit record -/

/-- C21. Every record `e` an exit program appends (through `emit_exit_event` or
`emit_kprobe_exit_event`) has `timestamp_ns` equal to the clock value read by
that invocation and `duration_ns` equal to that clock value minus the
`start_ns` stored under the program's key, modulo `2 ^ 64`; this is the exact
difference when the clock (a `__u64`) has not gone below `start_ns`. The
stored `start_ns` is the clock value of the most recent entry program for the
same key: when the state is the result of an entry program for that key, run by
a task that passes the filter, followed by any invocations none of which is an
entry program for that key, the duration is measured from that entry's clock
value. -/
theorem exit_timing (env : Env) (hx : Handler) (k : CtxKey) (s : FState) (e : file_event)
    (hxk : exit_key env hx = some k)
    (hev : (step env hx s).events = s.events ++ [e]) :
    e.timestamp_ns = env.ktime ∧
    (∃ t, start_at s k = some t ∧
      e.duration_ns = u64_sub env.ktime t ∧
      (e.duration_ns : Int) = ((env.ktime : Int) - (t : Int)) % 2 ^ 64 ∧
      (t ≤ env.ktime → env.ktime < 2 ^ 64 → e.duration_ns = env.ktime - t)) ∧
    (∀ (env1 : Env) (h : Handler) (s0 : FState) (tr : List (Env × Handler)),
      entry_key env1 h = some k →
      should_trace env1.target_comm env1.comm ≠ 0 →
      (∀ x ∈ tr, entry_key x.1 x.2 ≠ some k) →
      s = run tr (step env1 h s0) →
      e.duration_ns = u64_sub env.ktime env1.ktime ∧
      (env1.ktime ≤ env.ktime → env.ktime < 2 ^ 64 →
        e.duration_ns = env.ktime - env1.ktime)) := by
  obtain ⟨t, ht, hts, hdur⟩ := exit_step_appended env hx k s e hxk hev
  refine ⟨hts, ⟨t, ht, hdur, ?_, ?_⟩, ?_⟩
  · rw [hdur]; exact u64_sub_int _ _
  · intro h1 h2
    rw [hdur]; exact u64_sub_exact _ _ h1 h2
  · intro env1 h s0 tr hk hpass hrecent hs
    rw [hs] at ht
    have h1 := start_at_run tr k t _ hrecent ht
    have h2 := start_at_entry env1 h s0 k t hk hpass h1
    rw [h2] at hdur
    refine ⟨hdur, ?_⟩
    intro h3 h4
    rw [hdur]; exact u64_sub_exact _ _ h3 h4

/-- C21, witness: task 7 enters `mkdirat` at clock 10, calls `vfs_mkdir` at clock
12, which returns at clock 20, and leaves the syscall at clock 25: the record of
the syscall exit has timestamp 25 and duration 15. -/
theorem exit_timing_witness :
    exit_key (sample_env [97] [97] 7 25) (Handler.sys_exit_mkdirat 0) = some (Sum.inl 7) ∧
    (exit_record (sample_env [97] [97] 7 25) 0
        (mkdirat_sctx (sample_env [97] [97] 7 10) zero_args) zero_event).timestamp_ns = 25 ∧
    ((exit_record (sample_env [97] [97] 7 25) 0
        (mkdirat_sctx (sample_env [97] [97] 7 10) zero_args) zero_event).duration_ns
      = u64_sub (sample_env [97] [97] 7 25).ktime (sample_env [97] [97] 7 10).ktime ∧
      ((sample_env [97] [97] 7 10).ktime ≤ (sample_env [97] [97] 7 25).ktime →
        (sample_env [97] [97] 7 25).ktime < 2 ^ 64 →
        (exit_record (sample_env [97] [97] 7 25) 0
          (mkdirat_sctx (sample_env [97] [97] 7 10) zero_args) zero_event).duration_ns
        = (sample_env [97] [97] 7 25).ktime - (sample_env [97] [97] 7 10).ktime)) :=
  ⟨rfl, rfl,
    (exit_timing (sample_env [97] [97] 7 25) (Handler.sys_exit_mkdirat 0) (Sum.inl 7)
      (run [(sample_env [97] [97] 7 12, Handler.vfs_mkdir 0),
            (sample_env [97] [97] 7 20, Handler.vfs_mkdir_ret 0)]
        (step (sample_env [97] [97] 7 10) (Handler.sys_enter_mkdirat zero_args) FState.init))
      (exit_record (sample_env [97] [97] 7 25) 0
        (mkdirat_sctx (sample_env [97] [97] 7 10) zero_args) zero_event)
      rfl rfl).2.2
      (sample_env [97] [97] 7 10) (Handler.sys_enter_mkdirat zero_args) FState.init
      [(sample_env [97] [97] 7 12, Handler.vfs_mkdir 0),
       (sample_env [97] [97] 7 20, Handler.vfs_mkdir_ret 0)]
      rfl (by decide) (by simp [entry_key]) rfl⟩

/-! ## C22: `stack_size` from the return value of the stack walker -/

/-- C22. In a record appended by the `vfs_mkdir` or the `vfs_rmdir` kprobe, for
every value `r` the stack walker returns (`bpf_get_stack` on the 128-byte frame
array returns at most 128; anything below `2 ^ 35` is covered here),
`stack_size` equals `r / 8` when `r > 0` and 0 when `r <= 0`; hence
`stack_size <= 16` for every `r <= 128`, and a negative `r` yields
`stack_size = 0`. -/
theorem stack_size_of_walker (env : Env) (parm3 : Nat) (s : FState) (e : file_event)
    (hr : env.stack_ret < 2 ^ 35)
    (hev : (kp_vfs_mkdir env parm3 s).events = s.events ++ [e] ∨
      (kp_vfs_rmdir env parm3 s).events = s.events ++ [e]) :
    (0 < env.stack_ret → (e.stack_size : Int) = env.stack_ret / 8) ∧
    (env.stack_ret ≤ 0 → e.stack_size = 0) ∧
    (env.stack_ret ≤ 128 → e.stack_size ≤ 16) ∧
    (env.stack_ret < 0 → e.stack_size = 0) := by
  have hsz : e.stack_size =
      if env.stack_ret > 0 then (env.stack_ret / 8).toNat % 2 ^ 32 else 0 := by
    rcases hev with h | h
    · obtain ⟨e0, _, he⟩ := kp_vfs_entry_appended OP_VFS_MKDIR env parm3 s e h
      rw [he]; exact (vfs_entry_record_stack OP_VFS_MKDIR env parm3 e0).2
    · obtain ⟨e0, _, he⟩ := kp_vfs_entry_appended OP_VFS_RMDIR env parm3 s e h
      rw [he]; exact (vfs_entry_record_stack OP_VFS_RMDIR env parm3 e0).2
  refine ⟨?_, ?_, ?_, ?_⟩
  · intro hpos
    rw [hsz, if_pos hpos]
    have hlt : (env.stack_ret / 8).toNat < 2 ^ 32 := by omega
    rw [Nat.mod_eq_of_lt hlt]
    omega
  · intro hle
    rw [hsz, if_neg (by omega)]
  · intro hle
    rw [hsz]
    exact stack_size_le _ hle
  · intro hneg
    rw [hsz, if_neg (by omega)]

/-- C22, witness: the stack walker returns 16 bytes, two frames, for the
`vfs_mkdir` of task 7. -/
theorem stack_size_of_walker_witness :
    (sample_env_stack [97] [97] 7 10).stack_ret < 2 ^ 35 ∧
    (kp_vfs_mkdir (sample_env_stack [97] [97] 7 10) 0 FState.init).events
      = FState.init.events
        ++ [vfs_entry_record OP_VFS_MKDIR (sample_env_stack [97] [97] 7 10) 0 stale_event] ∧
    (vfs_entry_record OP_VFS_MKDIR (sample_env_stack [97] [97] 7 10) 0 stale_event).stack_size
      = 2 ∧
    ((sample_env_stack [97] [97] 7 10).stack_ret ≤ 128 →
      (vfs_entry_record OP_VFS_MKDIR (sample_env_stack [97] [97] 7 10) 0
        stale_event).stack_size ≤ 16) :=
  ⟨by decide, rfl, by decide,
    (stack_size_of_walker (sample_env_stack [97] [97] 7 10) 0 FState.init
      (vfs_entry_record OP_VFS_MKDIR (sample_env_stack [97] [97] 7 10) 0 stale_event)
      (by decide) (Or.inl rfl)).2.2.1⟩

/-! ## C23: the records of `ovl_workdir_create` and `ovl_workdir_cleanup` -/

/-- C24, counterexample. (a) Task 7, which passes the filter, enters
`vfs_mkdir` while the ring buffer has no room: the kprobe stores its context
but appends no entry record. (b) With `kprobe_ctx_map` full and no entry for
task 7, two `vfs_mkdir` kprobes of task 7 leave no context under its key, and
the kretprobe that follows appends no exit record: the ring buffer holds the
two entry records only. -/
theorem entry_record_absent :
    (should_trace (sample_env_noslot [97] [97] 7 10).target_comm
        (sample_env_noslot [97] [97] 7 10).comm = 1 ∧
      (kp_vfs_mkdir (sample_env_noslot [97] [97] 7 10) 0 FState.init).events.length = 0 ∧
      ((kp_vfs_mkdir (sample_env_noslot [97] [97] 7 10) 0 FState.init).kprobe_ctx_map
        (kprobe_key 7 OP_VFS_MKDIR)).isSome = true) ∧
    (((kp_vfs_mkdir (sample_env_full [97] [97] 7 20) 0
        (kp_vfs_mkdir (sample_env_full [97] [97] 7 10) 0 full_state)).kprobe_ctx_map
          (kprobe_key 7 OP_VFS_MKDIR)).isSome = false ∧
      ((kretp_vfs_mkdir (sample_env [97] [97] 7 30) 0
        (kp_vfs_mkdir (sample_env_full [97] [97] 7 20) 0
          (kp_vfs_mkdir (sample_env_full [97] [97] 7 10) 0 full_state))).events.map
            file_event.flags) = [1, 1]) := by
  refine ⟨⟨?_, ?_, ?_⟩, ?_, ?_⟩ <;> decide

/-- C24, amended. A traced task's `vfs_mkdir` kprobe fires and its kretprobe
never does: the kprobe appends the entry record when its ring-buffer
reservation succeeds, and nothing else, so no exit record is present. When its
context insertion is not refused, the context is stored, and a later
`vfs_mkdir` kprobe by the same task overwrites it under the same key: the key
then holds the later `start_ns`, and no other key has changed. The next
kretprobe of the task, when its reservation succeeds, appends one exit record
whose duration is measured from the later entry; with or without a reservation
it leaves no entry under the key. -/
theorem stale_ctx_overwritten (env1 env2 env3 : Env) (d1 d2 rc : Nat) (s : FState)
    (h1 : should_trace env1.target_comm env1.comm = 1)
    (h2 : should_trace env2.target_comm env2.comm = 1)
    (hp2 : env2.pid_tgid = env1.pid_tgid) (hp3 : env3.pid_tgid = env1.pid_tgid)
    (hnr : refused env1.map_full s.kprobe_ctx_map (kprobe_key env1.pid_tgid OP_VFS_MKDIR)
      = false) :
    ((kp_vfs_mkdir env1 d1 s).events =
        (match env1.reserve with
        | none => s.events
        | some e0 => s.events ++ [vfs_entry_record OP_VFS_MKDIR env1 d1 e0])) ∧
    (∀ e0, (vfs_entry_record OP_VFS_MKDIR env1 d1 e0).flags = 1) ∧
    (kp_vfs_mkdir env1 d1 s).kprobe_ctx_map (kprobe_key env1.pid_tgid OP_VFS_MKDIR)
      = some { start_ns := env1.ktime, op := OP_VFS_MKDIR } ∧
    (kp_vfs_mkdir env2 d2 (kp_vfs_mkdir env1 d1 s)).kprobe_ctx_map
        (kprobe_key env1.pid_tgid OP_VFS_MKDIR)
      = some { start_ns := env2.ktime, op := OP_VFS_MKDIR } ∧
    (∀ j, j ≠ kprobe_key env1.pid_tgid OP_VFS_MKDIR →
      (kp_vfs_mkdir env2 d2 (kp_vfs_mkdir env1 d1 s)).kprobe_ctx_map j = s.kprobe_ctx_map j) ∧
    (∀ e3, env3.reserve = some e3 →
      (kretp_vfs_mkdir env3 rc (kp_vfs_mkdir env2 d2 (kp_vfs_mkdir env1 d1 s))).events
        = (kp_vfs_mkdir env2 d2 (kp_vfs_mkdir env1 d1 s)).events
          ++ [kprobe_exit_record env3 OP_VFS_MKDIR (kretprobe_ret rc)
                { start_ns := env2.ktime, op := OP_VFS_MKDIR } e3] ∧
      (kprobe_exit_record env3 OP_VFS_MKDIR (kretprobe_ret rc)
          { start_ns := env2.ktime, op := OP_VFS_MKDIR } e3).duration_ns
        = u64_sub env3.ktime env2.ktime ∧
      (kprobe_exit_record env3 OP_VFS_MKDIR (kretprobe_ret rc)
          { start_ns := env2.ktime, op := OP_VFS_MKDIR } e3).flags = 0) ∧
    (kretp_vfs_mkdir env3 rc (kp_vfs_mkdir env2 d2 (kp_vfs_mkdir env1 d1 s))).kprobe_ctx_map
        (kprobe_key env1.pid_tgid OP_VFS_MKDIR) = none := by
  have f1 : ¬ should_trace env1.target_comm env1.comm = 0 := by rw [h1]; decide
  have f2 : ¬ should_trace env2.target_comm env2.comm = 0 := by rw [h2]; decide
  obtain ⟨m1, v1⟩ := kp_vfs_entry_parts OP_VFS_MKDIR env1 d1 s f1
  obtain ⟨m2, _⟩ := kp_vfs_entry_parts OP_VFS_MKDIR env2 d2 (kp_vfs_entry OP_VFS_MKDIR env1 d1 s) f2
  have k1 : (kp_vfs_entry OP_VFS_MKDIR env1 d1 s).kprobe_ctx_map
      (kprobe_key env1.pid_tgid OP_VFS_MKDIR)
      = some { start_ns := env1.ktime, op := OP_VFS_MKDIR } := by
    rw [m1]; exact update_lookup_same _ _ _ _ hnr
  have k2 : (kp_vfs_entry OP_VFS_MKDIR env2 d2
      (kp_vfs_entry OP_VFS_MKDIR env1 d1 s)).kprobe_ctx_map
      (kprobe_key env1.pid_tgid OP_VFS_MKDIR)
      = some { start_ns := env2.ktime, op := OP_VFS_MKDIR } := by
    rw [m2, hp2]
    exact update_lookup_same _ _ _ _ (refused_of_some _ _ _ _ k1)
  have k3 : (emit_kprobe_exit_event env3 OP_VFS_MKDIR (kretprobe_ret rc)
      (kp_vfs_entry OP_VFS_MKDIR env2 d2
        (kp_vfs_entry OP_VFS_MKDIR env1 d1 s))).kprobe_ctx_map
      (kprobe_key env1.pid_tgid OP_VFS_MKDIR) = none := by
    rw [← hp3]
    exact emit_kprobe_exit_event_released env3 OP_VFS_MKDIR _ _
  refine ⟨v1, fun e0 => (vfs_entry_record_fields OP_VFS_MKDIR env1 d1 e0).2.2.2.2.1, k1, k2, ?_,
    ?_, k3⟩
  · intro j hj
    have e2 : (kp_vfs_entry OP_VFS_MKDIR env2 d2
        (kp_vfs_entry OP_VFS_MKDIR env1 d1 s)).kprobe_ctx_map j = s.kprobe_ctx_map j := by
      rw [m2, hp2, update_lookup_other _ _ _ _ _ hj, m1, update_lookup_other _ _ _ _ _ hj]
    exact e2
  · intro e3 hr3
    refine ⟨?_, rfl, rfl⟩
    have := emit_kprobe_exit_event_some env3 OP_VFS_MKDIR (kretprobe_ret rc)
      (kp_vfs_entry OP_VFS_MKDIR env2 d2 (kp_vfs_entry OP_VFS_MKDIR env1 d1 s))
      { start_ns := env2.ktime, op := OP_VFS_MKDIR } e3 (by rw [hp3]; exact k2) hr3
    exact congrArg FState.events this

/-- C24, witness: task 7 enters `vfs_mkdir` at clock 10, its kretprobe is
missed, it enters `vfs_mkdir` again at clock 20 and returns at clock 30: the
context holds 20 after the second entry, the exit record has duration 10, and
no context is left. -/
theorem stale_ctx_overwritten_witness :
    (refused (sample_env [97] [97] 7 10).map_full FState.init.kprobe_ctx_map
        (kprobe_key (sample_env [97] [97] 7 10).pid_tgid OP_VFS_MKDIR) = false) ∧
    ((kretp_vfs_mkdir (sample_env [97] [97] 7 30) 0
        (kp_vfs_mkdir (sample_env [97] [97] 7 20) 0
          (kp_vfs_mkdir (sample_env [97] [97] 7 10) 0 FState.init))).events.map
            (fun e => (e.flags, e.duration_ns))) = [(1, 0), (1, 0), (0, 10)] ∧
    (kp_vfs_mkdir (sample_env [97] [97] 7 20) 0
        (kp_vfs_mkdir (sample_env [97] [97] 7 10) 0 FState.init)).kprobe_ctx_map
        (kprobe_key (sample_env [97] [97] 7 10).pid_tgid OP_VFS_MKDIR)
      = some { start_ns := (sample_env [97] [97] 7 20).ktime, op := OP_VFS_MKDIR } ∧
    (kretp_vfs_mkdir (sample_env [97] [97] 7 30) 0
        (kp_vfs_mkdir (sample_env [97] [97] 7 20) 0
          (kp_vfs_mkdir (sample_env [97] [97] 7 10) 0 FState.init))).kprobe_ctx_map
        (kprobe_key (sample_env [97] [97] 7 10).pid_tgid OP_VFS_MKDIR) = none :=
  ⟨by decide, by decide,
    (stale_ctx_overwritten (sample_env [97] [97] 7 10) (sample_env [97] [97] 7 20)
      (sample_env [97] [97] 7 30) 0 0 0 FState.init (by decide) (by decide) rfl rfl
      (by decide)).2.2.2.1,
    (stale_ctx_overwritten (sample_env [97] [97] 7 10) (sample_env [97] [97] 7 20)
      (sample_env [97] [97] 7 30) 0 0 0 FState.init (by decide) (by decide) rfl rfl
      (by decide)).2.2.2.2.2.2⟩

/-! ## C25: the key of `kprobe_ctx_map` -/

/-- C25. The key `(pid_tgid << 8) | op`, computed in 64-bit unsigned arithmetic,
is injective on pairs with `pid_tgid < 2 ^ 56` and `op < 256`: two such pairs
give the same key only if they are equal, so two different ops of one task, for
example `vfs_mkdir` nested inside `ovl_workdir_create`, never share an entry.
For `pid_tgid >= 2 ^ 56` the top 8 bits are shifted out: `pid_tgid + 2 ^ 56`,
the id of a task with another tgid, gives the same key as `pid_tgid`. -/
theorem kprobe_key_injective (p1 p2 o1 o2 : Nat) (h1 : p1 < 2 ^ 56) (h2 : p2 < 2 ^ 56)
    (h3 : o1 < 256) (h4 : o2 < 256) :
    (kprobe_key p1 o1 = kprobe_key p2 o2 ↔ p1 = p2 ∧ o1 = o2) ∧
    (o1 ≠ o2 → kprobe_key p1 o1 ≠ kprobe_key p1 o2) ∧
    kprobe_key p1 OP_VFS_MKDIR ≠ kprobe_key p1 OP_OVL_WORKDIR_CREATE ∧
    (kprobe_key (p1 + 2 ^ 56) o1 = kprobe_key p1 o1 ∧ p1 + 2 ^ 56 < 2 ^ 64 ∧
      tgid_of (p1 + 2 ^ 56) ≠ tgid_of p1) := by
  have e1 := kprobe_key_eq p1 o1 h1 h3
  have e2 := kprobe_key_eq p2 o2 h2 h4
  have e3 := kprobe_key_eq p1 o2 h1 h4
  have e4 := kprobe_key_eq p1 OP_VFS_MKDIR h1 (by decide)
  have e5 := kprobe_key_eq p1 OP_OVL_WORKDIR_CREATE h1 (by decide)
  refine ⟨?_, ?_, ?_, kprobe_key_wrap p1 o1, by omega, ?_⟩
  · rw [e1, e2]
    constructor
    · intro h; omega
    · intro h; rw [h.1, h.2]
  · intro hne
    rw [e1, e3]
    omega
  · rw [e4, e5]
    simp only [OP_VFS_MKDIR, OP_OVL_WORKDIR_CREATE]
    omega
  · simp only [tgid_of, Nat.shiftRight_eq_div_pow]
    omega

/-- C25, witness: for task 7 the keys of `vfs_mkdir` (op 8) and of
`ovl_workdir_create` (op 6) differ, and task `7 + 2 ^ 56` shares the keys of
task 7. -/
theorem kprobe_key_injective_witness :
    ((7 : Nat) < 2 ^ 56 ∧ (8 : Nat) < 256 ∧ (6 : Nat) < 256) ∧
    (kprobe_key 7 8 = 1800 ∧ kprobe_key 7 6 = 1798 ∧ kprobe_key (7 + 2 ^ 56) 8 = 1800) ∧
    (kprobe_key 7 8 = kprobe_key 7 6 ↔ (7 : Nat) = 7 ∧ (8 : Nat) = 6) :=
  ⟨by decide, by decide, (kprobe_key_injective 7 7 8 6 (by decide) (by decide) (by decide)
    (by decide)).1⟩

/-! ## C26: where `read_dentry_path` writes -/

/-- C26. For every `buflen >= 2`, every kernel memory (so every name and parent
name) and every prior contents of the buffer and of the two locals,
`read_dentry_path` writes only to the indices `0 .. buflen - 1` of `buf`, and
its result is NUL-terminated at a position `pos <= min (buflen - 1) 95`: the
bytes before `pos` are non-zero, the byte at `pos` is NUL, and nothing after
`pos` is modified. When `dentry` is null or `buflen < 2` it writes only
`buf[0] = 0`. -/
theorem read_dentry_path_bounds (k : KMem) (name0 parent_name0 : Bytes 48) (d : Nat)
    (buf : Nat → Nat) (buflen : Int) :
    (2 ≤ buflen →
      (∀ j : Nat, buflen ≤ (j : Int) →
        read_dentry_path k name0 parent_name0 d buf buflen j = buf j) ∧
      ∃ pos : Nat, (pos : Int) ≤ buflen - 1 ∧ pos ≤ 95 ∧
        read_dentry_path k name0 parent_name0 d buf buflen pos = 0 ∧
        (∀ j, j < pos → read_dentry_path k name0 parent_name0 d buf buflen j ≠ 0) ∧
        (∀ j, pos < j → read_dentry_path k name0 parent_name0 d buf buflen j = buf j)) ∧
    (d = 0 ∨ buflen < 2 →
      read_dentry_path k name0 parent_name0 d buf buflen 0 = 0 ∧
      ∀ j, j ≠ 0 → read_dentry_path k name0 parent_name0 d buf buflen j = buf j) := by
  have hnull : d = 0 ∨ buflen < 2 →
      read_dentry_path k name0 parent_name0 d buf buflen 0 = 0 ∧
      ∀ j, j ≠ 0 → read_dentry_path k name0 parent_name0 d buf buflen j = buf j := by
    intro h
    unfold read_dentry_path
    rw [if_pos h]
    refine ⟨by simp only [poke, if_true], ?_⟩
    intro j hj
    simp only [poke]
    rw [if_neg hj]
  refine ⟨?_, hnull⟩
  intro hb
  have hex : ∃ pos : Nat, (pos : Int) ≤ buflen - 1 ∧ pos ≤ 95 ∧
      read_dentry_path k name0 parent_name0 d buf buflen pos = 0 ∧
      (∀ j, j < pos → read_dentry_path k name0 parent_name0 d buf buflen j ≠ 0) ∧
      (∀ j, pos < j → read_dentry_path k name0 parent_name0 d buf buflen j = buf j) := by
    by_cases hd : d = 0 ∨ buflen < 2
    · obtain ⟨z1, z2⟩ := hnull hd
      exact ⟨0, by omega, by omega, z1, fun j hj => absurd hj (by omega),
        fun j hj => z2 j (by omega)⟩
    · unfold read_dentry_path
      rw [if_neg hd]
      exact build_path_bounds _ _ _ buf buflen hb
  refine ⟨?_, hex⟩
  obtain ⟨pos, p1, _, _, _, p5⟩ := hex
  intro j hj
  exact p5 j (by omega)

/-- C26, witness: the dentry "c" with parent "b" read into a buffer of 3 bytes
gives "b/" and a NUL; the bytes from index 3 on are untouched. With
`buflen = 1` only `buf[0]` is written. -/
theorem read_dentry_path_bounds_witness :
    ((2 : Int) ≤ 3 ∧ ((1 : Int) < 2)) ∧
    ((List.range 5).map
        (read_dentry_path sample_kmem (zeroBytes 48) (zeroBytes 48) 100 (fun _ => 1) 3))
      = [98, 47, 0, 1, 1] ∧
    (∀ j : Nat, (3 : Int) ≤ (j : Int) →
      read_dentry_path sample_kmem (zeroBytes 48) (zeroBytes 48) 100 (fun _ => 1) 3 j
        = (fun _ => 1) j) ∧
    (read_dentry_path sample_kmem (zeroBytes 48) (zeroBytes 48) 100 (fun _ => 1) 1 0 = 0 ∧
      ∀ j, j ≠ 0 →
        read_dentry_path sample_kmem (zeroBytes 48) (zeroBytes 48) 100 (fun _ => 1) 1 j
          = (fun _ => 1) j) :=
  ⟨by decide, by decide,
    ((read_dentry_path_bounds sample_kmem (zeroBytes 48) (zeroBytes 48) 100 (fun _ => 1) 3).1
      (by decide)).1,
    (read_dentry_path_bounds sample_kmem (zeroBytes 48) (zeroBytes 48) 100 (fun _ => 1) 1).2
      (Or.inr (by decide))⟩

end Dagger
